import Mathlib

/-!
Voxel world store and cluster mesher (`source/world.c`, `source/gs.c`).

A shallow embedding of the world / chunk / cluster block getters, of the
cluster mesher `generateWorldClusterGeometry` and of the vertex buffer
operations `gsVbo*`, with the properties verified about them.

Conventions of the embedding:

* a C pointer that may be `NULL` is an `Option`;
* `int` coordinates are `Int`; `/` and `%` of C are `Int.tdiv` and `Int.tmod`
  (truncation towards zero);
* `u8` is `Fin 256`; `u32` fields are `Nat` and every `u32` assignment
  reduces modulo `2 ^ 32`;
* a C array is a function of its indices, read only at the indices the code
  reads;
* the constants of the headers that are not part of the sources are the
  fields of `Consts`;
* a call that may not return (a write through a null pointer) has an `Option`
  result, `none` when it does not return.
-/

namespace Craft

/-! ## Constants and vectors -/

/-- Constants of the headers (`world.h`, `block.h`), which are not among the
sources: they are parameters of the development. -/
structure Consts where
  CLUSTER_SIZE : Nat
  CHUNK_HEIGHT : Nat
  WORLD_SIZE : Nat
  FACE_VBO_SIZE : Nat
deriving DecidableEq, Repr

/-- An unsigned byte, the type of a block. -/
abbrev u8 := Fin 256

/-- Integer vector `vect3Di_s`. -/
structure vect3Di_s where
  x : Int
  y : Int
  z : Int
deriving DecidableEq, Repr

/-- Modelled from the spec: the vector constructor `vect3Di` of `math.h`, which is
not among the sources. -/
def vect3Di (x y z : Int) : vect3Di_s := ⟨x, y, z⟩

/-- Modelled from the spec: `vaddi` of `math.h` (not among the sources), the
componentwise sum used to translate a local position to world coordinates.
Sums are taken in `Int`, without wrapping: overflow of an `int` is undefined in
C, and the model is exact for the positions whose sums fit in an `int`. -/
def vaddi (a b : vect3Di_s) : vect3Di_s := ⟨a.x + b.x, a.y + b.y, a.z + b.z⟩

/-- Modelled from the spec: `vmuli` of `math.h` (not among the sources), the
product of a vector by an integer (cluster position times `CLUSTER_SIZE`).
Products are taken in `Int`, without wrapping, as for `vaddi`. -/
def vmuli (a : vect3Di_s) (k : Int) : vect3Di_s := ⟨a.x * k, a.y * k, a.z * k⟩

/-! ## Vertex buffer (`gsVbo_s`) -/

/-- The vertex buffer `gsVbo_s`. `data` is `none` for a `NULL` pointer and
otherwise the bytes of the linear region it points to; `commands` likewise for
the compiled command words. -/
structure gsVbo_s where
  data : Option (List Nat)
  currentSize : Nat
  maxSize : Nat
  numVertices : Nat
  commands : Option (List Nat)
  commandsSize : Nat
deriving DecidableEq, Repr

/-! ## World, chunk, cluster -/

/-- The cluster `worldCluster_s`: `data[i][j][k]`, position, buffer, flag. -/
structure worldCluster_s where
  data : Nat → Nat → Nat → u8
  position : vect3Di_s
  vbo : gsVbo_s
  generated : Bool

/-- The chunk `worldChunk_s`: a vertical stack `data[j]` of clusters. -/
structure worldChunk_s where
  data : Nat → worldCluster_s
  position : vect3Di_s

/-- The world `world_s`: a grid `data[i][j]` of pointers to chunks. -/
structure world_s where
  data : Nat → Nat → Option worldChunk_s

/-- Range guard of `getWorldClusterBlock` (its second and third `if`). -/
def clusterRangeCheck (K : Consts) (p : vect3Di_s) : Bool :=
  decide (p.x < 0 ∨ p.y < 0 ∨ p.z < 0) ||
  decide (p.x ≥ K.CLUSTER_SIZE ∨ p.y ≥ K.CLUSTER_SIZE ∨ p.z ≥ K.CLUSTER_SIZE)

/-- Block getter of a cluster, `getWorldClusterBlock`. -/
def getWorldClusterBlock (K : Consts) (wcl : Option worldCluster_s) (p : vect3Di_s) : Int :=
  match wcl with
  | none => -1
  | some c =>
    if clusterRangeCheck K p then -1
    else ((c.data p.x.toNat p.y.toNat p.z.toNat).val : Int)

/-- Range guard of `getWorldChunkBlock` (its second and third `if`). -/
def chunkRangeCheck (K : Consts) (p : vect3Di_s) : Bool :=
  decide (p.x < 0 ∨ p.y < 0 ∨ p.z < 0) ||
  decide (p.x ≥ K.CLUSTER_SIZE ∨ p.y ≥ (K.CHUNK_HEIGHT : Int) * K.CLUSTER_SIZE
    ∨ p.z ≥ K.CLUSTER_SIZE)

/-- Index of the cluster `getWorldChunkBlock` reads: `p.y/CLUSTER_SIZE`. -/
def chunkClusterIndex (K : Consts) (p : vect3Di_s) : Int :=
  Int.tdiv p.y K.CLUSTER_SIZE

/-- The position `getWorldChunkBlock` hands to the cluster getter:
`vect3Di(p.x, p.y%CLUSTER_SIZE, p.z)`. -/
def chunkToClusterCoord (K : Consts) (p : vect3Di_s) : vect3Di_s :=
  vect3Di p.x (Int.tmod p.y K.CLUSTER_SIZE) p.z

/-- Block getter of a chunk, `getWorldChunkBlock`. -/
def getWorldChunkBlock (K : Consts) (wc : Option worldChunk_s) (p : vect3Di_s) : Int :=
  match wc with
  | none => -1
  | some c =>
    if chunkRangeCheck K p then -1
    else getWorldClusterBlock K (some (c.data (chunkClusterIndex K p).toNat))
      (chunkToClusterCoord K p)

/-- Range guard of `getWorldBlock` (its second and third `if`). -/
def worldRangeCheck (K : Consts) (p : vect3Di_s) : Bool :=
  decide (p.x < 0 ∨ p.y < 0 ∨ p.z < 0) ||
  decide (p.x ≥ (K.WORLD_SIZE : Int) * K.CLUSTER_SIZE
    ∨ p.y ≥ (K.CHUNK_HEIGHT : Int) * K.CLUSTER_SIZE
    ∨ p.z ≥ (K.WORLD_SIZE : Int) * K.CLUSTER_SIZE)

/-- Grid indices of the chunk `getWorldBlock` reads:
`[p.x/CLUSTER_SIZE][p.z/CLUSTER_SIZE]`. -/
def worldChunkIndex (K : Consts) (p : vect3Di_s) : Int × Int :=
  (Int.tdiv p.x K.CLUSTER_SIZE, Int.tdiv p.z K.CLUSTER_SIZE)

/-- The position `getWorldBlock` hands to the chunk getter:
`vect3Di(p.x%CLUSTER_SIZE, p.y, p.z%CLUSTER_SIZE)`. -/
def worldToChunkCoord (K : Consts) (p : vect3Di_s) : vect3Di_s :=
  vect3Di (Int.tmod p.x K.CLUSTER_SIZE) p.y (Int.tmod p.z K.CLUSTER_SIZE)

/-- Block getter of the world, `getWorldBlock`. -/
def getWorldBlock (K : Consts) (w : Option world_s) (p : vect3Di_s) : Int :=
  match w with
  | none => -1
  | some w =>
    if worldRangeCheck K p then -1
    else getWorldChunkBlock K
      (w.data (worldChunkIndex K p).1.toNat (worldChunkIndex K p).2.toNat)
      (worldToChunkCoord K p)

/-- The position is out of the range of the world. -/
def worldOutOfRange (K : Consts) (p : vect3Di_s) : Prop :=
  p.x < 0 ∨ p.y < 0 ∨ p.z < 0 ∨ p.x ≥ (K.WORLD_SIZE : Int) * K.CLUSTER_SIZE ∨
  p.y ≥ (K.CHUNK_HEIGHT : Int) * K.CLUSTER_SIZE ∨ p.z ≥ (K.WORLD_SIZE : Int) * K.CLUSTER_SIZE

/-- The position is in the range of the world. -/
def worldInRange (K : Consts) (p : vect3Di_s) : Prop :=
  0 ≤ p.x ∧ p.x < (K.WORLD_SIZE : Int) * K.CLUSTER_SIZE ∧
  0 ≤ p.y ∧ p.y < (K.CHUNK_HEIGHT : Int) * K.CLUSTER_SIZE ∧
  0 ≤ p.z ∧ p.z < (K.WORLD_SIZE : Int) * K.CLUSTER_SIZE

instance (K : Consts) (p : vect3Di_s) : Decidable (worldOutOfRange K p) := by
  unfold worldOutOfRange; infer_instance

instance (K : Consts) (p : vect3Di_s) : Decidable (worldInRange K p) := by
  unfold worldInRange; infer_instance

/-- A world is fully populated when every cell of its grid holds a chunk. -/
def worldPopulated (K : Consts) (w : world_s) : Prop :=
  ∀ i j : Nat, i < K.WORLD_SIZE → j < K.WORLD_SIZE → (w.data i j).isSome = true

/-- Recomposition of a world coordinate as the mesher does it: the cluster
position `(chunk.x, cluster, chunk.z)` times `CLUSTER_SIZE`, plus the local
position (`vaddi(vmuli(position, CLUSTER_SIZE), local)`). -/
def recompose (K : Consts) (clusterPos loc : vect3Di_s) : vect3Di_s :=
  vaddi (vmuli clusterPos K.CLUSTER_SIZE) loc

/-! ## Vertex buffer operations (`gs.c`) -/

/-- Value of an expression stored in a `u32`. -/
def toU32 (n : Nat) : Nat := n % 2 ^ 32

/-- The cast `(s32)` of a `u32` value (two's complement). -/
def toS32 (n : Nat) : Int :=
  if n % 2 ^ 32 < 2 ^ 31 then ((n % 2 ^ 32 : Nat) : Int) else ((n % 2 ^ 32 : Nat) : Int) - 2 ^ 32

/-- Conversion of an `int` to `u32`, as the usual arithmetic conversions do
when an `int` is compared with a `u32`. -/
def s32ToU32 (i : Int) : Nat := (i % 2 ^ 32).toNat

/-- Reset of a buffer, `gsVboInit`: result code and the buffer afterwards.
`numVertices` is not assigned. -/
def gsVboInit (vbo : Option gsVbo_s) : Int × Option gsVbo_s :=
  match vbo with
  | none => (-1, none)
  | some v =>
    (0, some { v with data := none, currentSize := 0, maxSize := 0,
                      commands := none, commandsSize := 0 })

/-- Creation of a buffer, `gsVboCreate`. `gsLinearAlloc` is the allocator:
`none` when it returns `NULL`, else the fresh region. The result code does not
depend on what the allocator returned. -/
def gsVboCreate (gsLinearAlloc : Nat → Option (List Nat)) (vbo : Option gsVbo_s)
    (size : Nat) : Int × Option gsVbo_s :=
  match vbo with
  | none => (-1, none)
  | some v =>
    (0, some { v with data := gsLinearAlloc size, numVertices := 0,
                      currentSize := 0, maxSize := size })

/-- Offset at which `gsVboGetOffset` points into the region: `currentSize`. -/
def gsVboGetOffset (vbo : gsVbo_s) : Nat := vbo.currentSize

/-- The `memcpy` of `gsVboAddData`: `size` bytes of `src` written at offset
`off` of the region. -/
def memcpyAt (region : List Nat) (off : Nat) (src : List Nat) (size : Nat) : List Nat :=
  region.take off ++ src.take size ++ region.drop (off + size)

/-- Append to a buffer, `gsVboAddData`: result code and the buffer afterwards,
or `none` when the call does not return. The guard compares the `int`
difference of the two sizes, converted to `u32`, with the `u32` size. The
region `vbo->data` is not tested: when the guards pass and it is `NULL`, the
`memcpy` writes through `NULL + currentSize` and the call does not return. -/
def gsVboAddData (vbo : Option gsVbo_s) (data : Option (List Nat)) (size units : Nat) :
    Option (Int × Option gsVbo_s) :=
  match vbo with
  | none => some (-1, none)
  | some v =>
    match data with
    | none => some (-1, some v)
    | some src =>
      if size = 0 then some (-1, some v)
      else if s32ToU32 (toS32 v.maxSize - toS32 v.currentSize) < size then some (-1, some v)
      else
        match v.data with
        | none => none
        | some region =>
          some (0, some { v with
            data := some (memcpyAt region (gsVboGetOffset v) src size),
            currentSize := toU32 (v.currentSize + size),
            numVertices := toU32 (v.numVertices + units) })

/-- Flush of a buffer, `gsVboFlushData`: only a result code. -/
def gsVboFlushData (vbo : Option gsVbo_s) : Int :=
  match vbo with
  | none => -1
  | some _ => 0

/-- Destruction of a buffer, `gsVboDestroy`: both regions are released and the
buffer is reset by `gsVboInit`. -/
def gsVboDestroy (vbo : Option gsVbo_s) : Int × Option gsVbo_s :=
  match vbo with
  | none => (-1, none)
  | some v => (0, (gsVboInit (some v)).2)

/-! ## Faces and the mesher (`world.c`) -/

/-- Modelled from the spec: the six face directions of `block.h`, which is not
among the sources, in the order the mesher tests them. -/
inductive facing where
  | FACE_PX | FACE_MX | FACE_PY | FACE_MY | FACE_PZ | FACE_MZ
deriving DecidableEq, Repr

/-- Modelled from the spec: the record `blockFace_s` of `block.h` (not among the
sources): block type, direction, local position of the block in its cluster. -/
structure blockFace_s where
  type : u8
  dir : facing
  p : vect3Di_s
deriving DecidableEq, Repr

/-- Modelled from the spec: the constructor `blockFace` of `block.h` (not among
the sources). -/
def blockFace (type : u8) (dir : facing) (p : vect3Di_s) : blockFace_s := ⟨type, dir, p⟩

/-- Number of entries of the static array `faceList` of the mesher. -/
def FACE_LIST_CAPACITY : Nat := 4096

/-- The macro `pushFace`, `((l)[(s)++]=f)`: the staging list is a stack, its
head the last face pushed, its length `faceListSize`. The macro does not test
the capacity: the stack is the content of `faceList` as long as its length
stays within `FACE_LIST_CAPACITY`. -/
def pushFace (l : List blockFace_s) (f : blockFace_s) : List blockFace_s := f :: l

/-- The index of `faceList` that `pushFace` writes when the stack is `l`: the
value of `faceListSize` before the increment. -/
def pushIndex (l : List blockFace_s) : Nat := l.length

/-- The write of `pushFace` is inside the array `faceList`. -/
def pushInside (l : List blockFace_s) : Bool := decide (pushIndex l < FACE_LIST_CAPACITY)

/-- The macro `popFace`: the last face pushed and the rest, `none` when empty. -/
def popFace (l : List blockFace_s) : Option (blockFace_s × List blockFace_s) :=
  match l with
  | [] => none
  | f :: r => some (f, r)

/-- The macro `pushFace` on the array itself: `faceList` holds `arr`,
`faceListSize` is `s`; the face is written at the index `s` and `s` is
incremented. `none` when the index is outside the array. -/
def pushFaceArray (arr : List blockFace_s) (s : Nat) (f : blockFace_s) :
    Option (List blockFace_s × Nat) :=
  if s < arr.length then some (arr.set s f, s + 1) else none

/-- One line of the scan: `if(blockShouldBeFace(cb, nb)>=0) pushFace(...)`.
`bsf` is the classifier `blockShouldBeFace`. -/
def pushIf (bsf : u8 → Int → Int) (cb : u8) (nb : Int) (d : facing) (pos : vect3Di_s)
    (fl : List blockFace_s) : List blockFace_s :=
  if bsf cb nb ≥ 0 then pushFace fl (blockFace cb d pos) else fl

/-- The test of the scan for a voxel strictly inside the cluster. -/
def isInterior (K : Consts) (i j k : Nat) : Bool :=
  decide ((i : Int) ≥ 1 ∧ (i : Int) < (K.CLUSTER_SIZE : Int) - 1 ∧
          (j : Int) ≥ 1 ∧ (j : Int) < (K.CLUSTER_SIZE : Int) - 1 ∧
          (k : Int) ≥ 1 ∧ (k : Int) < (K.CLUSTER_SIZE : Int) - 1)

/-- Body of the innermost loop of `generateWorldClusterGeometry` for the voxel
`(i, j, k)`: six tests against the cluster itself for an interior voxel (there
`i - 1`, `j - 1`, `k - 1` are indices, as all three are at least 1), six tests
through `getWorldBlock` for another voxel when a world is given, and nothing
for another voxel when no world is given. -/
def scanVoxel (K : Consts) (bsf : u8 → Int → Int) (wcl : worldCluster_s)
    (w : Option world_s) (i j k : Nat) (fl : List blockFace_s) : List blockFace_s :=
  let p := vmuli wcl.position K.CLUSTER_SIZE
  let cb := wcl.data i j k
  let v := vect3Di i j k
  if isInterior K i j k then
    fl |> pushIf bsf cb ((wcl.data (i + 1) j k).val : Int) .FACE_PX v
       |> pushIf bsf cb ((wcl.data (i - 1) j k).val : Int) .FACE_MX v
       |> pushIf bsf cb ((wcl.data i (j + 1) k).val : Int) .FACE_PY v
       |> pushIf bsf cb ((wcl.data i (j - 1) k).val : Int) .FACE_MY v
       |> pushIf bsf cb ((wcl.data i j (k + 1)).val : Int) .FACE_PZ v
       |> pushIf bsf cb ((wcl.data i j (k - 1)).val : Int) .FACE_MZ v
  else if w.isSome then
    fl |> pushIf bsf cb (getWorldBlock K w (vaddi p (vect3Di ((i : Int) + 1) j k))) .FACE_PX v
       |> pushIf bsf cb (getWorldBlock K w (vaddi p (vect3Di ((i : Int) - 1) j k))) .FACE_MX v
       |> pushIf bsf cb (getWorldBlock K w (vaddi p (vect3Di i ((j : Int) + 1) k))) .FACE_PY v
       |> pushIf bsf cb (getWorldBlock K w (vaddi p (vect3Di i ((j : Int) - 1) k))) .FACE_MY v
       |> pushIf bsf cb (getWorldBlock K w (vaddi p (vect3Di i j ((k : Int) + 1)))) .FACE_PZ v
       |> pushIf bsf cb (getWorldBlock K w (vaddi p (vect3Di i j ((k : Int) - 1)))) .FACE_MZ v
  else fl

/-- The scan of `generateWorldClusterGeometry` (the three nested loops over
`i`, `j`, `k`), from an empty staging list: the stack of staged faces. -/
def scanCluster (K : Consts) (bsf : u8 → Int → Int) (wcl : worldCluster_s)
    (w : Option world_s) : List blockFace_s :=
  (List.range K.CLUSTER_SIZE).foldl (fun fl i =>
    (List.range K.CLUSTER_SIZE).foldl (fun fl j =>
      (List.range K.CLUSTER_SIZE).foldl (fun fl k =>
        scanVoxel K bsf wcl w i j k fl) fl) fl) []

/-- The faces staged by the scan, in the order they were pushed. -/
def stagedFaces (K : Consts) (bsf : u8 → Int → Int) (wcl : worldCluster_s)
    (w : Option world_s) : List blockFace_s :=
  (scanCluster K bsf wcl w).reverse

/-- The drain loop `while((bf=popFace(...))) blockGenerateFaceGeometry(bf, vbo)`
run for at most `n` turns, with its trace: the buffer afterwards (`none` when a
call of the writer does not return), the faces in the order `popFace` returned
them, and the staging list that is left. `bgfg` is
`blockGenerateFaceGeometry`; `bgfg f v = none` when its call does not return. -/
def drainLoop (bgfg : blockFace_s → gsVbo_s → Option gsVbo_s) :
    Nat → List blockFace_s → gsVbo_s → Option gsVbo_s × List blockFace_s × List blockFace_s
  | 0, l, v => (some v, [], l)
  | n + 1, l, v =>
    match popFace l with
    | none => (some v, [], l)
    | some (f, r) =>
      match bgfg f v with
      | none => (none, [f], r)
      | some v1 => ((drainLoop bgfg n r v1).1, f :: (drainLoop bgfg n r v1).2.1,
          (drainLoop bgfg n r v1).2.2)

/-- The drain loop with its trace. Every turn pops one face, so the loop ends
within `faceListSize` turns. -/
def drainTrace (bgfg : blockFace_s → gsVbo_s → Option gsVbo_s) (l : List blockFace_s)
    (v : gsVbo_s) : Option gsVbo_s × List blockFace_s × List blockFace_s :=
  drainLoop bgfg l.length l v

/-- The buffer after the drain loop, `none` when a call of the writer does not
return. -/
def drainFaces (bgfg : blockFace_s → gsVbo_s → Option gsVbo_s) (l : List blockFace_s)
    (v : gsVbo_s) : Option gsVbo_s :=
  (drainTrace bgfg l v).1

/-- A geometry writer that returns on every call. -/
def returning (bgfg : blockFace_s → gsVbo_s → gsVbo_s) :
    blockFace_s → gsVbo_s → Option gsVbo_s :=
  fun f v => some (bgfg f v)

/-- The mesher `generateWorldClusterGeometry`: `none` when the call does not
return, else the cluster afterwards (`some none` for a `NULL` cluster). `bsf`
is the classifier, `bgfg` the geometry writer, `gsLinearAlloc` the allocator.
The call of `gsVboFlushData` changes nothing. -/
def generateWorldClusterGeometry (K : Consts) (bsf : u8 → Int → Int)
    (bgfg : blockFace_s → gsVbo_s → Option gsVbo_s) (gsLinearAlloc : Nat → Option (List Nat))
    (wcl : Option worldCluster_s) (w : Option world_s) : Option (Option worldCluster_s) :=
  match wcl with
  | none => some none
  | some c =>
    let vbo0 := if c.generated then ((gsVboDestroy (some c.vbo)).2).getD c.vbo else c.vbo
    let c1 : worldCluster_s := { c with vbo := vbo0, generated := false }
    let faceList := scanCluster K bsf c1 w
    let size := toU32 (faceList.length * K.FACE_VBO_SIZE)
    let r := gsVboCreate gsLinearAlloc (some c1.vbo) size
    let c2 : worldCluster_s := { c1 with vbo := r.2.getD c1.vbo }
    if r.1 = 0 then
      (drainFaces bgfg faceList c2.vbo).map (fun v =>
        some { c2 with vbo := v, generated := true })
    else some (some c2)

/-- The neighbour value the scan hands to the classifier for a voxel and a
direction: read from the cluster for an interior voxel, through
`getWorldBlock` for another voxel. -/
def scanNeighbour (K : Consts) (wcl : worldCluster_s) (w : Option world_s)
    (i j k : Nat) (d : facing) : Int :=
  if isInterior K i j k then
    match d with
    | .FACE_PX => ((wcl.data (i + 1) j k).val : Int)
    | .FACE_MX => ((wcl.data (i - 1) j k).val : Int)
    | .FACE_PY => ((wcl.data i (j + 1) k).val : Int)
    | .FACE_MY => ((wcl.data i (j - 1) k).val : Int)
    | .FACE_PZ => ((wcl.data i j (k + 1)).val : Int)
    | .FACE_MZ => ((wcl.data i j (k - 1)).val : Int)
  else
    getWorldBlock K w (vaddi (vmuli wcl.position K.CLUSTER_SIZE)
      (match d with
       | .FACE_PX => vect3Di ((i : Int) + 1) j k
       | .FACE_MX => vect3Di ((i : Int) - 1) j k
       | .FACE_PY => vect3Di i ((j : Int) + 1) k
       | .FACE_MY => vect3Di i ((j : Int) - 1) k
       | .FACE_PZ => vect3Di i j ((k : Int) + 1)
       | .FACE_MZ => vect3Di i j ((k : Int) - 1)))

/-- The faces the scan pushes for one voxel, in the order pushed. -/
def voxelFaces (K : Consts) (bsf : u8 → Int → Int) (wcl : worldCluster_s)
    (w : Option world_s) (i j k : Nat) : List blockFace_s :=
  if isInterior K i j k || w.isSome then
    ([facing.FACE_PX, .FACE_MX, .FACE_PY, .FACE_MY, .FACE_PZ, .FACE_MZ].filter (fun d =>
      decide (bsf (wcl.data i j k) (scanNeighbour K wcl w i j k d) ≥ 0))).map
      (fun d => blockFace (wcl.data i j k) d (vect3Di i j k))
  else []

/-! ## Classifier and geometry writer, from the specification -/

/-- The block type AIR. -/
def BLOCK_AIR : u8 := 0

/-- The value the getters return for a position out of range. -/
def SENTINEL : Int := -1

/-- A neighbour value that is a solid (non-air) block type. -/
def isSolid (n : Int) : Bool := decide (1 ≤ n ∧ n ≤ 255)

/-- Modelled from the spec: the Block Classifier, whose code (`block.c`) is not
among the sources. A face is needed when `current` is a solid (non-air) type
and `neighbor` is not solid or is the out-of-bounds sentinel, unknown space
being treated as see-through. An AIR block needs no face, whatever its
neighbour: a cluster of AIR yields no face. -/
def face_needed (current : u8) (neighbor : Int) : Bool :=
  decide (current ≠ BLOCK_AIR) && (!isSolid neighbor || decide (neighbor = SENTINEL))

/-- Modelled from the spec: the classifier `blockShouldBeFace` of `block.c` (not
among the sources) as the mesher tests it: non-negative exactly when
`face_needed` holds. -/
def blockShouldBeFace (current : u8) (neighbor : Int) : Int :=
  if face_needed current neighbor then 0 else -1

/-- Modelled from the spec: the geometry writer `blockGenerateFaceGeometry` of
`block.c` (not among the sources): it appends the geometry of one face,
`FACE_VBO_SIZE` bytes holding 6 vertices, to the buffer with `gsVboAddData`.
`geom` gives the bytes of a face. The call does not return when that of
`gsVboAddData` does not. -/
def blockGenerateFaceGeometry (K : Consts) (geom : blockFace_s → List Nat)
    (bf : blockFace_s) (vbo : gsVbo_s) : Option gsVbo_s :=
  (gsVboAddData (some vbo) (some (geom bf)) K.FACE_VBO_SIZE 6).map (fun r => r.2.getD vbo)

/-! ## The mesher as the specification words it -/

/-- The six directions, in the order of the scan. -/
def allFacings : List facing :=
  [.FACE_PX, .FACE_MX, .FACE_PY, .FACE_MY, .FACE_PZ, .FACE_MZ]

/-- Offset of the neighbour in a direction. -/
def facingOffset : facing → vect3Di_s
  | .FACE_PX => vect3Di 1 0 0
  | .FACE_MX => vect3Di (-1) 0 0
  | .FACE_PY => vect3Di 0 1 0
  | .FACE_MY => vect3Di 0 (-1) 0
  | .FACE_PZ => vect3Di 0 0 1
  | .FACE_MZ => vect3Di 0 0 (-1)

/-- A local position lies inside the cluster. -/
def inCluster (K : Consts) (q : vect3Di_s) : Bool :=
  decide (0 ≤ q.x ∧ q.x < K.CLUSTER_SIZE ∧ 0 ≤ q.y ∧ q.y < K.CLUSTER_SIZE ∧
          0 ≤ q.z ∧ q.z < K.CLUSTER_SIZE)

/-- The neighbour block as the specification words it: the block of the cluster
itself for a neighbour inside the cluster, `getWorldBlock` at the absolute world
coordinate for a neighbour across the boundary. -/
def neighbourBlock (K : Consts) (c : worldCluster_s) (w : Option world_s)
    (i j k : Nat) (d : facing) : Int :=
  let q := vaddi (vect3Di i j k) (facingOffset d)
  if inCluster K q then ((c.data q.x.toNat q.y.toNat q.z.toNat).val : Int)
  else getWorldBlock K w (vaddi (vmuli c.position K.CLUSTER_SIZE) q)

/-- Every local voxel of a cluster, in the order of the scan. -/
def allVoxels (K : Consts) : List (Nat × Nat × Nat) :=
  (List.range K.CLUSTER_SIZE).flatMap (fun i =>
    (List.range K.CLUSTER_SIZE).flatMap (fun j =>
      (List.range K.CLUSTER_SIZE).map (fun k => (i, j, k))))

/-- Every (voxel, direction) pair, in the order of the scan. -/
def voxelFacingPairs (K : Consts) : List ((Nat × Nat × Nat) × facing) :=
  (allVoxels K).flatMap (fun v => allFacings.map (fun d => (v, d)))

/-- The classifier answers positively for a voxel and a direction. -/
def faceWanted (K : Consts) (bsf : u8 → Int → Int) (c : worldCluster_s)
    (w : Option world_s) (vd : (Nat × Nat × Nat) × facing) : Bool :=
  decide (bsf (c.data vd.1.1 vd.1.2.1 vd.1.2.2)
    (neighbourBlock K c w vd.1.1 vd.1.2.1 vd.1.2.2 vd.2) ≥ 0)

/-- The face record staged for a voxel and a direction. -/
def faceOf (c : worldCluster_s) (vd : (Nat × Nat × Nat) × facing) : blockFace_s :=
  blockFace (c.data vd.1.1 vd.1.2.1 vd.1.2.2) vd.2 (vect3Di vd.1.1 vd.1.2.1 vd.1.2.2)

/-- The staged faces as the specification words them: one face for each
(voxel, direction) pair for which the classifier answers positively. -/
def specFaces (K : Consts) (bsf : u8 → Int → Int) (c : worldCluster_s)
    (w : Option world_s) : List blockFace_s :=
  ((voxelFacingPairs K).filter (faceWanted K bsf c w)).map (faceOf c)

/-- The faces staged when no world is given, in words: one face for each pair
of a strictly interior voxel and a direction for which the classifier answers
positively, the neighbour being read from the cluster. -/
def interiorFaces (K : Consts) (bsf : u8 → Int → Int) (c : worldCluster_s) :
    List blockFace_s :=
  ((voxelFacingPairs K).filter (fun vd =>
    isInterior K vd.1.1 vd.1.2.1 vd.1.2.2 && faceWanted K bsf c none vd)).map (faceOf c)

/-- The cluster `c` is the cluster stored in the world `w` at `c.position`. -/
def clusterStoredIn (K : Consts) (w : world_s) (c : worldCluster_s) : Prop :=
  0 ≤ c.position.x ∧ c.position.x < K.WORLD_SIZE ∧
  0 ≤ c.position.y ∧ c.position.y < K.CHUNK_HEIGHT ∧
  0 ≤ c.position.z ∧ c.position.z < K.WORLD_SIZE ∧
  ∃ ch, w.data c.position.x.toNat c.position.z.toNat = some ch ∧
    ch.data c.position.y.toNat = c

/-! ## Command cache and drawing (`gs.c`) -/

/-- The buffer is empty: no data, no room, no cache. -/
def vboEmpty (v : gsVbo_s) : Prop :=
  v.data = none ∧ v.currentSize = 0 ∧ v.maxSize = 0 ∧ v.commands = none ∧ v.commandsSize = 0

instance (v : gsVbo_s) : Decidable (vboEmpty v) := by
  unfold vboEmpty; infer_instance

/-- Compilation of the command cache, `gsVboPrecomputeCommands`: result code
and the buffer afterwards. `gpuDraw` gives the command words that
`GPU_DrawArrayDirectly` records for the buffer in the temporary command buffer,
`mallocOk` tells whether the `malloc` of the cache succeeds. When a cache is
present nothing is done. `commandsSize` is assigned before the allocation. -/
def gsVboPrecomputeCommands (gpuDraw : gsVbo_s → List Nat) (mallocOk : Bool)
    (vbo : Option gsVbo_s) : Int × Option gsVbo_s :=
  match vbo with
  | none => (-1, none)
  | some v =>
    if v.commands.isSome then (-1, some v)
    else
      let words := gpuDraw v
      let v1 : gsVbo_s := { v with commandsSize := toU32 words.length }
      if mallocOk then (0, some { v1 with commands := some words })
      else (-1, some { v1 with commands := none })

/-- Drawing of a buffer, `gsVboDraw`: result code and the buffer afterwards.
The commands sent to the GPU are outside the model. -/
def gsVboDraw (gpuDraw : gsVbo_s → List Nat) (mallocOk : Bool) (vbo : Option gsVbo_s) :
    Int × Option gsVbo_s :=
  match vbo with
  | none => (-1, none)
  | some v =>
    if v.data.isNone ∨ v.currentSize = 0 ∨ v.maxSize = 0 then (-1, some v)
    else (0, (gsVboPrecomputeCommands gpuDraw mallocOk (some v)).2)

/-- A sequence of calls of `gsVboDraw` on the same buffer, one for each
outcome of `malloc` in the list. -/
def drawSeq (gpuDraw : gsVbo_s → List Nat) : List Bool → gsVbo_s → gsVbo_s
  | [], v => v
  | ok :: oks, v => drawSeq gpuDraw oks (((gsVboDraw gpuDraw ok (some v)).2).getD v)

/-! ## Sequences of buffer operations -/

/-- A call of one of the operations of the buffer, with its arguments; `region`
is what the allocator returns. -/
inductive vboOp where
  | init
  | create (region : Option (List Nat)) (size : Nat)
  | addData (data : Option (List Nat)) (size units : Nat)
  | flushData
  | destroy

/-- Effect of a call on the buffer; the `u32` arguments are converted on the
call. A call of `gsVboAddData` that does not return has assigned no field of
the buffer. -/
def applyOp (v : gsVbo_s) : vboOp → gsVbo_s
  | .init => ((gsVboInit (some v)).2).getD v
  | .create region size => ((gsVboCreate (fun _ => region) (some v) (toU32 size)).2).getD v
  | .addData data size units =>
      match gsVboAddData (some v) data (toU32 size) (toU32 units) with
      | some r => r.2.getD v
      | none => v
  | .flushData => if gsVboFlushData (some v) = 0 then v else v
  | .destroy => ((gsVboDestroy (some v)).2).getD v

/-- Effect of a sequence of calls, in order. -/
def applyOps (v : gsVbo_s) (ops : List vboOp) : gsVbo_s := ops.foldl applyOp v

/-! ## Worlds with the same blocks -/

/-- Two world pointers are both null or both not, and `getWorldBlock` reads
the same block through both at every position. -/
def sameWorldBlocks (K : Consts) (w w' : Option world_s) : Prop :=
  w.isSome = w'.isSome ∧ ∀ p, getWorldBlock K w p = getWorldBlock K w' p

/-- The vertex bytes of a buffer: the `currentSize` first bytes of its region
(`none` without a region). -/
def vertexBytes (v : gsVbo_s) : Option (List Nat) := v.data.map (List.take v.currentSize)

/-- The allocation of `n` bytes succeeds: the allocator returns a region, of
at least `n` bytes. -/
def allocates (gsLinearAlloc : Nat → Option (List Nat)) (n : Nat) : Prop :=
  ∃ region, gsLinearAlloc n = some region ∧ n ≤ region.length

/-- Two buffers being filled hold the same geometry: the same sizes and vertex
count, the sizes within each other and within a `u32`, each a region of at
least `maxSize` bytes, and the same bytes written so far. -/
def sameGeometry (v v' : gsVbo_s) : Prop :=
  v.currentSize = v'.currentSize ∧ v.maxSize = v'.maxSize ∧ v.numVertices = v'.numVertices ∧
  v.maxSize < 2 ^ 32 ∧ v.currentSize ≤ v.maxSize ∧
  ∃ r r', v.data = some r ∧ v'.data = some r' ∧ v.maxSize ≤ r.length ∧ v.maxSize ≤ r'.length ∧
    r.take v.currentSize = r'.take v.currentSize

/-! ## The position invariant -/

/-- The position invariant of a chunk: cluster `j` of its stack is at
`(chunk.x, j, chunk.z)`. -/
def chunkPositionInvariant (K : Consts) (ch : worldChunk_s) : Prop :=
  ∀ j, j < K.CHUNK_HEIGHT → (ch.data j).position = vect3Di ch.position.x j ch.position.z

/-- The position invariant of a world: the chunk of the cell `(i, j)`, when
there is one, is at `(i, 0, j)` and satisfies the invariant of a chunk. -/
def worldPositionInvariant (K : Consts) (w : world_s) : Prop :=
  ∀ i j, i < K.WORLD_SIZE → j < K.WORLD_SIZE → ∀ ch, w.data i j = some ch →
    ch.position = vect3Di i 0 j ∧ chunkPositionInvariant K ch

/-! ## Initialisation and generation of the data (`world.c`) -/

/-- Modelled from the spec: the block type GRASS of `block.h` (not among the
sources), a solid type. -/
def BLOCK_GRASS : u8 := 1

/-- Initialisation of a cluster, `initWorldCluster`: the blocks are zeroed by
`memset`, the position is set, the buffer is reset by `gsVboInit`, the flag is
cleared. -/
def initWorldCluster (wcl : Option worldCluster_s) (pos : vect3Di_s) : Option worldCluster_s :=
  match wcl with
  | none => none
  | some c =>
    some { data := fun _ _ _ => 0, position := pos,
           vbo := ((gsVboInit (some c.vbo)).2).getD c.vbo, generated := false }

/-- The elevation `getWorldElevation` of a column. The noise of `sdnoise.h`,
computed on floats, is outside the model: `noise x z` stands for
`(int)(sdnoise2(x/(CLUSTER_SIZE*4), z/(CLUSTER_SIZE*4), NULL, NULL)*CLUSTER_SIZE)`,
a function of `p.x` and `p.z` only. -/
def getWorldElevation (K : Consts) (noise : Int → Int → Int) (p : vect3Di_s) : Int :=
  noise p.x p.z + Int.tdiv ((K.CHUNK_HEIGHT : Int) * K.CLUSTER_SIZE) 2

/-- The assignment `data[i][j][k] = v`. -/
def setBlock (d : Nat → Nat → Nat → u8) (i j k : Nat) (v : u8) : Nat → Nat → Nat → u8 :=
  fun a b c => if a = i ∧ b = j ∧ c = k then v else d a b c

/-- Filling of the blocks of a cluster, `generateWorldClusterData`: the buffer
of a generated cluster is destroyed, then every column `(i, k)` is filled with
GRASS below the elevation and AIR from the elevation up. The flag `generated`
is not assigned. -/
def generateWorldClusterData (K : Consts) (noise : Int → Int → Int)
    (wcl : Option worldCluster_s) : Option worldCluster_s :=
  match wcl with
  | none => none
  | some c =>
    let vbo := if c.generated then ((gsVboDestroy (some c.vbo)).2).getD c.vbo else c.vbo
    let data := (List.range K.CLUSTER_SIZE).foldl (fun d (i : Nat) =>
      (List.range K.CLUSTER_SIZE).foldl (fun d (k : Nat) =>
        let p := vect3Di ((i : Int) + c.position.x * K.CLUSTER_SIZE)
          (c.position.y * K.CLUSTER_SIZE) ((k : Int) + c.position.z * K.CLUSTER_SIZE)
        let height := getWorldElevation K noise p
        (List.range K.CLUSTER_SIZE).foldl (fun d (j : Nat) =>
          setBlock d i j k (if p.y + (j : Int) < height then BLOCK_GRASS else BLOCK_AIR)) d)
        d) c.data
    some { c with data := data, vbo := vbo }

/-- Initialisation of a chunk, `initWorldChunk`: cluster `j` of the stack is
initialised at `(pos.x, j, pos.z)`, then the position of the chunk is set. -/
def initWorldChunk (K : Consts) (wch : Option worldChunk_s) (pos : vect3Di_s) :
    Option worldChunk_s :=
  match wch with
  | none => none
  | some ch =>
    some { data := (List.range K.CHUNK_HEIGHT).foldl (fun d j =>
             Function.update d j
               ((initWorldCluster (some (d j)) (vect3Di pos.x j pos.z)).getD (d j))) ch.data,
           position := pos }

/-- Filling of the clusters of a chunk, `generateWorldChunkData`. -/
def generateWorldChunkData (K : Consts) (noise : Int → Int → Int)
    (wch : Option worldChunk_s) : Option worldChunk_s :=
  match wch with
  | none => none
  | some ch =>
    some { ch with data := (List.range K.CHUNK_HEIGHT).foldl (fun d k =>
             Function.update d k
               ((generateWorldClusterData K noise (some (d k))).getD (d k))) ch.data }

/-- The cluster after the call `generateWorldClusterGeometry(wcl, w)` on a
cluster that is not `NULL`, for a geometry writer `bgfg` that returns on every
call: the call of the mesher returns then. -/
def meshCluster (K : Consts) (bsf : u8 → Int → Int)
    (bgfg : blockFace_s → gsVbo_s → gsVbo_s) (gsLinearAlloc : Nat → Option (List Nat))
    (wcl : worldCluster_s) (w : Option world_s) : worldCluster_s :=
  match generateWorldClusterGeometry K bsf (returning bgfg) gsLinearAlloc (some wcl) w with
  | some (some c) => c
  | _ => wcl

/-- Meshing of the clusters of a chunk, `generateWorldChunkGeometry`, for a
chunk that is not part of the world `w` (or for what does not depend on the
buffers of the world: the mesher reads the world only through its blocks) and
a geometry writer that returns on every call. -/
def generateWorldChunkGeometry (K : Consts) (bsf : u8 → Int → Int)
    (bgfg : blockFace_s → gsVbo_s → gsVbo_s) (gsLinearAlloc : Nat → Option (List Nat))
    (wch : Option worldChunk_s) (w : Option world_s) : Option worldChunk_s :=
  match wch with
  | none => none
  | some ch =>
    some { ch with data := (List.range K.CHUNK_HEIGHT).foldl (fun d k =>
             Function.update d k (meshCluster K bsf bgfg gsLinearAlloc (d k) w)) ch.data }

/-- The assignment `data[i][j] = v` in a grid. -/
def setCell {α : Type} (d : Nat → Nat → α) (i j : Nat) (v : α) : Nat → Nat → α :=
  Function.update d i (Function.update (d i) j v)

/-- Initialisation of the world, `initWorld`: every cell of the grid gets the
block that `malloc` returns for it (`none` for `NULL`, else the fresh chunk,
of arbitrary content), initialised at `(i, 0, j)`. -/
def initWorld (K : Consts) (malloc : Nat → Nat → Option worldChunk_s) (w : Option world_s) :
    Option world_s :=
  match w with
  | none => none
  | some w0 =>
    some { data := (List.range K.WORLD_SIZE).foldl (fun d i =>
             (List.range K.WORLD_SIZE).foldl (fun d j =>
               setCell d i j (initWorldChunk K (malloc i j) (vect3Di i 0 j))) d) w0.data }

/-- The first pair of loops of `generateWorld`: every chunk of the grid is
initialised at `(i, 0, j)` and filled. -/
def generateWorldDataPass (K : Consts) (noise : Int → Int → Int) (w : world_s) : world_s :=
  { data := (List.range K.WORLD_SIZE).foldl (fun d i =>
      (List.range K.WORLD_SIZE).foldl (fun d j =>
        setCell d i j
          (generateWorldChunkData K noise (initWorldChunk K (d i j) (vect3Di i 0 j)))) d)
      w.data }

/-- The record of one call of the mesher during `generateWorld`: the grid cell
and the index of the cluster in the stack, with the faces the call staged. -/
abbrev meshRecord := (Nat × Nat × Nat) × List blockFace_s

/-- One call `generateWorldClusterGeometry(&wch->data[k], w)` of
`generateWorldChunkGeometry` when the chunk is the cell `(i, j)` of the world
`w` itself: the cluster is meshed against the world as it is at the call and
written back in place; the faces staged are recorded. The geometry writer
`bgfg` returns on every call. -/
def meshClusterIn (K : Consts) (bsf : u8 → Int → Int)
    (bgfg : blockFace_s → gsVbo_s → gsVbo_s) (gsLinearAlloc : Nat → Option (List Nat))
    (st : world_s × List meshRecord) (i j k : Nat) : world_s × List meshRecord :=
  match st.1.data i j with
  | none => st
  | some ch =>
    let c' : worldCluster_s := meshCluster K bsf bgfg gsLinearAlloc (ch.data k) (some st.1)
    let ch' : worldChunk_s := { ch with data := Function.update ch.data k c' }
    ({ data := setCell st.1.data i j (some ch') },
     st.2 ++ [((i, j, k), stagedFaces K bsf (ch.data k) (some st.1))])

/-- The call `generateWorldChunkGeometry(w->data[i][j], w)` of `generateWorld`,
on the world in place: nothing for a `NULL` chunk, else the clusters of the
stack are meshed from the bottom up. The geometry writer `bgfg` returns on
every call. -/
def generateWorldChunkGeometryIn (K : Consts) (bsf : u8 → Int → Int)
    (bgfg : blockFace_s → gsVbo_s → gsVbo_s) (gsLinearAlloc : Nat → Option (List Nat))
    (st : world_s × List meshRecord) (i j : Nat) : world_s × List meshRecord :=
  match st.1.data i j with
  | none => st
  | some _ =>
    (List.range K.CHUNK_HEIGHT).foldl (fun st k =>
      meshClusterIn K bsf bgfg gsLinearAlloc st i j k) st

/-- The second pair of loops of `generateWorld`: every chunk of the grid is
meshed with the world. -/
def generateWorldGeometryPass (K : Consts) (bsf : u8 → Int → Int)
    (bgfg : blockFace_s → gsVbo_s → gsVbo_s) (gsLinearAlloc : Nat → Option (List Nat))
    (st : world_s × List meshRecord) : world_s × List meshRecord :=
  (List.range K.WORLD_SIZE).foldl (fun st i =>
    (List.range K.WORLD_SIZE).foldl (fun st j =>
      generateWorldChunkGeometryIn K bsf bgfg gsLinearAlloc st i j) st) st

/-- Generation of the world, `generateWorld`, with the record of the calls of
the mesher: the data pass over the whole grid, then the geometry pass, for a
geometry writer `bgfg` that returns on every call. The calls of `print` are
outside the model. -/
def generateWorldTraced (K : Consts) (bsf : u8 → Int → Int)
    (bgfg : blockFace_s → gsVbo_s → gsVbo_s) (gsLinearAlloc : Nat → Option (List Nat))
    (noise : Int → Int → Int) (w : Option world_s) : Option (world_s × List meshRecord) :=
  match w with
  | none => none
  | some w0 =>
    some (generateWorldGeometryPass K bsf bgfg gsLinearAlloc (generateWorldDataPass K noise w0, []))

/-- Generation of the world, `generateWorld`: the world afterwards. -/
def generateWorld (K : Consts) (bsf : u8 → Int → Int)
    (bgfg : blockFace_s → gsVbo_s → gsVbo_s) (gsLinearAlloc : Nat → Option (List Nat))
    (noise : Int → Int → Int) (w : Option world_s) : Option world_s :=
  (generateWorldTraced K bsf bgfg gsLinearAlloc noise w).map (fun r => r.1)

/-- Two chunks have the same position and their clusters the same blocks and
positions. -/
def chunkSame (a b : worldChunk_s) : Prop :=
  a.position = b.position ∧
  ∀ k, (a.data k).data = (b.data k).data ∧ (a.data k).position = (b.data k).position

/-- Two cells of a grid are both empty, or hold chunks with the same positions
and blocks. -/
def cellSame : Option worldChunk_s → Option worldChunk_s → Prop
  | some a, some b => chunkSame a b
  | none, none => True
  | _, _ => False

/-- Two worlds have chunks in the same cells, with the same positions and the
same blocks: they differ at most by the buffers and the flags of clusters. -/
def worldSame (w w' : world_s) : Prop :=
  ∀ i j, cellSame (w.data i j) (w'.data i j)

/-- The cells of the grid that hold a chunk, with the indices of the clusters
of their stacks, in the order of the geometry pass. -/
def meshedClusters (K : Consts) (w : world_s) : List (Nat × Nat × Nat) :=
  (List.range K.WORLD_SIZE).flatMap (fun i =>
    (List.range K.WORLD_SIZE).flatMap (fun j =>
      if (w.data i j).isSome then (List.range K.CHUNK_HEIGHT).map (fun k => (i, j, k))
      else []))

/-- The block that `generateWorldClusterData` assigns at the local index
`(a, b, e)` of a cluster at `pos`: GRASS when the height `pos.y*CLUSTER_SIZE + b`
is below the elevation of the column, AIR otherwise. -/
def columnBlock (K : Consts) (noise : Int → Int → Int) (pos : vect3Di_s) (a b e : Nat) : u8 :=
  if (vect3Di ((a : Int) + pos.x * K.CLUSTER_SIZE) (pos.y * K.CLUSTER_SIZE)
        ((e : Int) + pos.z * K.CLUSTER_SIZE)).y + (b : Int) <
      getWorldElevation K noise (vect3Di ((a : Int) + pos.x * K.CLUSTER_SIZE)
        (pos.y * K.CLUSTER_SIZE) ((e : Int) + pos.z * K.CLUSTER_SIZE))
  then BLOCK_GRASS else BLOCK_AIR

/-- A record of the geometry pass agrees with the world `w1`: its faces are
the faces staged for its cluster in every world that is the same as `w1`. -/
def recordAgrees (K : Consts) (bsf : u8 → Int → Int) (w1 : world_s) (e : meshRecord) : Prop :=
  ∀ w', worldSame w1 w' → ∀ ch', w'.data e.1.1 e.1.2.1 = some ch' →
    e.2 = stagedFaces K bsf (ch'.data e.1.2.2) (some w')

/-- The invariant of the geometry pass started on the world `w1`: the world is
the same as `w1` and every record agrees with `w1`. -/
def passInvariant (K : Consts) (bsf : u8 → Int → Int) (w1 : world_s)
    (st : world_s × List meshRecord) : Prop :=
  worldSame w1 st.1 ∧ ∀ e ∈ st.2, recordAgrees K bsf w1 e

/-! ## Sample data -/

/-- A cluster at `pos` with the given blocks, never meshed. -/
def mkCluster (pos : vect3Di_s) (d : Nat → Nat → Nat → u8) : worldCluster_s :=
  { data := d, position := pos, vbo := ⟨none, 0, 0, 0, none, 0⟩, generated := false }

/-- A world all of whose clusters hold the blocks `d x y z` of world
coordinates `(x, y, z)`. -/
def mkWorld (K : Consts) (d : Nat → Nat → Nat → u8) : world_s :=
  { data := fun i j => some
      { data := fun c => mkCluster (vect3Di i c j)
          (fun a b e => d (i * K.CLUSTER_SIZE + a) (c * K.CLUSTER_SIZE + b)
            (j * K.CLUSTER_SIZE + e)),
        position := vect3Di i 0 j } }

/-- Small constants: clusters of 4 blocks, chunks of 2 clusters, 2 x 2 chunks. -/
def K4 : Consts := ⟨4, 2, 2, 144⟩

/-- Blocks all AIR but one solid block at `(a, b, c)`. -/
def oneBlock (a b c : Nat) : Nat → Nat → Nat → u8 :=
  fun i j k => if i = a ∧ j = b ∧ k = c then 1 else 0

/-- A world of `K4` with a single solid block, at `(5, 6, 7)`. -/
def sampleWorld : world_s := mkWorld K4 (oneBlock 5 6 7)

/-- The cluster of the sample world at cluster position `(1, 1, 1)`; its block
`(1, 2, 3)` is the solid block of the world. -/
def sampleCluster : worldCluster_s :=
  mkCluster (vect3Di 1 1 1) (fun a b e => oneBlock 5 6 7 (1 * K4.CLUSTER_SIZE + a)
    (1 * K4.CLUSTER_SIZE + b) (1 * K4.CLUSTER_SIZE + e))

/-- A cluster of `K4` whose only solid block is in its corner `(0, 0, 0)`. -/
def cornerCluster : worldCluster_s := mkCluster (vect3Di 0 0 0) (oneBlock 0 0 0)

/-- A world of `K4` all of whose blocks are AIR. -/
def airWorld : world_s := mkWorld K4 (fun _ _ _ => 0)

/-- The cluster of `airWorld` at cluster position `(0, 0, 0)`, all AIR. -/
def airCluster : worldCluster_s := mkCluster (vect3Di 0 0 0) (fun _ _ _ => 0)

/-- Small constants: clusters of 2 blocks, chunks of 3 clusters, 3 x 3 chunks. -/
def K3 : Consts := ⟨2, 3, 3, 144⟩

/-- A world of `K3` all of whose blocks are solid, of type 1. -/
def solidWorld : world_s := mkWorld K3 (fun _ _ _ => 1)

/-- The cluster in the middle of `solidWorld`, at cluster position `(1, 1, 1)`. -/
def solidCluster : worldCluster_s := mkCluster (vect3Di 1 1 1) (fun _ _ _ => 1)

/-- The cluster of `K4` with one solid block at `(1, 1, 1)`, as the mesher
leaves it when called with no world: generated, with a buffer of 6 faces. -/
def meshedCluster : worldCluster_s :=
  { data := oneBlock 1 1 1, position := vect3Di 0 0 0,
    vbo := ⟨some (List.replicate 864 0), 864, 864, 36, none, 0⟩, generated := true }

/-- Constants with clusters of 14 blocks and a world of one cluster. -/
def K14 : Consts := ⟨14, 1, 1, 144⟩

/-- Blocks in a checkerboard: solid where the sum of the indices is even, AIR
elsewhere. -/
def checker : Nat → Nat → Nat → u8 :=
  fun i j k => if (i + j + k) % 2 = 0 then 1 else 0

/-- A cluster of `K14` filled in a checkerboard. -/
def checkerCluster : worldCluster_s := mkCluster (vect3Di 0 0 0) checker

/-! ## Arithmetic of the coordinates -/

theorem tdiv_natCast (a n : Nat) : Int.tdiv (a : Int) (n : Int) = ((a / n : Nat) : Int) := rfl

theorem tmod_natCast (a n : Nat) : Int.tmod (a : Int) (n : Int) = ((a % n : Nat) : Int) := rfl

theorem pos_of_lt_mul {a b c : Nat} (h : a < b * c) : 0 < c := by
  rcases Nat.eq_zero_or_pos c with h0 | h0
  · subst h0; simp at h
  · exact h0

theorem div_lt_of_lt_mul_right {a b c : Nat} (h : a < b * c) : a / c < b := by
  apply Nat.div_lt_of_lt_mul
  rw [Nat.mul_comm]; exact h

theorem natCast_div_mul_add_mod (x c : Nat) :
    ((x / c : Nat) : Int) * (c : Int) + ((x % c : Nat) : Int) = (x : Int) := by
  have h := Nat.div_add_mod x c
  rw [mul_comm]
  exact_mod_cast h

/-- A position with non-negative coordinates is the cast of natural numbers. -/
theorem vect3Di_toNat (p : vect3Di_s) (hx : 0 ≤ p.x) (hy : 0 ≤ p.y) (hz : 0 ≤ p.z) :
    p = vect3Di (p.x.toNat : Int) (p.y.toNat : Int) (p.z.toNat : Int) := by
  obtain ⟨x, y, z⟩ := p
  simp only [vect3Di, vect3Di_s.mk.injEq]
  simp only at hx hy hz
  omega

theorem worldInRange_toNat (K : Consts) (p : vect3Di_s) (h : worldInRange K p) :
    p.x.toNat < K.WORLD_SIZE * K.CLUSTER_SIZE ∧ p.y.toNat < K.CHUNK_HEIGHT * K.CLUSTER_SIZE ∧
    p.z.toNat < K.WORLD_SIZE * K.CLUSTER_SIZE := by
  obtain ⟨h1, h2, h3, h4, h5, h6⟩ := h
  refine ⟨?_, ?_, ?_⟩
  · have : ((p.x.toNat : Nat) : Int) < ((K.WORLD_SIZE * K.CLUSTER_SIZE : Nat) : Int) := by
      push_cast; omega
    exact_mod_cast this
  · have : ((p.y.toNat : Nat) : Int) < ((K.CHUNK_HEIGHT * K.CLUSTER_SIZE : Nat) : Int) := by
      push_cast; omega
    exact_mod_cast this
  · have : ((p.z.toNat : Nat) : Int) < ((K.WORLD_SIZE * K.CLUSTER_SIZE : Nat) : Int) := by
      push_cast; omega
    exact_mod_cast this

theorem worldOutOfRange_iff_not_inRange (K : Consts) (p : vect3Di_s) :
    worldOutOfRange K p ↔ ¬ worldInRange K p := by
  unfold worldOutOfRange worldInRange
  omega

/-! ## The getters -/

theorem worldRangeCheck_iff (K : Consts) (p : vect3Di_s) :
    worldRangeCheck K p = true ↔ worldOutOfRange K p := by
  simp only [worldRangeCheck, worldOutOfRange, Bool.or_eq_true, decide_eq_true_eq]
  omega

/-- For natural coordinates in range neither delegated range check fires. -/
theorem delegated_checks_natCast (K : Consts) (x y z : Nat)
    (hx : x < K.WORLD_SIZE * K.CLUSTER_SIZE) (hy : y < K.CHUNK_HEIGHT * K.CLUSTER_SIZE) :
    chunkRangeCheck K (worldToChunkCoord K (vect3Di x y z)) = false ∧
    clusterRangeCheck K (chunkToClusterCoord K (worldToChunkCoord K (vect3Di x y z)))
      = false := by
  have hc : 0 < K.CLUSTER_SIZE := pos_of_lt_mul hx
  have hxm : x % K.CLUSTER_SIZE < K.CLUSTER_SIZE := Nat.mod_lt _ hc
  have hym : y % K.CLUSTER_SIZE < K.CLUSTER_SIZE := Nat.mod_lt _ hc
  have hzm : z % K.CLUSTER_SIZE < K.CLUSTER_SIZE := Nat.mod_lt _ hc
  constructor
  · simp only [chunkRangeCheck, worldToChunkCoord, vect3Di, tmod_natCast, Bool.or_eq_false_iff,
      decide_eq_false_iff_not]
    constructor
    · omega
    · have h2 : ((y : Int)) < (K.CHUNK_HEIGHT : Int) * K.CLUSTER_SIZE := by exact_mod_cast hy
      omega
  · simp only [clusterRangeCheck, chunkToClusterCoord, worldToChunkCoord, vect3Di, tmod_natCast,
      Bool.or_eq_false_iff, decide_eq_false_iff_not]
    constructor <;> omega

/-- The value of `getWorldBlock` at natural coordinates in range. -/
theorem getWorldBlock_natCast (K : Consts) (w : world_s) (x y z : Nat)
    (hx : x < K.WORLD_SIZE * K.CLUSTER_SIZE) (hy : y < K.CHUNK_HEIGHT * K.CLUSTER_SIZE)
    (hz : z < K.WORLD_SIZE * K.CLUSTER_SIZE) :
    getWorldBlock K (some w) (vect3Di x y z) =
      match w.data (x / K.CLUSTER_SIZE) (z / K.CLUSTER_SIZE) with
      | none => -1
      | some ch => (((ch.data (y / K.CLUSTER_SIZE)).data (x % K.CLUSTER_SIZE)
          (y % K.CLUSTER_SIZE) (z % K.CLUSTER_SIZE)).val : Int) := by
  have hwr : worldRangeCheck K (vect3Di x y z) = false := by
    simp only [worldRangeCheck, vect3Di, Bool.or_eq_false_iff, decide_eq_false_iff_not]
    constructor
    · omega
    · have h1 : ((x : Int)) < (K.WORLD_SIZE : Int) * K.CLUSTER_SIZE := by exact_mod_cast hx
      have h2 : ((y : Int)) < (K.CHUNK_HEIGHT : Int) * K.CLUSTER_SIZE := by exact_mod_cast hy
      have h3 : ((z : Int)) < (K.WORLD_SIZE : Int) * K.CLUSTER_SIZE := by exact_mod_cast hz
      omega
  obtain ⟨hcr, hlr⟩ := delegated_checks_natCast K x y z hx hy
  simp only [getWorldBlock, hwr, Bool.false_eq_true, if_false]
  have hi : (worldChunkIndex K (vect3Di x y z)).1.toNat = x / K.CLUSTER_SIZE := by
    simp only [worldChunkIndex, vect3Di, tdiv_natCast, Int.toNat_ofNat]
  have hj : (worldChunkIndex K (vect3Di x y z)).2.toNat = z / K.CLUSTER_SIZE := by
    simp only [worldChunkIndex, vect3Di, tdiv_natCast, Int.toNat_ofNat]
  rw [hi, hj]
  cases hch : w.data (x / K.CLUSTER_SIZE) (z / K.CLUSTER_SIZE) with
  | none => simp [getWorldChunkBlock]
  | some ch =>
    simp only [getWorldChunkBlock, hcr, Bool.false_eq_true, if_false, getWorldClusterBlock, hlr]
    simp only [chunkClusterIndex, chunkToClusterCoord, worldToChunkCoord, vect3Di, tdiv_natCast,
      tmod_natCast, Int.toNat_ofNat, Bool.false_eq_true, if_false]

/-- In a fully populated world the chunk read for a position in range exists. -/
theorem populated_chunk (K : Consts) (w : world_s) (hw : worldPopulated K w) (x z : Nat)
    (hx : x < K.WORLD_SIZE * K.CLUSTER_SIZE) (hz : z < K.WORLD_SIZE * K.CLUSTER_SIZE) :
    ∃ ch, w.data (x / K.CLUSTER_SIZE) (z / K.CLUSTER_SIZE) = some ch := by
  have h := hw (x / K.CLUSTER_SIZE) (z / K.CLUSTER_SIZE) (div_lt_of_lt_mul_right hx)
    (div_lt_of_lt_mul_right hz)
  exact Option.isSome_iff_exists.mp h

/-- C1: in a fully populated world `getWorldBlock` returns the sentinel -1
exactly for the positions out of range; for a position in range the chunk
pointer is not null, neither the range check of the chunk getter nor that of
the cluster getter fires, and the result is a block type between 0 and 255.
For a null world the result is -1. -/
theorem getWorldBlock_sentinel_iff_out_of_range (K : Consts) (w : world_s)
    (hw : worldPopulated K w) (p : vect3Di_s) :
    (getWorldBlock K (some w) p = -1 ↔
      (p.x < 0 ∨ p.y < 0 ∨ p.z < 0 ∨ p.x ≥ (K.WORLD_SIZE : Int) * K.CLUSTER_SIZE ∨
       p.y ≥ (K.CHUNK_HEIGHT : Int) * K.CLUSTER_SIZE ∨
       p.z ≥ (K.WORLD_SIZE : Int) * K.CLUSTER_SIZE)) ∧
    (worldInRange K p →
      (w.data (worldChunkIndex K p).1.toNat (worldChunkIndex K p).2.toNat).isSome = true ∧
      chunkRangeCheck K (worldToChunkCoord K p) = false ∧
      clusterRangeCheck K (chunkToClusterCoord K (worldToChunkCoord K p)) = false ∧
      0 ≤ getWorldBlock K (some w) p ∧ getWorldBlock K (some w) p ≤ 255) ∧
    getWorldBlock K none p = -1 := by
  have hin : worldInRange K p →
      (w.data (worldChunkIndex K p).1.toNat (worldChunkIndex K p).2.toNat).isSome = true ∧
      chunkRangeCheck K (worldToChunkCoord K p) = false ∧
      clusterRangeCheck K (chunkToClusterCoord K (worldToChunkCoord K p)) = false ∧
      0 ≤ getWorldBlock K (some w) p ∧ getWorldBlock K (some w) p ≤ 255 := by
    intro h
    obtain ⟨hx, hy, hz⟩ := worldInRange_toNat K p h
    have hp := vect3Di_toNat p h.1 h.2.2.1 h.2.2.2.2.1
    obtain ⟨ch, hch⟩ := populated_chunk K w hw _ _ hx hz
    obtain ⟨hcr, hlr⟩ := delegated_checks_natCast K p.x.toNat p.y.toNat p.z.toNat hx hy
    have hv := getWorldBlock_natCast K w _ _ _ hx hy hz
    rw [hch] at hv
    simp only at hv
    rw [← hp] at hv hcr hlr
    refine ⟨?_, hcr, hlr, ?_, ?_⟩
    · rw [hp]
      simp only [worldChunkIndex, vect3Di, tdiv_natCast, Int.toNat_ofNat, hch, Option.isSome_some]
    · rw [hv]; exact Int.ofNat_nonneg _
    · rw [hv]
      have := ((ch.data (p.y.toNat / K.CLUSTER_SIZE)).data (p.x.toNat % K.CLUSTER_SIZE)
        (p.y.toNat % K.CLUSTER_SIZE) (p.z.toNat % K.CLUSTER_SIZE)).isLt
      omega
  refine ⟨?_, hin, rfl⟩
  constructor
  · intro h
    by_contra hc
    have hr : worldInRange K p := by
      unfold worldInRange; omega
    have := (hin hr).2.2.2.1
    omega
  · intro h
    have hr : worldRangeCheck K p = true := (worldRangeCheck_iff K p).mpr h
    simp [getWorldBlock, hr]

/-- C1, on a sample: the world of `K4` with one solid block, read at that block. -/
theorem getWorldBlock_sentinel_iff_out_of_range_witness :
    worldPopulated K4 sampleWorld ∧
    ((getWorldBlock K4 (some sampleWorld) (vect3Di 5 6 7) = -1 ↔
      ((vect3Di 5 6 7).x < 0 ∨ (vect3Di 5 6 7).y < 0 ∨ (vect3Di 5 6 7).z < 0 ∨
       (vect3Di 5 6 7).x ≥ (K4.WORLD_SIZE : Int) * K4.CLUSTER_SIZE ∨
       (vect3Di 5 6 7).y ≥ (K4.CHUNK_HEIGHT : Int) * K4.CLUSTER_SIZE ∨
       (vect3Di 5 6 7).z ≥ (K4.WORLD_SIZE : Int) * K4.CLUSTER_SIZE)) ∧
    (worldInRange K4 (vect3Di 5 6 7) →
      (sampleWorld.data (worldChunkIndex K4 (vect3Di 5 6 7)).1.toNat
        (worldChunkIndex K4 (vect3Di 5 6 7)).2.toNat).isSome = true ∧
      chunkRangeCheck K4 (worldToChunkCoord K4 (vect3Di 5 6 7)) = false ∧
      clusterRangeCheck K4 (chunkToClusterCoord K4 (worldToChunkCoord K4 (vect3Di 5 6 7)))
        = false ∧
      0 ≤ getWorldBlock K4 (some sampleWorld) (vect3Di 5 6 7) ∧
      getWorldBlock K4 (some sampleWorld) (vect3Di 5 6 7) ≤ 255) ∧
    getWorldBlock K4 none (vect3Di 5 6 7) = -1) :=
  ⟨fun _ _ _ _ => rfl,
   getWorldBlock_sentinel_iff_out_of_range K4 sampleWorld (fun _ _ _ _ => rfl) (vect3Di 5 6 7)⟩

/-- C2: in a fully populated world, the block `getWorldBlock` returns for a
position in range is the block stored in chunk `(p.x / CS, p.z / CS)`, cluster
`p.y / CS` of its stack, at the local index `(p.x % CS, p.y % CS, p.z % CS)`. -/
theorem getWorldBlock_eq_stored_block (K : Consts) (w : world_s) (hw : worldPopulated K w)
    (p : vect3Di_s) (hp : worldInRange K p) :
    ∃ ch, w.data (p.x.toNat / K.CLUSTER_SIZE) (p.z.toNat / K.CLUSTER_SIZE) = some ch ∧
      getWorldBlock K (some w) p =
        (((ch.data (p.y.toNat / K.CLUSTER_SIZE)).data (p.x.toNat % K.CLUSTER_SIZE)
          (p.y.toNat % K.CLUSTER_SIZE) (p.z.toNat % K.CLUSTER_SIZE)).val : Int) := by
  obtain ⟨hx, hy, hz⟩ := worldInRange_toNat K p hp
  have hpc := vect3Di_toNat p hp.1 hp.2.2.1 hp.2.2.2.2.1
  obtain ⟨ch, hch⟩ := populated_chunk K w hw _ _ hx hz
  have hv := getWorldBlock_natCast K w _ _ _ hx hy hz
  rw [hch] at hv
  simp only at hv
  rw [← hpc] at hv
  exact ⟨ch, hch, hv⟩

/-- C2, on a sample: the solid block of the sample world is read back. -/
theorem getWorldBlock_eq_stored_block_witness :
    worldPopulated K4 sampleWorld ∧ worldInRange K4 (vect3Di 5 6 7) ∧
    ∃ ch, sampleWorld.data ((vect3Di 5 6 7).x.toNat / K4.CLUSTER_SIZE)
        ((vect3Di 5 6 7).z.toNat / K4.CLUSTER_SIZE) = some ch ∧
      getWorldBlock K4 (some sampleWorld) (vect3Di 5 6 7) =
        (((ch.data ((vect3Di 5 6 7).y.toNat / K4.CLUSTER_SIZE)).data
          ((vect3Di 5 6 7).x.toNat % K4.CLUSTER_SIZE)
          ((vect3Di 5 6 7).y.toNat % K4.CLUSTER_SIZE)
          ((vect3Di 5 6 7).z.toNat % K4.CLUSTER_SIZE)).val : Int) :=
  ⟨fun _ _ _ _ => rfl, by decide,
   getWorldBlock_eq_stored_block K4 sampleWorld (fun _ _ _ _ => rfl) (vect3Di 5 6 7) (by decide)⟩

/-- C3: coordinate round trip. For a position in range, the decomposition of
the getters (chunk `(p.x / CS, p.z / CS)`, cluster `p.y / CS`, local position
`(p.x % CS, p.y % CS, p.z % CS)`) recomposed as the mesher does (cluster
position times `CLUSTER_SIZE` plus local position) is the position itself, and
every index of the decomposition is in range. -/
theorem coordinate_round_trip (K : Consts) (p : vect3Di_s) (hp : worldInRange K p) :
    recompose K
      (vect3Di (worldChunkIndex K p).1 (chunkClusterIndex K (worldToChunkCoord K p))
        (worldChunkIndex K p).2)
      (chunkToClusterCoord K (worldToChunkCoord K p)) = p ∧
    (0 ≤ (worldChunkIndex K p).1 ∧ (worldChunkIndex K p).1 < K.WORLD_SIZE) ∧
    (0 ≤ (worldChunkIndex K p).2 ∧ (worldChunkIndex K p).2 < K.WORLD_SIZE) ∧
    (0 ≤ chunkClusterIndex K (worldToChunkCoord K p) ∧
      chunkClusterIndex K (worldToChunkCoord K p) < K.CHUNK_HEIGHT) ∧
    (0 ≤ (chunkToClusterCoord K (worldToChunkCoord K p)).x ∧
      (chunkToClusterCoord K (worldToChunkCoord K p)).x < K.CLUSTER_SIZE) ∧
    (0 ≤ (chunkToClusterCoord K (worldToChunkCoord K p)).y ∧
      (chunkToClusterCoord K (worldToChunkCoord K p)).y < K.CLUSTER_SIZE) ∧
    (0 ≤ (chunkToClusterCoord K (worldToChunkCoord K p)).z ∧
      (chunkToClusterCoord K (worldToChunkCoord K p)).z < K.CLUSTER_SIZE) := by
  obtain ⟨hx, hy, hz⟩ := worldInRange_toNat K p hp
  have hpc := vect3Di_toNat p hp.1 hp.2.2.1 hp.2.2.2.2.1
  have hc : 0 < K.CLUSTER_SIZE := pos_of_lt_mul hx
  generalize p.x.toNat = x at hx hpc
  generalize p.y.toNat = y at hy hpc
  generalize p.z.toNat = z at hz hpc
  subst hpc
  have hxm : x % K.CLUSTER_SIZE < K.CLUSTER_SIZE := Nat.mod_lt _ hc
  have hym : y % K.CLUSTER_SIZE < K.CLUSTER_SIZE := Nat.mod_lt _ hc
  have hzm : z % K.CLUSTER_SIZE < K.CLUSTER_SIZE := Nat.mod_lt _ hc
  have hxd := div_lt_of_lt_mul_right hx
  have hyd := div_lt_of_lt_mul_right hy
  have hzd := div_lt_of_lt_mul_right hz
  simp only [recompose, vaddi, vmuli, worldChunkIndex, chunkClusterIndex, worldToChunkCoord,
    chunkToClusterCoord, vect3Di, tdiv_natCast, tmod_natCast, natCast_div_mul_add_mod]
  generalize x / K.CLUSTER_SIZE = xd at hxd ⊢
  generalize y / K.CLUSTER_SIZE = yd at hyd ⊢
  generalize z / K.CLUSTER_SIZE = zd at hzd ⊢
  refine ⟨trivial, ?_, ?_, ?_, ?_, ?_, ?_⟩ <;> constructor <;> omega

/-- C3, on a sample position of `K4`. -/
theorem coordinate_round_trip_witness :
    worldInRange K4 (vect3Di 5 6 7) ∧
    recompose K4
      (vect3Di (worldChunkIndex K4 (vect3Di 5 6 7)).1
        (chunkClusterIndex K4 (worldToChunkCoord K4 (vect3Di 5 6 7)))
        (worldChunkIndex K4 (vect3Di 5 6 7)).2)
      (chunkToClusterCoord K4 (worldToChunkCoord K4 (vect3Di 5 6 7))) = vect3Di 5 6 7 :=
  ⟨by decide, (coordinate_round_trip K4 (vect3Di 5 6 7) (by decide)).1⟩

/-! ## The scan as a list of faces -/

/-- The tests of one voxel, as a loop over the directions tested. -/
theorem pushAll_eq (bsf : u8 → Int → Int) (cb : u8) (v : vect3Di_s) (nbf : facing → Int)
    (ds : List facing) (fl : List blockFace_s) :
    ds.foldl (fun fl d => pushIf bsf cb (nbf d) d v fl) fl =
      ((ds.filter (fun d => decide (bsf cb (nbf d) ≥ 0))).map
        (fun d => blockFace cb d v)).reverse ++ fl := by
  induction ds generalizing fl with
  | nil => simp
  | cons d ds ih =>
    rw [List.foldl_cons, ih]
    by_cases h : bsf cb (nbf d) ≥ 0
    · simp [pushIf, pushFace, h, List.filter_cons]
    · simp [pushIf, h, List.filter_cons]

/-- The body of the scan pushes the faces of the voxel on the stack. -/
theorem scanVoxel_eq (K : Consts) (bsf : u8 → Int → Int) (wcl : worldCluster_s)
    (w : Option world_s) (i j k : Nat) (fl : List blockFace_s) :
    scanVoxel K bsf wcl w i j k fl = (voxelFaces K bsf wcl w i j k).reverse ++ fl := by
  have key := pushAll_eq bsf (wcl.data i j k) (vect3Di i j k) (scanNeighbour K wcl w i j k)
    [facing.FACE_PX, .FACE_MX, .FACE_PY, .FACE_MY, .FACE_PZ, .FACE_MZ] fl
  unfold scanVoxel voxelFaces
  by_cases hi : isInterior K i j k = true
  · simp only [hi, if_true, Bool.true_or]
    rw [← key]
    simp only [List.foldl_cons, List.foldl_nil, scanNeighbour, hi, if_true]
  · simp only [Bool.not_eq_true] at hi
    cases w with
    | none => simp [hi]
    | some w0 =>
      simp only [hi, Bool.false_eq_true, if_false, Option.isSome_some, if_true, Bool.false_or]
      rw [← key]
      simp only [List.foldl_cons, List.foldl_nil, scanNeighbour, hi, Bool.false_eq_true,
        if_false]

/-- A loop that pushes `g a` for each `a` pushes the concatenation. -/
theorem foldl_push_eq {α β : Type} (g : α → List β) (f : List β → α → List β)
    (hf : ∀ fl a, f fl a = (g a).reverse ++ fl) (xs : List α) (init : List β) :
    xs.foldl f init = (xs.flatMap g).reverse ++ init := by
  induction xs generalizing init with
  | nil => simp
  | cons a xs ih =>
    simp only [List.foldl_cons, List.flatMap_cons, List.reverse_append, List.append_assoc]
    rw [ih, hf]

/-- The staged faces are the faces of the voxels, in the order of the loops. -/
theorem stagedFaces_eq_flatMap (K : Consts) (bsf : u8 → Int → Int) (wcl : worldCluster_s)
    (w : Option world_s) :
    stagedFaces K bsf wcl w =
      (List.range K.CLUSTER_SIZE).flatMap (fun i =>
        (List.range K.CLUSTER_SIZE).flatMap (fun j =>
          (List.range K.CLUSTER_SIZE).flatMap (fun k => voxelFaces K bsf wcl w i j k))) := by
  unfold stagedFaces scanCluster
  rw [foldl_push_eq (fun i => (List.range K.CLUSTER_SIZE).flatMap (fun j =>
          (List.range K.CLUSTER_SIZE).flatMap (fun k => voxelFaces K bsf wcl w i j k)))]
  · simp
  · intro fl i
    rw [foldl_push_eq (fun j =>
          (List.range K.CLUSTER_SIZE).flatMap (fun k => voxelFaces K bsf wcl w i j k))]
    intro fl j
    rw [foldl_push_eq (fun k => voxelFaces K bsf wcl w i j k)]
    intro fl k
    exact scanVoxel_eq K bsf wcl w i j k fl

/-! ## Reading a stored cluster through the world -/

theorem mul_add_lt_mul {p n a c : Nat} (hp : p < n) (ha : a < c) : p * c + a < n * c := by
  calc p * c + a < p * c + c := by omega
    _ = (p + 1) * c := by ring
    _ ≤ n * c := Nat.mul_le_mul_right c hp

theorem mul_add_div_self {p a c : Nat} (ha : a < c) : (p * c + a) / c = p := by
  have hc : 0 < c := by omega
  rw [Nat.add_comm, Nat.add_mul_div_right _ _ hc, Nat.div_eq_of_lt ha, Nat.zero_add]

theorem mul_add_mod_self {p a c : Nat} (ha : a < c) : (p * c + a) % c = a := by
  rw [Nat.add_comm, Nat.add_mul_mod_self_right, Nat.mod_eq_of_lt ha]

/-- A block of a cluster stored in the world, read through `getWorldBlock` at
its absolute position, is the block of the cluster. -/
theorem getWorldBlock_of_stored (K : Consts) (w : world_s) (c : worldCluster_s)
    (h : clusterStoredIn K w c) (a b e : Nat) (ha : a < K.CLUSTER_SIZE)
    (hb : b < K.CLUSTER_SIZE) (he : e < K.CLUSTER_SIZE) :
    getWorldBlock K (some w) (vaddi (vmuli c.position K.CLUSTER_SIZE) (vect3Di a b e)) =
      ((c.data a b e).val : Int) := by
  obtain ⟨hx0, hx1, hy0, hy1, hz0, hz1, ch, hch, hcl⟩ := h
  have hpx : c.position.x = (c.position.x.toNat : Int) := by omega
  have hpy : c.position.y = (c.position.y.toNat : Int) := by omega
  have hpz : c.position.z = (c.position.z.toNat : Int) := by omega
  have hX : c.position.x.toNat < K.WORLD_SIZE := by omega
  have hY : c.position.y.toNat < K.CHUNK_HEIGHT := by omega
  have hZ : c.position.z.toNat < K.WORLD_SIZE := by omega
  generalize c.position.x.toNat = px at *
  generalize c.position.y.toNat = py at *
  generalize c.position.z.toNat = pz at *
  have hv : vaddi (vmuli c.position K.CLUSTER_SIZE) (vect3Di a b e) =
      vect3Di ((px * K.CLUSTER_SIZE + a : Nat) : Int) ((py * K.CLUSTER_SIZE + b : Nat) : Int)
        ((pz * K.CLUSTER_SIZE + e : Nat) : Int) := by
    simp only [vaddi, vmuli, vect3Di, hpx, hpy, hpz]
    push_cast
    rfl
  rw [hv, getWorldBlock_natCast K w _ _ _ (mul_add_lt_mul hX ha) (mul_add_lt_mul hY hb)
    (mul_add_lt_mul hZ he)]
  simp only [mul_add_div_self ha, mul_add_div_self hb, mul_add_div_self he,
    mul_add_mod_self ha, mul_add_mod_self hb, mul_add_mod_self he, hch, hcl]

/-! ## The scan against the wording of the specification -/

/-- The position the scan queries for a direction is the voxel plus the offset. -/
theorem voxel_add_offset (i j k : Nat) (d : facing) :
    vaddi (vect3Di i j k) (facingOffset d) =
      (match d with
       | .FACE_PX => vect3Di ((i : Int) + 1) j k
       | .FACE_MX => vect3Di ((i : Int) - 1) j k
       | .FACE_PY => vect3Di i ((j : Int) + 1) k
       | .FACE_MY => vect3Di i ((j : Int) - 1) k
       | .FACE_PZ => vect3Di i j ((k : Int) + 1)
       | .FACE_MZ => vect3Di i j ((k : Int) - 1)) := by
  cases d <;> simp [vaddi, vect3Di, facingOffset] <;> rfl

/-- For an interior voxel the neighbour the scan reads is the block of the
cluster, whatever the world. -/
theorem scanNeighbour_interior (K : Consts) (c : worldCluster_s) (w : Option world_s)
    (i j k : Nat) (hi : isInterior K i j k = true) (d : facing) :
    scanNeighbour K c w i j k d = neighbourBlock K c w i j k d := by
  unfold scanNeighbour neighbourBlock
  have hi' := hi
  simp only [isInterior, decide_eq_true_eq] at hi'
  have hq : inCluster K (vaddi (vect3Di i j k) (facingOffset d)) = true := by
    cases d <;> simp only [inCluster, vaddi, vect3Di, facingOffset, decide_eq_true_eq] <;> omega
  simp only [hi, if_true, hq]
  cases d <;> simp [vaddi, vect3Di, facingOffset]
  · have e : ((i : Int) + -1).toNat = i - 1 := by omega
    rw [e]
  · have e : ((j : Int) + -1).toNat = j - 1 := by omega
    rw [e]
  · have e : ((k : Int) + -1).toNat = k - 1 := by omega
    rw [e]

/-- With a world in which the cluster is stored, the neighbour the scan reads
is the neighbour of the specification. -/
theorem scanNeighbour_eq_neighbourBlock (K : Consts) (w : world_s) (c : worldCluster_s)
    (h : clusterStoredIn K w c) (i j k : Nat) (d : facing) :
    scanNeighbour K c (some w) i j k d = neighbourBlock K c (some w) i j k d := by
  by_cases hi : isInterior K i j k = true
  · exact scanNeighbour_interior K c (some w) i j k hi d
  · unfold scanNeighbour neighbourBlock
    simp only [Bool.not_eq_true] at hi
    simp only [hi, Bool.false_eq_true, if_false]
    rw [← voxel_add_offset]
    by_cases hq : inCluster K (vaddi (vect3Di i j k) (facingOffset d)) = true
    · simp only [hq, if_true]
      have hq' := hq
      simp only [inCluster, decide_eq_true_eq] at hq'
      have hv := vect3Di_toNat _ hq'.1 hq'.2.2.1 hq'.2.2.2.2.1
      rw [hv]
      have e := getWorldBlock_of_stored K w c h
        (vaddi (vect3Di i j k) (facingOffset d)).x.toNat
        (vaddi (vect3Di i j k) (facingOffset d)).y.toNat
        (vaddi (vect3Di i j k) (facingOffset d)).z.toNat (by omega) (by omega) (by omega)
      rw [e, ← hv]
    · simp only [Bool.not_eq_true] at hq
      simp only [hq, Bool.false_eq_true, if_false]

/-- With a world in which the cluster is stored, every voxel is scanned against
the neighbours of the specification. -/
theorem voxelFaces_eq_spec (K : Consts) (bsf : u8 → Int → Int) (w : world_s)
    (c : worldCluster_s) (h : clusterStoredIn K w c) (i j k : Nat) :
    voxelFaces K bsf c (some w) i j k =
      ((allFacings.map (fun d => ((i, j, k), d))).filter (faceWanted K bsf c (some w))).map
        (faceOf c) := by
  unfold voxelFaces
  simp only [Option.isSome_some, Bool.or_true, if_true, List.filter_map, List.map_map]
  have hf : (fun d => decide (bsf (c.data i j k) (scanNeighbour K c (some w) i j k d) ≥ 0)) =
      (faceWanted K bsf c (some w) ∘ fun d => ((i, j, k), d)) := by
    funext d
    simp only [Function.comp, faceWanted, scanNeighbour_eq_neighbourBlock K w c h]
  rw [hf]
  rfl

/-- The faces of the specification, voxel by voxel. -/
theorem specFaces_eq_flatMap (K : Consts) (bsf : u8 → Int → Int) (c : worldCluster_s)
    (w : Option world_s) :
    specFaces K bsf c w =
      (List.range K.CLUSTER_SIZE).flatMap (fun i =>
        (List.range K.CLUSTER_SIZE).flatMap (fun j =>
          (List.range K.CLUSTER_SIZE).flatMap (fun k =>
            ((allFacings.map (fun d => ((i, j, k), d))).filter (faceWanted K bsf c w)).map
              (faceOf c)))) := by
  unfold specFaces voxelFacingPairs allVoxels
  simp only [List.filter_flatMap, List.map_flatMap, List.flatMap_assoc, List.flatMap_map]

/-- The scan of a cluster stored in the world stages the faces of the
specification, in the same order. -/
theorem stagedFaces_eq_specFaces_of_stored (K : Consts) (bsf : u8 → Int → Int) (w : world_s)
    (c : worldCluster_s) (h : clusterStoredIn K w c) :
    stagedFaces K bsf c (some w) = specFaces K bsf c (some w) := by
  rw [stagedFaces_eq_flatMap, specFaces_eq_flatMap]
  simp only [voxelFaces_eq_spec K bsf w c h]

/-! ## The mesher -/

/-- The scan reads only the blocks and the position of the cluster. -/
theorem scanCluster_congr (K : Consts) (bsf : u8 → Int → Int) (c c' : worldCluster_s)
    (w : Option world_s) (hd : c'.data = c.data) (hp : c'.position = c.position) :
    scanCluster K bsf c' w = scanCluster K bsf c w := by
  unfold scanCluster scanVoxel
  rw [hd, hp]

/-- The drain of an empty staging list returns the buffer. -/
theorem drainFaces_nil (bgfg : blockFace_s → gsVbo_s → Option gsVbo_s) (v : gsVbo_s) :
    drainFaces bgfg [] v = some v := rfl

/-- The drain of a non-empty staging list hands its head to the writer and, if
the writer returns, goes on with the rest. -/
theorem drainFaces_cons (bgfg : blockFace_s → gsVbo_s → Option gsVbo_s) (f : blockFace_s)
    (r : List blockFace_s) (v : gsVbo_s) :
    drainFaces bgfg (f :: r) v = (bgfg f v).bind (drainFaces bgfg r) := by
  simp only [drainFaces, drainTrace, List.length_cons, drainLoop, popFace]
  cases bgfg f v <;> rfl

/-- With a writer that returns, the drain returns: the writer is applied to the
faces from the top of the stack down. -/
theorem drainFaces_returning (bgfg : blockFace_s → gsVbo_s → gsVbo_s) (l : List blockFace_s)
    (v : gsVbo_s) :
    drainFaces (returning bgfg) l v = some (l.foldl (fun v f => bgfg f v) v) := by
  induction l generalizing v with
  | nil => rfl
  | cons f r ih => rw [drainFaces_cons, returning, Option.some_bind, ih, List.foldl_cons]

/-- The mesher on a cluster in closed form: the buffer is destroyed if the
cluster had been generated, created for the staged faces, and drained into; the
call returns when the drain does. -/
theorem generateWorldClusterGeometry_eq (K : Consts) (bsf : u8 → Int → Int)
    (bgfg : blockFace_s → gsVbo_s → Option gsVbo_s) (alloc : Nat → Option (List Nat))
    (c : worldCluster_s) (w : Option world_s) :
    generateWorldClusterGeometry K bsf bgfg alloc (some c) w =
      (drainFaces bgfg (stagedFaces K bsf c w).reverse
        { data := alloc (toU32 ((stagedFaces K bsf c w).length * K.FACE_VBO_SIZE)),
          currentSize := 0,
          maxSize := toU32 ((stagedFaces K bsf c w).length * K.FACE_VBO_SIZE),
          numVertices := 0,
          commands := if c.generated then none else c.vbo.commands,
          commandsSize := if c.generated then 0 else c.vbo.commandsSize }).map
        (fun v => some { data := c.data, position := c.position, generated := true,
                         vbo := v }) := by
  have hs : ∀ v g, scanCluster K bsf { c with vbo := v, generated := g } w
      = scanCluster K bsf c w := fun v g => scanCluster_congr K bsf c _ w rfl rfl
  simp only [generateWorldClusterGeometry, gsVboCreate, gsVboDestroy, gsVboInit, Option.getD_some,
    if_true, stagedFaces, List.reverse_reverse, List.length_reverse, hs]
  cases c.generated <;> simp

/-- With a writer that returns, the mesher returns. -/
theorem generateWorldClusterGeometry_returning (K : Consts) (bsf : u8 → Int → Int)
    (bgfg : blockFace_s → gsVbo_s → gsVbo_s) (alloc : Nat → Option (List Nat))
    (c : worldCluster_s) (w : Option world_s) :
    generateWorldClusterGeometry K bsf (returning bgfg) alloc (some c) w =
      some (some { data := c.data, position := c.position, generated := true,
                   vbo := (stagedFaces K bsf c w).reverse.foldl (fun v f => bgfg f v)
                     { data := alloc (toU32 ((stagedFaces K bsf c w).length * K.FACE_VBO_SIZE)),
                       currentSize := 0,
                       maxSize := toU32 ((stagedFaces K bsf c w).length * K.FACE_VBO_SIZE),
                       numVertices := 0,
                       commands := if c.generated then none else c.vbo.commands,
                       commandsSize := if c.generated then 0 else c.vbo.commandsSize } }) := by
  rw [generateWorldClusterGeometry_eq, drainFaces_returning]
  rfl

/-- The cluster a call of the mesher leaves, for a writer that returns. -/
theorem meshCluster_eq (K : Consts) (bsf : u8 → Int → Int)
    (bgfg : blockFace_s → gsVbo_s → gsVbo_s) (alloc : Nat → Option (List Nat))
    (c : worldCluster_s) (w : Option world_s) :
    meshCluster K bsf bgfg alloc c w =
      { data := c.data, position := c.position, generated := true,
        vbo := (stagedFaces K bsf c w).reverse.foldl (fun v f => bgfg f v)
          { data := alloc (toU32 ((stagedFaces K bsf c w).length * K.FACE_VBO_SIZE)),
            currentSize := 0,
            maxSize := toU32 ((stagedFaces K bsf c w).length * K.FACE_VBO_SIZE),
            numVertices := 0,
            commands := if c.generated then none else c.vbo.commands,
            commandsSize := if c.generated then 0 else c.vbo.commandsSize } } := by
  simp only [meshCluster, generateWorldClusterGeometry_returning]

/-! ## Enumeration of the (voxel, direction) pairs -/

theorem nodup_flatMap_of_key {α β : Type} {l : List α} {f : α → List β} (hl : l.Nodup)
    (hf : ∀ a ∈ l, (f a).Nodup) (key : β → α) (hkey : ∀ a ∈ l, ∀ b ∈ f a, key b = a) :
    (l.flatMap f).Nodup := by
  rw [List.nodup_flatMap]
  refine ⟨hf, ?_⟩
  refine List.Pairwise.imp_of_mem ?_ hl
  intro a b ha hb hab x hxa hxb
  exact hab ((hkey a ha x hxa).symm.trans (hkey b hb x hxb))

theorem mem_allVoxels (K : Consts) (i j k : Nat) :
    (i, j, k) ∈ allVoxels K ↔ i < K.CLUSTER_SIZE ∧ j < K.CLUSTER_SIZE ∧ k < K.CLUSTER_SIZE := by
  simp only [allVoxels, List.mem_flatMap, List.mem_map, List.mem_range, Prod.mk.injEq]
  constructor
  · rintro ⟨a, ha, b, hb, e, he, rfl, rfl, rfl⟩
    exact ⟨ha, hb, he⟩
  · rintro ⟨hi, hj, hk⟩
    exact ⟨i, hi, j, hj, k, hk, rfl, rfl, rfl⟩

theorem nodup_allVoxels (K : Consts) : (allVoxels K).Nodup := by
  unfold allVoxels
  refine nodup_flatMap_of_key (List.nodup_range _) ?_ (fun v => v.1) ?_
  · intro i _
    refine nodup_flatMap_of_key (List.nodup_range _) ?_ (fun v => v.2.1) ?_
    · intro j _
      refine (List.nodup_range _).map ?_
      intro a b hab
      simpa using hab
    · intro j _ v hv
      simp only [List.mem_map] at hv
      obtain ⟨k, _, rfl⟩ := hv
      rfl
  · intro i _ v hv
    simp only [List.mem_flatMap, List.mem_map] at hv
    obtain ⟨j, _, k, _, rfl⟩ := hv
    rfl

theorem mem_voxelFacingPairs (K : Consts) (i j k : Nat) (d : facing) :
    ((i, j, k), d) ∈ voxelFacingPairs K ↔
      i < K.CLUSTER_SIZE ∧ j < K.CLUSTER_SIZE ∧ k < K.CLUSTER_SIZE := by
  simp only [voxelFacingPairs, List.mem_flatMap, List.mem_map, Prod.mk.injEq, Prod.exists]
  constructor
  · rintro ⟨a, b, e, hv, d', _, ⟨rfl, rfl, rfl⟩, rfl⟩
    exact (mem_allVoxels K _ _ _).mp hv
  · intro h
    refine ⟨i, j, k, (mem_allVoxels K i j k).mpr h, d, ?_, ⟨rfl, rfl, rfl⟩, rfl⟩
    cases d <;> simp [allFacings]

theorem nodup_voxelFacingPairs (K : Consts) : (voxelFacingPairs K).Nodup := by
  unfold voxelFacingPairs
  refine nodup_flatMap_of_key (nodup_allVoxels K) ?_ (fun vd => vd.1) ?_
  · intro v _
    refine List.Nodup.map ?_ (by decide)
    intro a b hab
    simpa using hab
  · intro v _ vd hvd
    simp only [List.mem_map] at hvd
    obtain ⟨d, _, rfl⟩ := hvd
    rfl

/-- A face of the specification list is staged exactly when its pair is
enumerated and the classifier answers positively. -/
theorem mem_specFaces (K : Consts) (bsf : u8 → Int → Int) (c : worldCluster_s)
    (w : Option world_s) (i j k : Nat) (d : facing) :
    blockFace (c.data i j k) d (vect3Di i j k) ∈ specFaces K bsf c w ↔
      (i < K.CLUSTER_SIZE ∧ j < K.CLUSTER_SIZE ∧ k < K.CLUSTER_SIZE) ∧
      bsf (c.data i j k) (neighbourBlock K c w i j k d) ≥ 0 := by
  simp only [specFaces, List.mem_map, List.mem_filter]
  constructor
  · rintro ⟨⟨⟨a, b, e⟩, d'⟩, ⟨hm, hw⟩, hf⟩
    simp only [faceOf, blockFace, vect3Di, blockFace_s.mk.injEq, vect3Di_s.mk.injEq,
      Nat.cast_inj] at hf
    obtain ⟨_, rfl, rfl, rfl, rfl⟩ := hf
    refine ⟨(mem_voxelFacingPairs K _ _ _ _).mp hm, ?_⟩
    simpa [faceWanted] using hw
  · rintro ⟨hr, hb⟩
    refine ⟨((i, j, k), d), ⟨(mem_voxelFacingPairs K i j k d).mpr hr, ?_⟩, rfl⟩
    simpa [faceWanted] using hb

/-- C4: for a cluster stored in the world at its position, the mesher stages
the faces of the (voxel, direction) pairs for which the classifier answers
positively on the block of the voxel and the block of its neighbour, the
neighbour being read from the cluster when it lies inside the cluster and with
`getWorldBlock` at the absolute position when it lies across the boundary; the
pairs are enumerated once each, so the number of faces is the number of such
pairs; the buffer of the cluster is filled from exactly these faces: with a
geometry writer that returns the call returns, the blocks are unchanged and
the buffer is the drain of these faces into the buffer created for them; with
any geometry writer the call returns exactly when the drain of these faces
does. -/
theorem generateWorldClusterGeometry_stages_classified_faces (K : Consts)
    (bsf : u8 → Int → Int) (w : world_s) (c : worldCluster_s) (h : clusterStoredIn K w c) :
    stagedFaces K bsf c (some w) = specFaces K bsf c (some w) ∧
    (∀ i j k d, i < K.CLUSTER_SIZE → j < K.CLUSTER_SIZE → k < K.CLUSTER_SIZE →
      (blockFace (c.data i j k) d (vect3Di i j k) ∈ stagedFaces K bsf c (some w) ↔
        bsf (c.data i j k) (neighbourBlock K c (some w) i j k d) ≥ 0)) ∧
    (voxelFacingPairs K).Nodup ∧
    (∀ i j k d, ((i, j, k), d) ∈ voxelFacingPairs K ↔
      i < K.CLUSTER_SIZE ∧ j < K.CLUSTER_SIZE ∧ k < K.CLUSTER_SIZE) ∧
    (stagedFaces K bsf c (some w)).length =
      (voxelFacingPairs K).countP (faceWanted K bsf c (some w)) ∧
    (∀ bgfg alloc, ∃ c',
      generateWorldClusterGeometry K bsf (returning bgfg) alloc (some c) (some w)
        = some (some c') ∧ c'.data = c.data ∧
      drainFaces (returning bgfg) (specFaces K bsf c (some w)).reverse
        { data := alloc (toU32 ((specFaces K bsf c (some w)).length * K.FACE_VBO_SIZE)),
          currentSize := 0,
          maxSize := toU32 ((specFaces K bsf c (some w)).length * K.FACE_VBO_SIZE),
          numVertices := 0,
          commands := if c.generated then none else c.vbo.commands,
          commandsSize := if c.generated then 0 else c.vbo.commandsSize } = some c'.vbo) ∧
    (∀ bgfg alloc, generateWorldClusterGeometry K bsf bgfg alloc (some c) (some w) =
      (drainFaces bgfg (specFaces K bsf c (some w)).reverse
        { data := alloc (toU32 ((specFaces K bsf c (some w)).length * K.FACE_VBO_SIZE)),
          currentSize := 0,
          maxSize := toU32 ((specFaces K bsf c (some w)).length * K.FACE_VBO_SIZE),
          numVertices := 0,
          commands := if c.generated then none else c.vbo.commands,
          commandsSize := if c.generated then 0 else c.vbo.commandsSize }).map
        (fun v => some { data := c.data, position := c.position, generated := true,
                         vbo := v })) := by
  have he := stagedFaces_eq_specFaces_of_stored K bsf w c h
  refine ⟨he, ?_, nodup_voxelFacingPairs K, mem_voxelFacingPairs K, ?_, ?_, ?_⟩
  · intro i j k d hi hj hk
    rw [he, mem_specFaces]
    exact ⟨fun hh => hh.2, fun hh => ⟨⟨hi, hj, hk⟩, hh⟩⟩
  · rw [he, specFaces, List.length_map, List.countP_eq_length_filter]
  · intro bgfg alloc
    refine ⟨_, generateWorldClusterGeometry_returning K bsf bgfg alloc c (some w), rfl, ?_⟩
    rw [drainFaces_returning, ← he]
  · intro bgfg alloc
    rw [generateWorldClusterGeometry_eq, he]

/-- C4, on a sample: the cluster of the sample world holding its solid block. -/
theorem generateWorldClusterGeometry_stages_classified_faces_witness :
    clusterStoredIn K4 sampleWorld sampleCluster ∧
    stagedFaces K4 blockShouldBeFace sampleCluster (some sampleWorld) =
      specFaces K4 blockShouldBeFace sampleCluster (some sampleWorld) :=
  ⟨⟨by decide, by decide, by decide, by decide, by decide, by decide, _, rfl, rfl⟩,
   (generateWorldClusterGeometry_stages_classified_faces K4 blockShouldBeFace sampleWorld
      sampleCluster
      ⟨by decide, by decide, by decide, by decide, by decide, by decide, _, rfl, rfl⟩).1⟩

/-! ## Meshing without a world -/

/-- A filtered list of pairs, voxel by voxel. -/
theorem pairs_filter_map_eq_flatMap {β : Type} (K : Consts)
    (P : (Nat × Nat × Nat) × facing → Bool) (g : (Nat × Nat × Nat) × facing → β) :
    ((voxelFacingPairs K).filter P).map g =
      (List.range K.CLUSTER_SIZE).flatMap (fun i =>
        (List.range K.CLUSTER_SIZE).flatMap (fun j =>
          (List.range K.CLUSTER_SIZE).flatMap (fun k =>
            ((allFacings.map (fun d => ((i, j, k), d))).filter P).map g))) := by
  unfold voxelFacingPairs allVoxels
  simp only [List.filter_flatMap, List.map_flatMap, List.flatMap_assoc, List.flatMap_map]

/-- Without a world, the faces of one voxel. -/
theorem voxelFaces_none (K : Consts) (bsf : u8 → Int → Int) (c : worldCluster_s)
    (i j k : Nat) :
    voxelFaces K bsf c none i j k =
      ((allFacings.map (fun d => ((i, j, k), d))).filter (fun vd =>
        isInterior K vd.1.1 vd.1.2.1 vd.1.2.2 && faceWanted K bsf c none vd)).map
        (faceOf c) := by
  unfold voxelFaces
  simp only [List.filter_map, List.map_map, Option.isSome_none, Bool.or_false]
  by_cases hi : isInterior K i j k = true
  · have hf : (fun d => decide (bsf (c.data i j k) (scanNeighbour K c none i j k d) ≥ 0)) =
        ((fun vd => isInterior K vd.1.1 vd.1.2.1 vd.1.2.2 && faceWanted K bsf c none vd) ∘
          fun d => ((i, j, k), d)) := by
      funext d
      simp only [Function.comp, faceWanted, scanNeighbour_interior K c none i j k hi, hi,
        Bool.true_and]
    rw [hf]
    simp only [hi, if_true]
    rfl
  · simp only [Bool.not_eq_true] at hi
    have hf : ((fun vd => isInterior K vd.1.1 vd.1.2.1 vd.1.2.2 && faceWanted K bsf c none vd) ∘
          fun d => ((i, j, k), d)) = fun _ => false := by
      funext d
      simp only [Function.comp, hi, Bool.false_and]
    rw [hf]
    simp [hi]

/-- Without a world the scan stages the faces of the interior voxels. -/
theorem stagedFaces_none_eq_interiorFaces (K : Consts) (bsf : u8 → Int → Int)
    (c : worldCluster_s) : stagedFaces K bsf c none = interiorFaces K bsf c := by
  rw [stagedFaces_eq_flatMap, interiorFaces, pairs_filter_map_eq_flatMap]
  simp only [voxelFaces_none]

theorem mem_interiorFaces (K : Consts) (bsf : u8 → Int → Int) (c : worldCluster_s)
    (i j k : Nat) (d : facing) :
    blockFace (c.data i j k) d (vect3Di i j k) ∈ interiorFaces K bsf c ↔
      ((i < K.CLUSTER_SIZE ∧ j < K.CLUSTER_SIZE ∧ k < K.CLUSTER_SIZE) ∧
        isInterior K i j k = true ∧
        bsf (c.data i j k) (neighbourBlock K c none i j k d) ≥ 0) := by
  simp only [interiorFaces, List.mem_map, List.mem_filter]
  constructor
  · rintro ⟨⟨⟨a, b, e⟩, d'⟩, ⟨hm, hw⟩, hf⟩
    simp only [faceOf, blockFace, vect3Di, blockFace_s.mk.injEq, vect3Di_s.mk.injEq,
      Nat.cast_inj] at hf
    obtain ⟨_, rfl, rfl, rfl, rfl⟩ := hf
    simp only [Bool.and_eq_true, faceWanted, decide_eq_true_eq] at hw
    exact ⟨(mem_voxelFacingPairs K _ _ _ _).mp hm, hw.1, hw.2⟩
  · rintro ⟨hr, hi, hb⟩
    refine ⟨((i, j, k), d), ⟨(mem_voxelFacingPairs K i j k d).mpr hr, ?_⟩, rfl⟩
    simp only [Bool.and_eq_true, faceWanted, decide_eq_true_eq]
    exact ⟨hi, hb⟩

/-- C5 as amended: with no world, the mesher tests only the voxels strictly
inside the cluster, against the blocks of the cluster; no face is staged for a
voxel on a face of the cluster, in any direction, whatever the classifier. -/
theorem no_world_stages_interior_faces_only (K : Consts) (bsf : u8 → Int → Int)
    (c : worldCluster_s) :
    stagedFaces K bsf c none = interiorFaces K bsf c ∧
    (∀ i j k d, isInterior K i j k = false →
      blockFace (c.data i j k) d (vect3Di i j k) ∉ stagedFaces K bsf c none) ∧
    (∀ i j k d, isInterior K i j k = true →
      (blockFace (c.data i j k) d (vect3Di i j k) ∈ stagedFaces K bsf c none ↔
        bsf (c.data i j k) (neighbourBlock K c none i j k d) ≥ 0) ∧
      inCluster K (vaddi (vect3Di i j k) (facingOffset d)) = true) := by
  have he := stagedFaces_none_eq_interiorFaces K bsf c
  refine ⟨he, ?_, ?_⟩
  · intro i j k d hi hm
    rw [he, mem_interiorFaces] at hm
    rw [hm.2.1] at hi
    exact Bool.noConfusion hi
  · intro i j k d hi
    have hi' := hi
    simp only [isInterior, decide_eq_true_eq] at hi'
    refine ⟨?_, ?_⟩
    · rw [he, mem_interiorFaces]
      exact ⟨fun hh => hh.2.2, fun hh => ⟨⟨by omega, by omega, by omega⟩, hi, hh⟩⟩
    · cases d <;> simp only [inCluster, vaddi, vect3Di, facingOffset, decide_eq_true_eq] <;> omega

/-- C5 fails on the code: in a cluster of `K4` meshed with no world, the solid
block in the corner `(0, 0, 0)` has its neighbour in direction `-X` across the
boundary, the classifier answers positively for the sentinel, and yet no face
is staged for it (no face is staged at all). -/
theorem no_world_boundary_block_has_no_face :
    cornerCluster.data 0 0 0 = 1 ∧
    inCluster K4 (vaddi (vect3Di 0 0 0) (facingOffset .FACE_MX)) = false ∧
    blockShouldBeFace 1 SENTINEL ≥ 0 ∧
    blockFace 1 .FACE_MX (vect3Di 0 0 0) ∉ stagedFaces K4 blockShouldBeFace cornerCluster none ∧
    stagedFaces K4 blockShouldBeFace cornerCluster none = [] := by
  decide

/-! ## The classifier of the specification -/

/-- For an AIR block the classifier is never positive. -/
theorem blockShouldBeFace_air (nb : Int) : ¬ blockShouldBeFace BLOCK_AIR nb ≥ 0 := by
  simp [blockShouldBeFace, face_needed]

/-- For a solid block the classifier is positive on the sentinel. -/
theorem blockShouldBeFace_solid_sentinel (t : u8) (ht : t ≠ BLOCK_AIR) :
    blockShouldBeFace t SENTINEL ≥ 0 := by
  simp [blockShouldBeFace, face_needed, ht, isSolid, SENTINEL]

/-- For a solid block the classifier is positive on an AIR neighbour. -/
theorem blockShouldBeFace_solid_air (t : u8) (ht : t ≠ BLOCK_AIR) :
    blockShouldBeFace t 0 ≥ 0 := by
  simp [blockShouldBeFace, face_needed, ht, isSolid]

/-- For a solid block the classifier is negative on a solid neighbour. -/
theorem blockShouldBeFace_solid_solid (t : u8) (n : u8) (hn : n ≠ BLOCK_AIR) :
    ¬ blockShouldBeFace t ((n.val : Nat) : Int) ≥ 0 := by
  have h1 : (1 : Int) ≤ ((n.val : Nat) : Int) := by
    have : n.val ≠ 0 := fun h => hn (Fin.ext h)
    omega
  have h2 : ((n.val : Nat) : Int) ≤ 255 := by
    have := n.isLt
    omega
  have h3 : ((n.val : Nat) : Int) ≠ SENTINEL := by
    unfold SENTINEL; omega
  simp [blockShouldBeFace, face_needed, isSolid, h1, h2, h3]

/-! ## Lists with a single contribution -/

theorem flatMap_eq_nil_of_forall {α β : Type} (l : List α) (f : α → List β)
    (h : ∀ x ∈ l, f x = []) : l.flatMap f = [] := by
  induction l with
  | nil => rfl
  | cons a l ih =>
    rw [List.flatMap_cons, h a (List.mem_cons_self _ _),
      ih (fun x hx => h x (List.mem_cons_of_mem _ hx))]
    rfl

theorem flatMap_eq_single {α β : Type} (l : List α) (hl : l.Nodup) (a : α) (ha : a ∈ l)
    (f : α → List β) (h : ∀ x ∈ l, x ≠ a → f x = []) : l.flatMap f = f a := by
  induction l with
  | nil => cases ha
  | cons b l ih =>
    rw [List.flatMap_cons]
    rw [List.nodup_cons] at hl
    rcases List.mem_cons.mp ha with hab | hal
    · subst hab
      rw [flatMap_eq_nil_of_forall l f]
      · simp
      · intro x hx
        exact h x (List.mem_cons_of_mem _ hx) (fun hxa => hl.1 (hxa ▸ hx))
    · rw [h b (List.mem_cons_self _ _) (fun hba => hl.1 (hba ▸ hal)),
        ih hl.2 hal (fun x hx => h x (List.mem_cons_of_mem _ hx))]
      rfl

/-! ## One solid block, no world -/

/-- An AIR voxel stages no face, with or without a world. -/
theorem voxelFaces_air (K : Consts) (c : worldCluster_s) (w : Option world_s) (i j k : Nat)
    (h : c.data i j k = BLOCK_AIR) : voxelFaces K blockShouldBeFace c w i j k = [] := by
  unfold voxelFaces
  split
  · simp only [List.map_eq_nil_iff, List.filter_eq_nil_iff, decide_eq_true_eq]
    intro d _
    rw [h]
    exact blockShouldBeFace_air _
  · rfl

/-- Without a world an AIR voxel stages no face. -/
theorem voxelFaces_none_air (K : Consts) (c : worldCluster_s) (i j k : Nat)
    (h : c.data i j k = BLOCK_AIR) : voxelFaces K blockShouldBeFace c none i j k = [] :=
  voxelFaces_air K c none i j k h

/-- Without a world the single solid block, strictly interior, stages its six
faces. -/
theorem voxelFaces_none_single (K : Consts) (c : worldCluster_s) (a b e : Nat) (t : u8)
    (hint : isInterior K a b e = true) (hsolid : c.data a b e = t) (ht : t ≠ BLOCK_AIR)
    (hair : ∀ i j k, i < K.CLUSTER_SIZE → j < K.CLUSTER_SIZE → k < K.CLUSTER_SIZE →
      (i, j, k) ≠ (a, b, e) → c.data i j k = BLOCK_AIR) :
    voxelFaces K blockShouldBeFace c none a b e =
      allFacings.map (fun d => blockFace t d (vect3Di a b e)) := by
  have hi' := hint
  simp only [isInterior, decide_eq_true_eq] at hi'
  unfold voxelFaces
  simp only [hint, Bool.true_or, if_true, hsolid]
  have hall : ∀ d, blockShouldBeFace t (scanNeighbour K c none a b e d) ≥ 0 := by
    intro d
    have h0 : scanNeighbour K c none a b e d = 0 := by
      simp only [scanNeighbour, hint, if_true]
      cases d
      · rw [hair (a + 1) b e (by omega) (by omega) (by omega) (by simp)]; rfl
      · rw [hair (a - 1) b e (by omega) (by omega) (by omega)
          (by simp only [ne_eq, Prod.mk.injEq, not_and]; omega)]; rfl
      · rw [hair a (b + 1) e (by omega) (by omega) (by omega) (by simp)]; rfl
      · rw [hair a (b - 1) e (by omega) (by omega) (by omega)
          (by simp only [ne_eq, Prod.mk.injEq, not_and]; omega)]; rfl
      · rw [hair a b (e + 1) (by omega) (by omega) (by omega) (by simp)]; rfl
      · rw [hair a b (e - 1) (by omega) (by omega) (by omega)
          (by simp only [ne_eq, Prod.mk.injEq, not_and]; omega)]; rfl
    rw [h0]
    exact blockShouldBeFace_solid_air t ht
  rw [List.filter_eq_self.mpr (fun d _ => by simpa using hall d)]
  rfl

/-- Without a world a cluster with a single solid block, strictly interior,
stages the six faces of that block. -/
theorem stagedFaces_none_single (K : Consts) (c : worldCluster_s) (a b e : Nat) (t : u8)
    (hint : isInterior K a b e = true) (hsolid : c.data a b e = t) (ht : t ≠ BLOCK_AIR)
    (hair : ∀ i j k, i < K.CLUSTER_SIZE → j < K.CLUSTER_SIZE → k < K.CLUSTER_SIZE →
      (i, j, k) ≠ (a, b, e) → c.data i j k = BLOCK_AIR) :
    stagedFaces K blockShouldBeFace c none =
      allFacings.map (fun d => blockFace t d (vect3Di a b e)) := by
  have hi' := hint
  simp only [isInterior, decide_eq_true_eq] at hi'
  have ha : a ∈ List.range K.CLUSTER_SIZE := List.mem_range.mpr (by omega)
  have hb : b ∈ List.range K.CLUSTER_SIZE := List.mem_range.mpr (by omega)
  have he : e ∈ List.range K.CLUSTER_SIZE := List.mem_range.mpr (by omega)
  rw [stagedFaces_eq_flatMap]
  rw [flatMap_eq_single _ (List.nodup_range _) a ha, flatMap_eq_single _ (List.nodup_range _) b hb,
    flatMap_eq_single _ (List.nodup_range _) e he]
  · exact voxelFaces_none_single K c a b e t hint hsolid ht hair
  · intro k hk hne
    exact voxelFaces_none_air K c a b k (hair a b k (by omega) (by omega)
      (List.mem_range.mp hk) (by simp [hne]))
  · intro j hj hne
    apply flatMap_eq_nil_of_forall
    intro k hk
    exact voxelFaces_none_air K c a j k (hair a j k (by omega) (List.mem_range.mp hj)
      (List.mem_range.mp hk) (by simp [hne]))
  · intro i hi hne
    apply flatMap_eq_nil_of_forall
    intro j hj
    apply flatMap_eq_nil_of_forall
    intro k hk
    exact voxelFaces_none_air K c i j k (hair i j k (List.mem_range.mp hi) (List.mem_range.mp hj)
      (List.mem_range.mp hk) (by simp [hne]))

/-! ## The buffer during the drain -/

/-- The geometry writer of the specification in closed form: the buffer is
returned as it is when the size of a face is 0 or exceeds the room left; else
the bytes of the face are copied into the region, and the call does not return
when there is no region. -/
theorem blockGenerateFaceGeometry_eq (K : Consts) (geom : blockFace_s → List Nat)
    (f : blockFace_s) (v : gsVbo_s) :
    blockGenerateFaceGeometry K geom f v =
      if K.FACE_VBO_SIZE = 0 ∨
          s32ToU32 (toS32 v.maxSize - toS32 v.currentSize) < K.FACE_VBO_SIZE then some v
      else v.data.map (fun region =>
        { v with data := some (memcpyAt region v.currentSize (geom f) K.FACE_VBO_SIZE),
                 currentSize := toU32 (v.currentSize + K.FACE_VBO_SIZE),
                 numVertices := toU32 (v.numVertices + 6) }) := by
  unfold blockGenerateFaceGeometry gsVboAddData gsVboGetOffset
  by_cases h1 : K.FACE_VBO_SIZE = 0
  · simp [h1]
  · by_cases h2 : s32ToU32 (toS32 v.maxSize - toS32 v.currentSize) < K.FACE_VBO_SIZE
    · simp [h1, h2]
    · simp only [h1, h2, if_false, or_self]
      cases v.data <;> rfl

/-- The geometry writer of the specification never changes the capacity of the
buffer, and leaves a region where there was one. -/
theorem blockGenerateFaceGeometry_maxSize (K : Consts) (geom : blockFace_s → List Nat)
    (f : blockFace_s) (v v1 : gsVbo_s) (h : blockGenerateFaceGeometry K geom f v = some v1) :
    v1.maxSize = v.maxSize ∧ (v.data.isSome = true → v1.data.isSome = true) := by
  rw [blockGenerateFaceGeometry_eq] at h
  split_ifs at h
  · cases h
    exact ⟨rfl, id⟩
  · cases hd : v.data with
    | none => rw [hd] at h; cases h
    | some region =>
      rw [hd] at h
      cases h
      exact ⟨rfl, fun _ => rfl⟩

/-- On a buffer with a region the geometry writer of the specification
returns. -/
theorem blockGenerateFaceGeometry_isSome (K : Consts) (geom : blockFace_s → List Nat)
    (f : blockFace_s) (v : gsVbo_s) (hd : v.data.isSome = true) :
    ∃ v1, blockGenerateFaceGeometry K geom f v = some v1 := by
  rw [blockGenerateFaceGeometry_eq]
  split_ifs
  · exact ⟨_, rfl⟩
  · obtain ⟨region, hr⟩ := Option.isSome_iff_exists.mp hd
    rw [hr]
    exact ⟨_, rfl⟩

/-- On a buffer without a region and with room for a face, the geometry writer
of the specification does not return. -/
theorem blockGenerateFaceGeometry_null (K : Consts) (geom : blockFace_s → List Nat)
    (f : blockFace_s) (v : gsVbo_s) (hd : v.data = none) (h0 : K.FACE_VBO_SIZE ≠ 0)
    (hroom : ¬ s32ToU32 (toS32 v.maxSize - toS32 v.currentSize) < K.FACE_VBO_SIZE) :
    blockGenerateFaceGeometry K geom f v = none := by
  rw [blockGenerateFaceGeometry_eq, if_neg (by tauto), hd]
  rfl

/-- Draining faces with the geometry writer of the specification never changes
the capacity of the buffer. -/
theorem drainFaces_maxSize (K : Consts) (geom : blockFace_s → List Nat)
    (l : List blockFace_s) (v v1 : gsVbo_s)
    (h : drainFaces (blockGenerateFaceGeometry K geom) l v = some v1) :
    v1.maxSize = v.maxSize := by
  induction l generalizing v with
  | nil =>
    rw [drainFaces_nil] at h
    cases h
    rfl
  | cons f r ih =>
    rw [drainFaces_cons] at h
    obtain ⟨v2, h2, h3⟩ := Option.bind_eq_some.mp h
    rw [ih v2 h3]
    exact (blockGenerateFaceGeometry_maxSize K geom f v v2 h2).1

/-- Into a buffer with a region, the drain with the geometry writer of the
specification returns. -/
theorem drainFaces_isSome (K : Consts) (geom : blockFace_s → List Nat)
    (l : List blockFace_s) (v : gsVbo_s) (hd : v.data.isSome = true) :
    ∃ v1, drainFaces (blockGenerateFaceGeometry K geom) l v = some v1 := by
  induction l generalizing v with
  | nil => exact ⟨v, rfl⟩
  | cons f r ih =>
    obtain ⟨v2, h2⟩ := blockGenerateFaceGeometry_isSome K geom f v hd
    obtain ⟨v1, h1⟩ := ih v2 ((blockGenerateFaceGeometry_maxSize K geom f v v2 h2).2 hd)
    exact ⟨v1, by rw [drainFaces_cons, h2, Option.some_bind, h1]⟩

/-- C6 as amended: a cluster with exactly one solid block, strictly inside the
cluster (no index 0 or `CLUSTER_SIZE - 1`), all other blocks AIR, meshed with
no world, stages exactly the 6 faces of that block, one per direction; when
the allocation of the buffer succeeds (the allocator returns a region of at
least the size asked for) the call returns, the buffer has the capacity
`6 * FACE_VBO_SIZE` as a `u32` holds it (modulo `2 ^ 32`) and `generated` is
set. -/
theorem single_interior_block_stages_six_faces (K : Consts) (c : worldCluster_s)
    (a b e : Nat) (t : u8) (hint : isInterior K a b e = true) (hsolid : c.data a b e = t)
    (ht : t ≠ BLOCK_AIR)
    (hair : ∀ i j k, i < K.CLUSTER_SIZE → j < K.CLUSTER_SIZE → k < K.CLUSTER_SIZE →
      (i, j, k) ≠ (a, b, e) → c.data i j k = BLOCK_AIR) :
    stagedFaces K blockShouldBeFace c none =
      [blockFace t .FACE_PX (vect3Di a b e), blockFace t .FACE_MX (vect3Di a b e),
       blockFace t .FACE_PY (vect3Di a b e), blockFace t .FACE_MY (vect3Di a b e),
       blockFace t .FACE_PZ (vect3Di a b e), blockFace t .FACE_MZ (vect3Di a b e)] ∧
    (stagedFaces K blockShouldBeFace c none).length = 6 ∧
    (∀ geom alloc, allocates alloc (toU32 (6 * K.FACE_VBO_SIZE)) → ∃ c',
      generateWorldClusterGeometry K blockShouldBeFace (blockGenerateFaceGeometry K geom) alloc
        (some c) none = some (some c') ∧
      c'.generated = true ∧ c'.vbo.maxSize = (6 * K.FACE_VBO_SIZE) % 2 ^ 32) := by
  have hs := stagedFaces_none_single K c a b e t hint hsolid ht hair
  have hl : (stagedFaces K blockShouldBeFace c none).length = 6 := by rw [hs]; rfl
  refine ⟨hs, hl, ?_⟩
  intro geom alloc ha
  obtain ⟨region, halloc, _⟩ := ha
  obtain ⟨v1, h1⟩ := drainFaces_isSome K geom (stagedFaces K blockShouldBeFace c none).reverse
    { data := alloc (toU32 ((stagedFaces K blockShouldBeFace c none).length * K.FACE_VBO_SIZE)),
      currentSize := 0,
      maxSize := toU32 ((stagedFaces K blockShouldBeFace c none).length * K.FACE_VBO_SIZE),
      numVertices := 0,
      commands := if c.generated then none else c.vbo.commands,
      commandsSize := if c.generated then 0 else c.vbo.commandsSize }
    (by rw [hl]; exact Option.isSome_iff_exists.mpr ⟨region, halloc⟩)
  refine ⟨_, by rw [generateWorldClusterGeometry_eq, h1]; rfl, rfl, ?_⟩
  rw [drainFaces_maxSize K geom _ _ _ h1, hl]
  rfl

/-- C6 as amended, on the scenario of the specification: `CLUSTER_SIZE = 4`,
the solid block at the local position `(1, 1, 1)`, the allocator returning a
region of the size asked for. -/
theorem single_interior_block_stages_six_faces_witness :
    (stagedFaces K4 blockShouldBeFace (mkCluster (vect3Di 0 0 0) (oneBlock 1 1 1)) none).length
      = 6 ∧
    ∃ c', generateWorldClusterGeometry K4 blockShouldBeFace
        (blockGenerateFaceGeometry K4 (fun _ => List.replicate 144 7))
        (fun n => some (List.replicate n 0))
        (some (mkCluster (vect3Di 0 0 0) (oneBlock 1 1 1))) none = some (some c') ∧
      c'.generated = true ∧ c'.vbo.maxSize = 864 := by
  have h := single_interior_block_stages_six_faces K4
    (mkCluster (vect3Di 0 0 0) (oneBlock 1 1 1)) 1 1 1 1 (by decide) (by decide) (by decide)
    (by
      intro i j k _ _ _ h
      simp only [mkCluster, oneBlock, BLOCK_AIR]
      rw [if_neg]
      intro hh
      exact h (by rw [hh.1, hh.2.1, hh.2.2]))
  exact ⟨h.2.1, h.2.2 (fun _ => List.replicate 144 7) (fun n => some (List.replicate n 0))
    ⟨_, rfl, by simp⟩⟩

/-- C6 fails on the code: a cluster of `K4` whose single solid block is in the
corner `(0, 0, 0)`, meshed with no world, stages no face and gets a buffer of
capacity 0. -/
theorem corner_block_no_world_stages_no_face :
    (∀ i, i < 4 → ∀ j, j < 4 → ∀ k, k < 4 →
      (cornerCluster.data i j k ≠ BLOCK_AIR ↔ (i, j, k) = (0, 0, 0))) ∧
    (stagedFaces K4 blockShouldBeFace cornerCluster none).length = 0 ∧
    (stagedFaces K4 blockShouldBeFace cornerCluster none).length ≠ 6 ∧
    (generateWorldClusterGeometry K4 blockShouldBeFace
      (blockGenerateFaceGeometry K4 (fun _ => List.replicate 144 0)) (fun _ => some [])
      (some cornerCluster) none).map (fun r => r.map (fun c => (c.generated, c.vbo.maxSize)))
        = some (some (true, 0)) := by
  decide

/-! ## A cluster of AIR -/

/-- A cluster all of whose blocks are AIR stages no face, with or without a
world. -/
theorem stagedFaces_air (K : Consts) (c : worldCluster_s) (w : Option world_s)
    (hair : ∀ i j k, i < K.CLUSTER_SIZE → j < K.CLUSTER_SIZE → k < K.CLUSTER_SIZE →
      c.data i j k = BLOCK_AIR) :
    stagedFaces K blockShouldBeFace c w = [] := by
  rw [stagedFaces_eq_flatMap]
  apply flatMap_eq_nil_of_forall
  intro i hi
  apply flatMap_eq_nil_of_forall
  intro j hj
  apply flatMap_eq_nil_of_forall
  intro k hk
  exact voxelFaces_air K c w i j k
    (hair i j k (List.mem_range.mp hi) (List.mem_range.mp hj) (List.mem_range.mp hk))

/-- When no face is staged the mesher returns, whatever the allocator returns
and whatever the geometry writer: the buffer is created with capacity 0 and
nothing is written to it. -/
theorem generateWorldClusterGeometry_no_face (K : Consts) (bsf : u8 → Int → Int)
    (bgfg : blockFace_s → gsVbo_s → Option gsVbo_s) (alloc : Nat → Option (List Nat))
    (c : worldCluster_s) (w : Option world_s) (h : stagedFaces K bsf c w = []) :
    generateWorldClusterGeometry K bsf bgfg alloc (some c) w =
      some (some { data := c.data, position := c.position, generated := true,
                   vbo := { data := alloc 0, currentSize := 0, maxSize := 0, numVertices := 0,
                            commands := if c.generated then none else c.vbo.commands,
                            commandsSize := if c.generated then 0 else c.vbo.commandsSize } }) := by
  rw [generateWorldClusterGeometry_eq, h]
  simp only [List.length_nil, Nat.zero_mul, List.reverse_nil, drainFaces_nil, Option.map_some']
  rfl

/-- C7: a cluster all of whose blocks are AIR, at any position, meshed with
any world or with none, stages exactly zero faces under the classifier of the
specification; the call returns with the buffer created with capacity 0 and
nothing appended to it. -/
theorem air_cluster_stages_no_face (K : Consts) (c : worldCluster_s) (w : Option world_s)
    (hair : ∀ i j k, i < K.CLUSTER_SIZE → j < K.CLUSTER_SIZE → k < K.CLUSTER_SIZE →
      c.data i j k = BLOCK_AIR) :
    stagedFaces K blockShouldBeFace c w = [] ∧
    (stagedFaces K blockShouldBeFace c w).length = 0 ∧
    (∀ geom alloc, ∃ c',
      generateWorldClusterGeometry K blockShouldBeFace (blockGenerateFaceGeometry K geom) alloc
        (some c) w = some (some c') ∧
      c'.generated = true ∧ c'.vbo.maxSize = 0 ∧ c'.vbo.currentSize = 0 ∧
      c'.vbo.numVertices = 0) := by
  have hs := stagedFaces_air K c w hair
  refine ⟨hs, by rw [hs]; rfl, ?_⟩
  intro geom alloc
  exact ⟨_, generateWorldClusterGeometry_no_face K _ _ alloc c w hs, rfl, rfl, rfl, rfl⟩

/-- C7, on samples: the AIR cluster of `K4` at the corner of a world of AIR,
meshed with that world (its neighbours out of the world read as the sentinel),
and meshed with no world. -/
theorem air_cluster_stages_no_face_witness :
    getWorldBlock K4 (some airWorld) (vect3Di (-1) 0 0) = SENTINEL ∧
    stagedFaces K4 blockShouldBeFace airCluster (some airWorld) = [] ∧
    stagedFaces K4 blockShouldBeFace airCluster none = [] :=
  ⟨by decide,
   (air_cluster_stages_no_face K4 airCluster (some airWorld) (fun _ _ _ _ _ _ => rfl)).1,
   (air_cluster_stages_no_face K4 airCluster none (fun _ _ _ _ _ _ => rfl)).1⟩

/-! ## Full occlusion -/

/-- C8: full occlusion. A cluster stored in the world, entirely filled with
one solid type, whose neighbours across its six faces, read through
`getWorldBlock`, are all blocks of that same solid type, stages no face when
meshed with that world; its buffer is created with capacity 0. -/
theorem full_occlusion_stages_no_face (K : Consts) (w : world_s) (c : worldCluster_s)
    (t : u8) (ht : t ≠ BLOCK_AIR) (h : clusterStoredIn K w c)
    (hfill : ∀ i, i < K.CLUSTER_SIZE → ∀ j, j < K.CLUSTER_SIZE → ∀ k, k < K.CLUSTER_SIZE →
      c.data i j k = t)
    (hlayers : ∀ i, i < K.CLUSTER_SIZE → ∀ j, j < K.CLUSTER_SIZE → ∀ k, k < K.CLUSTER_SIZE →
      ∀ d ∈ allFacings, inCluster K (vaddi (vect3Di i j k) (facingOffset d)) = false →
        getWorldBlock K (some w) (vaddi (vmuli c.position K.CLUSTER_SIZE)
          (vaddi (vect3Di i j k) (facingOffset d))) = ((t.val : Nat) : Int)) :
    stagedFaces K blockShouldBeFace c (some w) = [] ∧
    (∀ geom alloc, ∃ c',
      generateWorldClusterGeometry K blockShouldBeFace (blockGenerateFaceGeometry K geom) alloc
        (some c) (some w) = some (some c') ∧ c'.generated = true ∧ c'.vbo.maxSize = 0) := by
  have hs : stagedFaces K blockShouldBeFace c (some w) = [] := by
    rw [stagedFaces_eq_specFaces_of_stored K _ w c h, specFaces, List.map_eq_nil_iff,
      List.filter_eq_nil_iff]
    rintro ⟨⟨i, j, k⟩, d⟩ hm
    obtain ⟨hi, hj, hk⟩ := (mem_voxelFacingPairs K i j k d).mp hm
    have hd : d ∈ allFacings := by cases d <;> simp [allFacings]
    simp only [faceWanted, decide_eq_true_eq, hfill i hi j hj k hk]
    unfold neighbourBlock
    by_cases hq : inCluster K (vaddi (vect3Di i j k) (facingOffset d)) = true
    · have hq' := hq
      simp only [inCluster, decide_eq_true_eq] at hq'
      simp only [hq, if_true]
      rw [hfill _ (by omega) _ (by omega) _ (by omega)]
      exact blockShouldBeFace_solid_solid t t ht
    · simp only [Bool.not_eq_true] at hq
      simp only [hq, Bool.false_eq_true, if_false]
      rw [hlayers i hi j hj k hk d hd hq]
      exact blockShouldBeFace_solid_solid t t ht
  refine ⟨hs, ?_⟩
  intro geom alloc
  exact ⟨_, generateWorldClusterGeometry_no_face K _ _ alloc c (some w) hs, rfl, rfl⟩

/-- C8, on a sample: the cluster in the middle of a world of `K3` filled with
one solid type. -/
theorem full_occlusion_stages_no_face_witness :
    clusterStoredIn K3 solidWorld solidCluster ∧
    stagedFaces K3 blockShouldBeFace solidCluster (some solidWorld) = [] :=
  ⟨⟨by decide, by decide, by decide, by decide, by decide, by decide, _, rfl, rfl⟩,
   (full_occlusion_stages_no_face K3 solidWorld solidCluster 1 (by decide)
      ⟨by decide, by decide, by decide, by decide, by decide, by decide, _, rfl, rfl⟩
      (fun _ _ _ _ _ _ => rfl) (by decide)).1⟩

/-! ## Appending to a buffer -/

/-- For sizes `cur ≤ max` that fit in 32 bits, the `int` difference of the
guard of `gsVboAddData`, converted to `u32`, is the room left. -/
theorem s32_diff_eq_room (m c : Nat) (hm : m < 2 ^ 32) (hc : c ≤ m) :
    s32ToU32 (toS32 m - toS32 c) = m - c := by
  unfold s32ToU32 toS32
  have hm' : m % 2 ^ 32 = m := Nat.mod_eq_of_lt hm
  have hc' : c % 2 ^ 32 = c := Nat.mod_eq_of_lt (by omega)
  rw [hm', hc']
  norm_num at hm ⊢
  split_ifs <;> omega

/-- C9 as amended: on a buffer with `currentSize ≤ maxSize`, `gsVboAddData`
returns -1, leaving every field of the buffer unchanged, when the buffer or
the data is null, the size is 0, or `currentSize + size` would exceed
`maxSize`, and a call that returns returns -1 in these cases only; otherwise,
when the region of the buffer is not null, it returns 0, `currentSize` grows by
exactly `size`, `maxSize` and the command cache are unchanged, and
`numVertices` becomes `numVertices + units` reduced modulo `2 ^ 32`, which is
a growth by exactly `units` whenever the sum fits in 32 bits. -/
theorem gsVboAddData_contract (v : gsVbo_s) (data : Option (List Nat)) (size units : Nat)
    (hle : v.currentSize ≤ v.maxSize) (hmax : v.maxSize < 2 ^ 32) :
    gsVboAddData none data size units = some (-1, none) ∧
    ((data = none ∨ size = 0 ∨ v.currentSize + size > v.maxSize) →
      gsVboAddData (some v) data size units = some (-1, some v)) ∧
    (∀ r, gsVboAddData (some v) data size units = some r →
      (r.1 = -1 ↔ (data = none ∨ size = 0 ∨ v.currentSize + size > v.maxSize))) ∧
    (¬ (data = none ∨ size = 0 ∨ v.currentSize + size > v.maxSize) →
      ∀ region, v.data = some region →
      ∃ v', gsVboAddData (some v) data size units = some (0, some v') ∧
        v'.currentSize = v.currentSize + size ∧
        v'.numVertices = (v.numVertices + units) % 2 ^ 32 ∧
        (v.numVertices + units < 2 ^ 32 → v'.numVertices = v.numVertices + units) ∧
        v'.maxSize = v.maxSize ∧ v'.commands = v.commands ∧
        v'.commandsSize = v.commandsSize) := by
  have hroom := s32_diff_eq_room v.maxSize v.currentSize hmax hle
  refine ⟨rfl, ?_, ?_, ?_⟩
  · intro hc
    unfold gsVboAddData
    cases data with
    | none => rfl
    | some src =>
      simp only [hroom]
      rcases hc with hc | hc | hc
      · cases hc
      · rw [if_pos hc]
      · split_ifs with h1 h2
        · rfl
        · rfl
        · omega
  · intro r hr
    unfold gsVboAddData at hr
    cases data with
    | none =>
      simp only [Option.some.injEq] at hr
      subst hr
      simp
    | some src =>
      simp only [hroom] at hr
      split_ifs at hr with h1 h2
      · simp only [Option.some.injEq] at hr
        subst hr
        simp [h1]
      · simp only [Option.some.injEq] at hr
        subst hr
        simp only [true_iff]
        right; right; omega
      · cases hd : v.data with
        | none => rw [hd] at hr; cases hr
        | some region =>
          rw [hd] at hr
          simp only [Option.some.injEq] at hr
          subst hr
          simp only [reduceCtorEq, false_or, h1]
          constructor
          · intro h; exact absurd h (by decide)
          · intro h; omega
  · intro hc region hd
    unfold gsVboAddData
    cases data with
    | none => exact absurd (Or.inl rfl) hc
    | some src =>
      have h1 : ¬ size = 0 := fun h => hc (Or.inr (Or.inl h))
      have h2 : ¬ v.maxSize - v.currentSize < size := fun h => hc (Or.inr (Or.inr (by omega)))
      simp only [hroom, h1, h2, if_false, hd]
      refine ⟨_, rfl, ?_, rfl, ?_, rfl, rfl, rfl⟩
      · simp only [toU32]
        exact Nat.mod_eq_of_lt (by omega)
      · intro hfit
        simp only [toU32]
        exact Nat.mod_eq_of_lt hfit

/-- C9 as amended, on a sample: 144 bytes and 6 vertices appended to an empty
buffer of capacity 288. -/
theorem gsVboAddData_contract_witness :
    ∃ v', gsVboAddData (some ⟨some (List.replicate 288 0), 0, 288, 0, none, 0⟩)
        (some (List.replicate 144 1)) 144 6 = some (0, some v') ∧
      v'.currentSize = 144 ∧ v'.numVertices = 6 ∧ v'.maxSize = 288 := by
  obtain ⟨v', h, hc, hn, _, hm, _⟩ :=
    (gsVboAddData_contract ⟨some (List.replicate 288 0), 0, 288, 0, none, 0⟩
      (some (List.replicate 144 1)) 144 6 (by decide) (by decide)).2.2.2 (by decide) _ rfl
  exact ⟨v', h, hc, hn, hm⟩

/-- C9 fails on the code: on a buffer whose `numVertices` is `2 ^ 32 - 1`, a
successful append of one unit leaves `numVertices` at 0, not grown by 1. -/
theorem gsVboAddData_numVertices_wraps :
    (gsVboAddData (some ⟨some [0], 0, 1, 4294967295, none, 0⟩) (some [7]) 1 1).map
      (fun r => r.1) = some 0 ∧
    ((gsVboAddData (some ⟨some [0], 0, 1, 4294967295, none, 0⟩) (some [7]) 1 1).map
      (fun r => r.2.map (fun v => v.numVertices))) = some (some 0) ∧
    ((gsVboAddData (some ⟨some [0], 0, 1, 4294967295, none, 0⟩) (some [7]) 1 1).map
      (fun r => r.2.map (fun v => v.numVertices))) ≠ some (some (4294967295 + 1)) := by
  decide

/-! ## Failure of the allocation -/

/-- The result of `gsVboCreate` on a non-null buffer is 0 whatever the
allocator returned, so the mesher always takes the branch of success. -/
theorem gsVboCreate_result_ignores_allocator (alloc : Nat → Option (List Nat)) (v : gsVbo_s)
    (size : Nat) :
    (gsVboCreate alloc (some v) size).1 = 0 ∧
    ((gsVboCreate alloc (some v) size).2.map (fun v' => (v'.data, v'.maxSize)))
      = some (alloc size, size) := by
  simp [gsVboCreate]

/-- Whatever the allocator returns, a call of the mesher that returns leaves
the cluster marked as generated. -/
theorem generateWorldClusterGeometry_generated (K : Consts) (bsf : u8 → Int → Int)
    (bgfg : blockFace_s → gsVbo_s → Option gsVbo_s) (alloc : Nat → Option (List Nat))
    (c c' : worldCluster_s) (w : Option world_s)
    (h : generateWorldClusterGeometry K bsf bgfg alloc (some c) w = some (some c')) :
    c'.generated = true := by
  rw [generateWorldClusterGeometry_eq] at h
  obtain ⟨v, _, hv⟩ := Option.map_eq_some'.mp h
  cases hv
  rfl

/-- C10 on the code: the cluster of `K4` all of whose blocks are AIR, meshed
with no world while the allocator returns `NULL`. No face is staged,
`gsVboCreate` returns 0 although the allocation failed, the drain has nothing
to append, and the call returns with `generated` set, on a buffer with no data
and sizes 0: not with `generated` clear. On the cluster with one solid block
at `(1, 1, 1)` six faces are staged, `gsVboCreate` returns 0 as well, and the
first append of the geometry writer writes through the null region: the call
does not return. -/
theorem alloc_failure_leaves_cluster_generated :
    stagedFaces K4 blockShouldBeFace airCluster none = [] ∧
    (gsVboCreate (fun _ => none) (some ⟨none, 0, 0, 0, none, 0⟩) 0).1 = 0 ∧
    (generateWorldClusterGeometry K4 blockShouldBeFace
      (blockGenerateFaceGeometry K4 (fun _ => List.replicate 144 0)) (fun _ => none)
      (some airCluster) none).map (fun r => r.map
        (fun c => (c.generated, c.vbo.data, c.vbo.maxSize, c.vbo.currentSize)))
      = some (some (true, none, 0, 0)) ∧
    (stagedFaces K4 blockShouldBeFace (mkCluster (vect3Di 0 0 0) (oneBlock 1 1 1)) none).length
      = 6 ∧
    (gsVboCreate (fun _ => none) (some ⟨none, 0, 0, 0, none, 0⟩) 864).1 = 0 ∧
    generateWorldClusterGeometry K4 blockShouldBeFace
      (blockGenerateFaceGeometry K4 (fun _ => List.replicate 144 0)) (fun _ => none)
      (some (mkCluster (vect3Di 0 0 0) (oneBlock 1 1 1))) none = none := by
  have hs : stagedFaces K4 blockShouldBeFace (mkCluster (vect3Di 0 0 0) (oneBlock 1 1 1)) none
      = allFacings.map (fun d => blockFace 1 d (vect3Di 1 1 1)) := by decide
  have ha : stagedFaces K4 blockShouldBeFace airCluster none = [] := by decide
  refine ⟨ha, rfl, ?_, by rw [hs]; rfl, rfl, ?_⟩
  · rw [generateWorldClusterGeometry_no_face K4 _ _ _ airCluster none ha]
    rfl
  · have hd : drainFaces (blockGenerateFaceGeometry K4 (fun _ => List.replicate 144 0))
        (allFacings.map (fun d => blockFace 1 d (vect3Di 1 1 1))).reverse
        ⟨none, 0, 864, 0, none, 0⟩ = none := by
      set_option maxRecDepth 8192 in decide
    rw [generateWorldClusterGeometry_eq, hs]
    exact congrArg _ hd

/-! ## Destruction of a buffer -/

/-- What `gsVboDestroy` does to a buffer: every field is reset but
`numVertices`, which keeps its value. -/
theorem gsVboDestroy_eq (v : gsVbo_s) :
    gsVboDestroy (some v) =
      (0, some { data := none, currentSize := 0, maxSize := 0, numVertices := v.numVertices,
                 commands := none, commandsSize := 0 }) := rfl

/-- C11 on the code: a buffer holding 6 faces (864 bytes, 36 vertices, a
compiled cache) is destroyed. `gsVboDestroy` returns 0 and resets `data`,
`commands`, `currentSize`, `maxSize` and `commandsSize`, but `numVertices`
stays at 36: `gsVboInit` does not assign it, while `gsVboCreate` sets it to 0. -/
theorem gsVboDestroy_keeps_numVertices :
    gsVboDestroy (some ⟨some (List.replicate 864 0), 864, 864, 36, some [1, 2], 2⟩) =
      (0, some ⟨none, 0, 0, 36, none, 0⟩) ∧
    ((gsVboDestroy (some ⟨some (List.replicate 864 0), 864, 864, 36, some [1, 2], 2⟩)).2.map
      (fun v => v.numVertices)) ≠ some 0 ∧
    ((gsVboCreate (fun _ => some []) (some ⟨none, 0, 0, 36, none, 0⟩) 0).2.map
      (fun v => v.numVertices)) = some 0 := by
  refine ⟨rfl, ?_, rfl⟩
  rw [gsVboDestroy_eq]
  decide

/-! ## The size invariant of the buffer -/

/-- The invariant of the sizes of a buffer, with the bound of a `u32`. -/
theorem applyOp_size_invariant (v : gsVbo_s) (op : vboOp)
    (h : v.currentSize ≤ v.maxSize ∧ v.maxSize < 2 ^ 32) :
    (applyOp v op).currentSize ≤ (applyOp v op).maxSize ∧ (applyOp v op).maxSize < 2 ^ 32 := by
  cases op with
  | init => simp [applyOp, gsVboInit]
  | create region size =>
    simp only [applyOp, gsVboCreate, Option.getD_some, Nat.zero_le, true_and, toU32]
    exact Nat.mod_lt _ (by norm_num)
  | addData data size units =>
    have hroom := s32_diff_eq_room v.maxSize v.currentSize h.2 h.1
    unfold applyOp gsVboAddData
    cases data with
    | none => exact h
    | some src =>
      simp only [hroom]
      split_ifs with h1 h2
      · exact h
      · exact h
      · have hs : v.currentSize + size % 2 ^ 32 ≤ v.maxSize := by
          simp only [toU32] at h2
          omega
        cases hd : v.data with
        | none => exact h
        | some region =>
          simp only [Option.getD_some, toU32]
          rw [Nat.mod_eq_of_lt (by omega)]
          exact ⟨hs, h.2⟩
  | flushData => simpa [applyOp] using h
  | destroy => simp [applyOp, gsVboDestroy, gsVboInit]

/-- C16: `currentSize ≤ maxSize` holds after `gsVboInit` and after every
sequence of calls of `gsVboInit`, `gsVboCreate`, `gsVboAddData` (succeeding or
failing), `gsVboFlushData` and `gsVboDestroy`, whatever the arguments. -/
theorem vbo_size_invariant (v : gsVbo_s) (ops : List vboOp) :
    (applyOp v .init).currentSize ≤ (applyOp v .init).maxSize ∧
    (applyOps (applyOp v .init) ops).currentSize ≤ (applyOps (applyOp v .init) ops).maxSize := by
  have h0 : (applyOp v .init).currentSize ≤ (applyOp v .init).maxSize ∧
      (applyOp v .init).maxSize < 2 ^ 32 := by simp [applyOp, gsVboInit]
  refine ⟨h0.1, ?_⟩
  have key : ∀ (ops : List vboOp) (u : gsVbo_s),
      (u.currentSize ≤ u.maxSize ∧ u.maxSize < 2 ^ 32) →
      (applyOps u ops).currentSize ≤ (applyOps u ops).maxSize ∧
        (applyOps u ops).maxSize < 2 ^ 32 := by
    intro ops
    induction ops with
    | nil => intro u hu; exact hu
    | cons op ops ih =>
      intro u hu
      exact ih (applyOp u op) (applyOp_size_invariant u op hu)
  exact (key ops _ h0).1

/-! ## The command cache -/

/-- With a cache present, the compilation fails and changes nothing. -/
theorem gsVboPrecomputeCommands_cached (gpuDraw : gsVbo_s → List Nat) (ok : Bool)
    (v : gsVbo_s) (cmds : List Nat) (hc : v.commands = some cmds) :
    gsVboPrecomputeCommands gpuDraw ok (some v) = (-1, some v) := by
  simp [gsVboPrecomputeCommands, hc]

/-- With a cache present, drawing changes nothing in the buffer. -/
theorem gsVboDraw_cached (gpuDraw : gsVbo_s → List Nat) (ok : Bool)
    (v : gsVbo_s) (cmds : List Nat) (hc : v.commands = some cmds) :
    ((gsVboDraw gpuDraw ok (some v)).2).getD v = v := by
  unfold gsVboDraw
  simp only
  split_ifs
  · rfl
  · rw [gsVboPrecomputeCommands_cached gpuDraw ok v cmds hc]
    rfl

/-- With a cache present, a sequence of draws changes nothing in the buffer. -/
theorem drawSeq_cached (gpuDraw : gsVbo_s → List Nat) (oks : List Bool)
    (v : gsVbo_s) (cmds : List Nat) (hc : v.commands = some cmds) :
    drawSeq gpuDraw oks v = v := by
  induction oks with
  | nil => rfl
  | cons ok oks ih =>
    rw [drawSeq, gsVboDraw_cached gpuDraw ok v cmds hc, ih]

/-- C18: the command cache is compiled at most once. With a cache present
`gsVboPrecomputeCommands` returns -1 and changes nothing; the first successful
compilation of a draw on a non-empty buffer sets the cache, and no later
sequence of draws, whatever the outcomes of `malloc`, changes the cache or any
other field; `gsVboDestroy` clears the cache; `gsVboDraw` on an empty buffer
(no data, `currentSize = 0` or `maxSize = 0`) returns -1 and leaves the buffer,
its absent cache included, as it was. -/
theorem command_cache_compiled_once (gpuDraw : gsVbo_s → List Nat) (v : gsVbo_s) :
    (∀ ok cmds, v.commands = some cmds →
      gsVboPrecomputeCommands gpuDraw ok (some v) = (-1, some v)) ∧
    (∀ oks cmds, v.commands = some cmds → drawSeq gpuDraw oks v = v) ∧
    (v.commands = none → v.data.isSome = true → v.currentSize ≠ 0 → v.maxSize ≠ 0 →
      ∃ v', gsVboDraw gpuDraw true (some v) = (0, some v') ∧
        v'.commands = some (gpuDraw v) ∧
        ∀ oks, drawSeq gpuDraw oks v' = v' ∧
          (drawSeq gpuDraw (true :: oks) v).commands = some (gpuDraw v)) ∧
    ((gsVboDestroy (some v)).2.map (fun u => u.commands)) = some none ∧
    (∀ ok, (v.data = none ∨ v.currentSize = 0 ∨ v.maxSize = 0) →
      gsVboDraw gpuDraw ok (some v) = (-1, some v)) := by
  refine ⟨?_, ?_, ?_, rfl, ?_⟩
  · intro ok cmds hc
    exact gsVboPrecomputeCommands_cached gpuDraw ok v cmds hc
  · intro oks cmds hc
    exact drawSeq_cached gpuDraw oks v cmds hc
  · intro hc hd hcur hmax
    have hd' : ¬ (v.data.isNone = true ∨ v.currentSize = 0 ∨ v.maxSize = 0) := by
      cases hv : v.data with
      | none => rw [hv] at hd; cases hd
      | some r => simp [hcur, hmax]
    have hdraw : gsVboDraw gpuDraw true (some v) =
        (0, some { v with commandsSize := toU32 (gpuDraw v).length,
                          commands := some (gpuDraw v) }) := by
      simp only [gsVboDraw, hd', if_false, gsVboPrecomputeCommands, hc, Option.isSome_none,
        Bool.false_eq_true, if_true]
    refine ⟨_, hdraw, rfl, ?_⟩
    intro oks
    have h1 := drawSeq_cached gpuDraw oks
      { v with commandsSize := toU32 (gpuDraw v).length, commands := some (gpuDraw v) }
      (gpuDraw v) rfl
    refine ⟨h1, ?_⟩
    rw [drawSeq, hdraw]
    simp only [Option.getD_some]
    rw [h1]
  · intro ok he
    have he' : (v.data.isNone = true ∨ v.currentSize = 0 ∨ v.maxSize = 0) := by
      rcases he with h | h | h
      · left; rw [h]; rfl
      · right; left; exact h
      · right; right; exact h
    simp only [gsVboDraw, he', if_true]

/-- C18, on a sample: a buffer of 6 faces without cache is drawn; the cache of
the first draw survives two more draws. -/
theorem command_cache_compiled_once_witness :
    (drawSeq (fun u => [u.numVertices, 7]) [true, false, true]
      ⟨some (List.replicate 864 0), 864, 864, 36, none, 0⟩).commands = some [36, 7] := by
  obtain ⟨v', _, _, h⟩ := (command_cache_compiled_once (fun u => [u.numVertices, 7])
    ⟨some (List.replicate 864 0), 864, 864, 36, none, 0⟩).2.2.1 rfl rfl (by decide) (by decide)
  exact (h [false, true]).2

/-! ## Regeneration -/

/-- The scan reads the world only through `getWorldBlock` and the test of the
pointer. -/
theorem scanCluster_world_congr (K : Consts) (bsf : u8 → Int → Int) (c c' : worldCluster_s)
    (w w' : Option world_s) (hd : c'.data = c.data) (hp : c'.position = c.position)
    (hw : sameWorldBlocks K w w') :
    scanCluster K bsf c' w' = scanCluster K bsf c w := by
  unfold scanCluster scanVoxel
  rw [hd, hp]
  simp only [← hw.1, ← hw.2]

theorem stagedFaces_world_congr (K : Consts) (bsf : u8 → Int → Int) (c c' : worldCluster_s)
    (w w' : Option world_s) (hd : c'.data = c.data) (hp : c'.position = c.position)
    (hw : sameWorldBlocks K w w') :
    stagedFaces K bsf c' w' = stagedFaces K bsf c w := by
  unfold stagedFaces
  rw [scanCluster_world_congr K bsf c c' w w' hd hp hw]

/-- The `memcpy` of `gsVboAddData` inside the region keeps its length. -/
theorem memcpyAt_length (region : List Nat) (off : Nat) (src : List Nat) (size : Nat)
    (hr : off + size ≤ region.length) (hs : size ≤ src.length) :
    (memcpyAt region off src size).length = region.length := by
  simp only [memcpyAt, List.length_append, List.length_take, List.length_drop]
  omega

/-- After the `memcpy` of `gsVboAddData` the bytes up to the end of the copy
are the bytes before the offset followed by the bytes copied. -/
theorem memcpyAt_take (region : List Nat) (off : Nat) (src : List Nat) (size : Nat)
    (hr : off + size ≤ region.length) (hs : size ≤ src.length) :
    (memcpyAt region off src size).take (off + size) = region.take off ++ src.take size := by
  unfold memcpyAt
  apply List.take_left'
  simp only [List.length_append, List.length_take]
  omega

/-- The geometry writer of the specification, on two buffers that hold the
same geometry, returns on both and leaves them with the same geometry. -/
theorem blockGenerateFaceGeometry_sameGeometry (K : Consts) (geom : blockFace_s → List Nat)
    (hgeom : ∀ f, K.FACE_VBO_SIZE ≤ (geom f).length)
    (f : blockFace_s) (v v' : gsVbo_s) (h : sameGeometry v v') :
    ∃ v1 v1', blockGenerateFaceGeometry K geom f v = some v1 ∧
      blockGenerateFaceGeometry K geom f v' = some v1' ∧ sameGeometry v1 v1' := by
  obtain ⟨hc, hm, hn, hlt, hle, r, r', hr, hr', hl, hl', ht⟩ := h
  have hroom := s32_diff_eq_room v.maxSize v.currentSize hlt hle
  rw [blockGenerateFaceGeometry_eq, blockGenerateFaceGeometry_eq, ← hc, ← hm, ← hn, hroom]
  by_cases hg : K.FACE_VBO_SIZE = 0 ∨ v.maxSize - v.currentSize < K.FACE_VBO_SIZE
  · rw [if_pos hg, if_pos hg]
    exact ⟨v, v', rfl, rfl, hc, hm, hn, hlt, hle, r, r', hr, hr', hl, hl', ht⟩
  · rw [if_neg hg, if_neg hg, hr, hr']
    have hfit : v.currentSize + K.FACE_VBO_SIZE ≤ v.maxSize := by omega
    have hu : toU32 (v.currentSize + K.FACE_VBO_SIZE) = v.currentSize + K.FACE_VBO_SIZE :=
      Nat.mod_eq_of_lt (by omega)
    refine ⟨_, _, rfl, rfl, rfl, rfl, rfl, hlt, ?_, _, _, rfl, rfl, ?_, ?_, ?_⟩
    · simp only [hu]
      exact hfit
    · simp only
      rw [memcpyAt_length _ _ _ _ (by omega) (hgeom f)]
      exact hl
    · simp only
      rw [memcpyAt_length _ _ _ _ (by omega) (hgeom f)]
      exact hl'
    · simp only [hu]
      rw [memcpyAt_take _ _ _ _ (by omega) (hgeom f),
        memcpyAt_take _ _ _ _ (by omega) (hgeom f), ht]

/-- Draining the same faces into two buffers that hold the same geometry
returns on both and leaves them with the same geometry. -/
theorem drainFaces_sameGeometry (K : Consts) (geom : blockFace_s → List Nat)
    (hgeom : ∀ f, K.FACE_VBO_SIZE ≤ (geom f).length)
    (l : List blockFace_s) (v v' : gsVbo_s) (h : sameGeometry v v') :
    ∃ v1 v1', drainFaces (blockGenerateFaceGeometry K geom) l v = some v1 ∧
      drainFaces (blockGenerateFaceGeometry K geom) l v' = some v1' ∧ sameGeometry v1 v1' := by
  induction l generalizing v v' with
  | nil => exact ⟨v, v', rfl, rfl, h⟩
  | cons f r ih =>
    obtain ⟨v2, v2', h2, h2', hs⟩ := blockGenerateFaceGeometry_sameGeometry K geom hgeom f v v' h
    obtain ⟨v1, v1', h1, h1', hs1⟩ := ih v2 v2' hs
    exact ⟨v1, v1', by rw [drainFaces_cons, h2, Option.some_bind, h1],
      by rw [drainFaces_cons, h2', Option.some_bind, h1'], hs1⟩

/-- Buffers that hold the same geometry have the same vertex bytes. -/
theorem vertexBytes_eq_of_sameGeometry {v v' : gsVbo_s} (h : sameGeometry v v') :
    vertexBytes v = vertexBytes v' := by
  obtain ⟨hc, _, _, _, _, r, r', hr, hr', _, _, ht⟩ := h
  simp only [vertexBytes, hr, hr', Option.map_some', ← hc, ht]

/-- C14 as amended: regeneration idempotence when the allocations succeed. A
second call of the mesher on the cluster the first call left, with a world of
the same blocks, destroys the first buffer and rebuilds it. When the allocator
returns a region for the buffer in both calls (of at least the size asked for,
with any content), and the geometry of a face is a function `geom` of the face
record giving the `FACE_VBO_SIZE` bytes that are copied, both calls return,
they stage the same sequence of faces, the new buffer has the same capacity,
size and vertex count, `generated` is set after both calls, and the vertex
bytes (the `currentSize` first bytes of the region) are the same. -/
theorem regeneration_idempotent (K : Consts) (bsf : u8 → Int → Int)
    (geom : blockFace_s → List Nat) (alloc alloc' : Nat → Option (List Nat))
    (c : worldCluster_s) (w w' : Option world_s) (hw : sameWorldBlocks K w w')
    (hgeom : ∀ f, K.FACE_VBO_SIZE ≤ (geom f).length)
    (ha : allocates alloc (toU32 ((stagedFaces K bsf c w).length * K.FACE_VBO_SIZE)))
    (ha' : allocates alloc' (toU32 ((stagedFaces K bsf c w).length * K.FACE_VBO_SIZE))) :
    ∃ c1 c2,
      generateWorldClusterGeometry K bsf (blockGenerateFaceGeometry K geom) alloc (some c) w
        = some (some c1) ∧
      generateWorldClusterGeometry K bsf (blockGenerateFaceGeometry K geom) alloc' (some c1) w'
        = some (some c2) ∧
      c1.data = c.data ∧ c2.data = c.data ∧
      stagedFaces K bsf c1 w' = stagedFaces K bsf c w ∧
      c2.vbo.maxSize = c1.vbo.maxSize ∧ c2.vbo.currentSize = c1.vbo.currentSize ∧
      c2.vbo.numVertices = c1.vbo.numVertices ∧
      c1.generated = true ∧ c2.generated = true ∧
      vertexBytes c2.vbo = vertexBytes c1.vbo := by
  obtain ⟨r, hr, hl⟩ := ha
  obtain ⟨r', hr', hl'⟩ := ha'
  have hlt : toU32 ((stagedFaces K bsf c w).length * K.FACE_VBO_SIZE) < 2 ^ 32 :=
    Nat.mod_lt _ (by norm_num)
  obtain ⟨v1, v2, h1, h2, hs⟩ := drainFaces_sameGeometry K geom hgeom
    (stagedFaces K bsf c w).reverse
    { data := alloc (toU32 ((stagedFaces K bsf c w).length * K.FACE_VBO_SIZE)),
      currentSize := 0,
      maxSize := toU32 ((stagedFaces K bsf c w).length * K.FACE_VBO_SIZE),
      numVertices := 0,
      commands := if c.generated then none else c.vbo.commands,
      commandsSize := if c.generated then 0 else c.vbo.commandsSize }
    { data := alloc' (toU32 ((stagedFaces K bsf c w).length * K.FACE_VBO_SIZE)),
      currentSize := 0,
      maxSize := toU32 ((stagedFaces K bsf c w).length * K.FACE_VBO_SIZE),
      numVertices := 0, commands := none, commandsSize := 0 }
    ⟨rfl, rfl, rfl, hlt, Nat.zero_le _, r, r', hr, hr', hl, hl', rfl⟩
  have hst : ∀ v, stagedFaces K bsf
      { data := c.data, position := c.position, generated := true, vbo := v } w'
      = stagedFaces K bsf c w := fun v => stagedFaces_world_congr K bsf c _ w w' rfl rfl hw
  refine ⟨{ data := c.data, position := c.position, generated := true, vbo := v1 },
    { data := c.data, position := c.position, generated := true, vbo := v2 }, ?_, ?_, rfl, rfl,
    hst v1, hs.2.1.symm, hs.1.symm, hs.2.2.1.symm, rfl, rfl,
    (vertexBytes_eq_of_sameGeometry hs).symm⟩
  · rw [generateWorldClusterGeometry_eq, h1]
    rfl
  · rw [generateWorldClusterGeometry_eq]
    simp only [hst, if_true]
    rw [h2]
    rfl

/-- C14 as amended, on a sample: the cluster of `K4` with one solid block,
meshed twice with no world, the allocator returning a region of zeros for the
first call and a region of ones for the second. -/
theorem regeneration_idempotent_witness :
    sameWorldBlocks K4 none none ∧
    ∃ c1 c2,
      generateWorldClusterGeometry K4 blockShouldBeFace
        (blockGenerateFaceGeometry K4 (fun _ => List.replicate 144 7))
        (fun n => some (List.replicate n 0))
        (some (mkCluster (vect3Di 0 0 0) (oneBlock 1 1 1))) none = some (some c1) ∧
      generateWorldClusterGeometry K4 blockShouldBeFace
        (blockGenerateFaceGeometry K4 (fun _ => List.replicate 144 7))
        (fun n => some (List.replicate n 1))
        (some c1) none = some (some c2) ∧
      c2.vbo.currentSize = c1.vbo.currentSize ∧ vertexBytes c2.vbo = vertexBytes c1.vbo := by
  refine ⟨⟨rfl, fun _ => rfl⟩, ?_⟩
  obtain ⟨c1, c2, h1, h2, _, _, _, _, h3, _, _, _, h4⟩ :=
    regeneration_idempotent K4 blockShouldBeFace
      (fun _ => List.replicate 144 7) (fun n => some (List.replicate n 0))
      (fun n => some (List.replicate n 1))
      (mkCluster (vect3Di 0 0 0) (oneBlock 1 1 1)) none none ⟨rfl, fun _ => rfl⟩
      (fun _ => by simp [K4]) ⟨_, rfl, by simp⟩ ⟨_, rfl, by simp⟩
  exact ⟨c1, c2, h1, h2, h3, h4⟩

/-- C14 fails on the code: the cluster of `K4` with one solid block at
`(1, 1, 1)` is meshed with no world, the allocator returning a region: the
call returns with `generated` set and the blocks unchanged. It is meshed a
second time on unchanged blocks while the allocator returns `NULL`: the same
six faces are staged, `gsVboCreate` returns 0, and the first append of the
geometry writer writes through the null region, so the second call does not
return with `generated` set and the same buffer as the first. -/
theorem regeneration_fails_when_allocation_fails :
    ∃ c1,
      generateWorldClusterGeometry K4 blockShouldBeFace
        (blockGenerateFaceGeometry K4 (fun _ => List.replicate 144 7))
        (fun n => some (List.replicate n 0))
        (some (mkCluster (vect3Di 0 0 0) (oneBlock 1 1 1))) none = some (some c1) ∧
      c1.generated = true ∧ c1.data = oneBlock 1 1 1 ∧
      (stagedFaces K4 blockShouldBeFace c1 none).length = 6 ∧
      generateWorldClusterGeometry K4 blockShouldBeFace
        (blockGenerateFaceGeometry K4 (fun _ => List.replicate 144 7)) (fun _ => none)
        (some c1) none = none := by
  have hs : stagedFaces K4 blockShouldBeFace (mkCluster (vect3Di 0 0 0) (oneBlock 1 1 1)) none
      = allFacings.map (fun d => blockFace 1 d (vect3Di 1 1 1)) := by decide
  obtain ⟨v1, h1⟩ := drainFaces_isSome K4 (fun _ => List.replicate 144 7)
    (stagedFaces K4 blockShouldBeFace (mkCluster (vect3Di 0 0 0) (oneBlock 1 1 1)) none).reverse
    { data := some (List.replicate (toU32 ((stagedFaces K4 blockShouldBeFace
        (mkCluster (vect3Di 0 0 0) (oneBlock 1 1 1)) none).length * K4.FACE_VBO_SIZE)) 0),
      currentSize := 0,
      maxSize := toU32 ((stagedFaces K4 blockShouldBeFace
        (mkCluster (vect3Di 0 0 0) (oneBlock 1 1 1)) none).length * K4.FACE_VBO_SIZE),
      numVertices := 0, commands := none, commandsSize := 0 } rfl
  have hst : stagedFaces K4 blockShouldBeFace
      { data := oneBlock 1 1 1, position := vect3Di 0 0 0, generated := true, vbo := v1 } none
      = allFacings.map (fun d => blockFace 1 d (vect3Di 1 1 1)) := by
    rw [← hs]
    exact stagedFaces_world_congr K4 _ _ _ none none rfl rfl ⟨rfl, fun _ => rfl⟩
  have hd : drainFaces (blockGenerateFaceGeometry K4 (fun _ => List.replicate 144 7))
      (allFacings.map (fun d => blockFace 1 d (vect3Di 1 1 1))).reverse
      ⟨none, 0, 864, 0, none, 0⟩ = none := by
    set_option maxRecDepth 8192 in decide
  refine ⟨{ data := oneBlock 1 1 1, position := vect3Di 0 0 0, generated := true, vbo := v1 },
    ?_, rfl, rfl, by rw [hst]; rfl, ?_⟩
  · rw [generateWorldClusterGeometry_eq]
    exact congrArg _ h1
  · rw [generateWorldClusterGeometry_eq, hst]
    exact congrArg _ hd

/-! ## Capacity of the staging list -/

theorem length_flatMap_le {α β : Type} (l : List α) (f : α → List β) (b : Nat)
    (h : ∀ a, (f a).length ≤ b) : (l.flatMap f).length ≤ l.length * b := by
  induction l with
  | nil => simp
  | cons a l ih =>
    rw [List.flatMap_cons, List.length_append, List.length_cons, Nat.succ_mul]
    have := h a
    omega

/-- A voxel contributes at most 6 faces. -/
theorem voxelFaces_length_le (K : Consts) (bsf : u8 → Int → Int) (c : worldCluster_s)
    (w : Option world_s) (i j k : Nat) : (voxelFaces K bsf c w i j k).length ≤ 6 := by
  unfold voxelFaces
  split_ifs
  · rw [List.length_map]
    exact List.length_filter_le _ _
  · simp

/-- The scan stages at most `6 * CLUSTER_SIZE ^ 3` faces. -/
theorem stagedFaces_length_le (K : Consts) (bsf : u8 → Int → Int) (c : worldCluster_s)
    (w : Option world_s) : (stagedFaces K bsf c w).length ≤ 6 * K.CLUSTER_SIZE ^ 3 := by
  rw [stagedFaces_eq_flatMap]
  have h3 : ∀ i j, ((List.range K.CLUSTER_SIZE).flatMap
      (fun k => voxelFaces K bsf c w i j k)).length ≤ K.CLUSTER_SIZE * 6 := by
    intro i j
    have := length_flatMap_le (List.range K.CLUSTER_SIZE)
      (fun k => voxelFaces K bsf c w i j k) 6 (fun k => voxelFaces_length_le K bsf c w i j k)
    simpa using this
  have h2 : ∀ i, ((List.range K.CLUSTER_SIZE).flatMap (fun j =>
      (List.range K.CLUSTER_SIZE).flatMap (fun k => voxelFaces K bsf c w i j k))).length
      ≤ K.CLUSTER_SIZE * (K.CLUSTER_SIZE * 6) := by
    intro i
    have := length_flatMap_le (List.range K.CLUSTER_SIZE) (fun j =>
      (List.range K.CLUSTER_SIZE).flatMap (fun k => voxelFaces K bsf c w i j k))
      (K.CLUSTER_SIZE * 6) (fun j => h3 i j)
    simpa using this
  have h1 := length_flatMap_le (List.range K.CLUSTER_SIZE) (fun i =>
      (List.range K.CLUSTER_SIZE).flatMap (fun j =>
      (List.range K.CLUSTER_SIZE).flatMap (fun k => voxelFaces K bsf c w i j k)))
      (K.CLUSTER_SIZE * (K.CLUSTER_SIZE * 6)) h2
  rw [List.length_range] at h1
  calc _ ≤ K.CLUSTER_SIZE * (K.CLUSTER_SIZE * (K.CLUSTER_SIZE * 6)) := h1
    _ = 6 * K.CLUSTER_SIZE ^ 3 := by ring

/-- The write of `pushFace` at an index of the array. -/
theorem take_set_succ {α : Type} (arr : List α) (n : Nat) (a : α) (h : n < arr.length) :
    (arr.set n a).take (n + 1) = arr.take n ++ [a] := by
  induction arr generalizing n with
  | nil => simp at h
  | cons x xs ih =>
    cases n with
    | zero => simp
    | succ m => simp [List.set, ih m (by simpa using h)]

/-- The stack is the content of the array `faceList`: when the array holds the
faces of the stack `l`, oldest first, in its `faceListSize` first entries, a
push whose write is inside the array leaves the array holding the stack after
the push, and a push on a full array writes outside of it. -/
theorem pushFaceArray_refines (arr l : List blockFace_s) (f : blockFace_s)
    (harr : arr.length = FACE_LIST_CAPACITY) (hrep : arr.take l.length = l.reverse) :
    (pushInside l = true → ∃ arr', pushFaceArray arr (pushIndex l) f
        = some (arr', (pushFace l f).length) ∧
      arr'.length = FACE_LIST_CAPACITY ∧
      arr'.take (pushFace l f).length = (pushFace l f).reverse) ∧
    (pushInside l = false → pushFaceArray arr (pushIndex l) f = none) := by
  simp only [pushInside, pushIndex, decide_eq_true_eq, decide_eq_false_iff_not, pushFaceArray,
    harr, pushFace, List.length_cons, List.reverse_cons]
  refine ⟨fun h => ?_, fun h => if_neg h⟩
  rw [if_pos h]
  refine ⟨_, rfl, by rw [List.length_set, harr], ?_⟩
  rw [take_set_succ arr l.length f (by omega), hrep]

/-- The drain loop with enough turns pops the faces from the top of the stack
down, each once: what it has popped followed by what is left is the stack, and
nothing is left when the loop returns. -/
theorem drainLoop_spec (bgfg : blockFace_s → gsVbo_s → Option gsVbo_s) (l : List blockFace_s)
    (n : Nat) (hn : l.length ≤ n) (v : gsVbo_s) :
    (drainLoop bgfg n l v).2.1 ++ (drainLoop bgfg n l v).2.2 = l ∧
    ((drainLoop bgfg n l v).1.isSome = true →
      (drainLoop bgfg n l v).2.1 = l ∧ (drainLoop bgfg n l v).2.2 = []) := by
  induction l generalizing n v with
  | nil => cases n <;> exact ⟨rfl, fun _ => ⟨rfl, rfl⟩⟩
  | cons f r ih =>
    cases n with
    | zero => simp at hn
    | succ m =>
      simp only [drainLoop, popFace]
      cases hb : bgfg f v with
      | none => exact ⟨rfl, fun h => by simp at h⟩
      | some v1 =>
        have h := ih m (by simpa using hn) v1
        simp only [List.cons_append, h.1, true_and]
        intro hs
        exact ⟨by rw [(h.2 hs).1], (h.2 hs).2⟩

/-- With a geometry writer that returns, the drain hands every face of the
stack to the writer, from the top of the stack down, and leaves the stack
empty. -/
theorem drainTrace_returning (bgfg : blockFace_s → gsVbo_s → gsVbo_s) (l : List blockFace_s)
    (v : gsVbo_s) :
    drainTrace (returning bgfg) l v = (some (l.foldl (fun v f => bgfg f v) v), l, []) := by
  have h1 : (drainTrace (returning bgfg) l v).1 = some (l.foldl (fun v f => bgfg f v) v) :=
    drainFaces_returning bgfg l v
  have h2 := (drainLoop_spec (returning bgfg) l l.length (Nat.le_refl _) v).2
    (by rw [show (drainLoop (returning bgfg) l.length l v).1 = _ from h1]; rfl)
  exact Prod.ext h1 (Prod.ext h2.1 h2.2)

/-- C19 as amended: whatever the cluster, the world and the classifier, the
scan pushes at most `6 * CLUSTER_SIZE ^ 3` faces, every push adding on top of
what was pushed before, at the index that is the number of faces pushed
before, with no test of the capacity of 4096 entries. When
`6 * CLUSTER_SIZE ^ 3 ≤ 4096` the count stays within the capacity and every
push of the scan writes inside the array. The drain pops the faces from the
top of the stack down, each at most once; when the geometry writer returns it
pops every staged face exactly once, in the reverse of the order of the
pushes, and ends on the empty list. -/
theorem staging_list_within_capacity (K : Consts) (bsf : u8 → Int → Int)
    (c : worldCluster_s) (w : Option world_s) :
    (stagedFaces K bsf c w).length ≤ 6 * K.CLUSTER_SIZE ^ 3 ∧
    (scanCluster K bsf c w).length = (stagedFaces K bsf c w).length ∧
    (∀ i j k fl, ∃ pushed, scanVoxel K bsf c w i j k fl = pushed ++ fl) ∧
    (6 * K.CLUSTER_SIZE ^ 3 ≤ FACE_LIST_CAPACITY →
      (scanCluster K bsf c w).length ≤ FACE_LIST_CAPACITY ∧
      ∀ f fl, pushFace fl f <:+ scanCluster K bsf c w →
        pushInside fl = true ∧
        ∀ arr, arr.length = FACE_LIST_CAPACITY →
          (pushFaceArray arr (pushIndex fl) f).isSome = true) ∧
    (∀ bgfg v,
      (drainTrace bgfg (scanCluster K bsf c w) v).2.1 ++
        (drainTrace bgfg (scanCluster K bsf c w) v).2.2 = (stagedFaces K bsf c w).reverse ∧
      ((drainTrace bgfg (scanCluster K bsf c w) v).1.isSome = true →
        (drainTrace bgfg (scanCluster K bsf c w) v).2.1 = (stagedFaces K bsf c w).reverse ∧
        (drainTrace bgfg (scanCluster K bsf c w) v).2.2 = [])) ∧
    (∀ bgfg v, drainTrace (returning bgfg) (scanCluster K bsf c w) v =
      (some ((scanCluster K bsf c w).foldl (fun v f => bgfg f v) v),
        (stagedFaces K bsf c w).reverse, [])) := by
  have hl := stagedFaces_length_le K bsf c w
  have hlen : (scanCluster K bsf c w).length = (stagedFaces K bsf c w).length := by
    simp [stagedFaces]
  have hrev : (stagedFaces K bsf c w).reverse = scanCluster K bsf c w := by
    simp [stagedFaces]
  refine ⟨hl, hlen, ?_, ?_, ?_, ?_⟩
  · intro i j k fl
    exact ⟨_, scanVoxel_eq K bsf c w i j k fl⟩
  · intro hcap
    refine ⟨by omega, ?_⟩
    intro f fl hsuf
    have h1 := hsuf.length_le
    have h2 : fl.length < FACE_LIST_CAPACITY := by
      simp only [pushFace, List.length_cons] at h1
      omega
    refine ⟨by simp only [pushInside, pushIndex, decide_eq_true_eq]; exact h2, ?_⟩
    intro arr harr
    simp only [pushFaceArray, pushIndex, harr, h2, if_true, Option.isSome_some]
  · intro bgfg v
    rw [hrev]
    exact drainLoop_spec bgfg (scanCluster K bsf c w) _ (Nat.le_refl _) v
  · intro bgfg v
    rw [drainTrace_returning, hrev]

/-- C19 as amended, on a sample: with clusters of 4 blocks, at most 384 faces
are staged, within the 4096 entries, and the drain with a writer that returns
ends on the empty list. -/
theorem staging_list_within_capacity_witness :
    6 * K4.CLUSTER_SIZE ^ 3 ≤ FACE_LIST_CAPACITY ∧
    (scanCluster K4 blockShouldBeFace sampleCluster (some sampleWorld)).length
      ≤ FACE_LIST_CAPACITY ∧
    (drainTrace (returning (fun _ v => v))
      (scanCluster K4 blockShouldBeFace sampleCluster (some sampleWorld))
      ⟨none, 0, 0, 0, none, 0⟩).2.2 = [] :=
  ⟨by decide,
   ((staging_list_within_capacity K4 blockShouldBeFace sampleCluster
      (some sampleWorld)).2.2.2.1 (by decide)).1,
   congrArg (fun t => t.2.2)
     ((staging_list_within_capacity K4 blockShouldBeFace sampleCluster
        (some sampleWorld)).2.2.2.2.2 (fun _ v => v) ⟨none, 0, 0, 0, none, 0⟩)⟩

/-- The number of faces a voxel of the checkerboard stages with no world: six
for a solid voxel strictly inside the cluster, none for another voxel. -/
theorem voxelFaces_checker_length (i j k : Nat) :
    (voxelFaces K14 blockShouldBeFace checkerCluster none i j k).length =
      if 1 ≤ i ∧ i < 13 ∧ 1 ≤ j ∧ j < 13 ∧ 1 ≤ k ∧ k < 13 ∧ (i + j + k) % 2 = 0
      then 6 else 0 := by
  by_cases hint : isInterior K14 i j k = true
  · have hi' := hint
    simp only [isInterior, decide_eq_true_eq, K14] at hi'
    by_cases hp : (i + j + k) % 2 = 0
    · rw [if_pos ⟨by omega, by omega, by omega, by omega, by omega, by omega, hp⟩]
      have hc : checkerCluster.data i j k = 1 := by
        simp only [checkerCluster, mkCluster, checker]
        rw [if_pos hp]
      have hall : ∀ d, blockShouldBeFace (checkerCluster.data i j k)
          (scanNeighbour K14 checkerCluster none i j k d) ≥ 0 := by
        intro d
        have h0 : scanNeighbour K14 checkerCluster none i j k d = 0 := by
          simp only [scanNeighbour, hint, if_true]
          cases d <;> simp only [checkerCluster, mkCluster, checker] <;>
            rw [if_neg (by omega)] <;> rfl
        rw [hc, h0]
        exact blockShouldBeFace_solid_air 1 (by decide)
      unfold voxelFaces
      simp only [hint, Bool.true_or, if_true]
      rw [List.filter_eq_self.mpr (fun d _ => by simpa using hall d)]
      rfl
    · rw [if_neg (fun h => hp h.2.2.2.2.2.2)]
      rw [voxelFaces_air K14 checkerCluster none i j k (by
        simp only [checkerCluster, mkCluster, checker]
        rw [if_neg hp]
        rfl)]
      rfl
  · have hn : ¬ (1 ≤ i ∧ i < 13 ∧ 1 ≤ j ∧ j < 13 ∧ 1 ≤ k ∧ k < 13 ∧ (i + j + k) % 2 = 0) := by
      intro h
      apply hint
      simp only [isInterior, decide_eq_true_eq, K14]
      omega
    rw [if_neg hn]
    simp only [Bool.not_eq_true] at hint
    simp [voxelFaces, hint]

set_option maxRecDepth 100000 in
/-- The checkerboard of `K14` meshed with no world stages 5184 faces. -/
theorem stagedFaces_checker_length :
    (stagedFaces K14 blockShouldBeFace checkerCluster none).length = 5184 := by
  rw [stagedFaces_eq_flatMap]
  simp only [List.length_flatMap, Function.comp_def, voxelFaces_checker_length]
  decide

/-- C19 fails on the code: with clusters of 14 blocks, the cluster filled in a
checkerboard, meshed with no world, stages 5184 faces, six for each of the 864
solid blocks strictly inside it, which is more than the 4096 entries of the
staging list; the last push writes at the index 5183, outside the array. -/
theorem staging_list_overflows :
    (stagedFaces K14 blockShouldBeFace checkerCluster none).length = 5184 ∧
    (scanCluster K14 blockShouldBeFace checkerCluster none).length = 5184 ∧
    ¬ (scanCluster K14 blockShouldBeFace checkerCluster none).length ≤ FACE_LIST_CAPACITY ∧
    pushIndex (scanCluster K14 blockShouldBeFace checkerCluster none).tail = 5183 ∧
    pushInside (scanCluster K14 blockShouldBeFace checkerCluster none).tail = false := by
  have h := stagedFaces_checker_length
  have hlen : (scanCluster K14 blockShouldBeFace checkerCluster none).length = 5184 := by
    rw [← h]
    simp [stagedFaces]
  refine ⟨h, hlen, ?_, ?_, ?_⟩
  · rw [hlen]
    decide
  · simp only [pushIndex, List.length_tail, hlen]
  · simp only [pushInside, pushIndex, List.length_tail, hlen]
    decide

/-! ## The two ways of reading a neighbour -/

/-- C20: the two neighbour-resolution paths of the mesher agree. For a cluster
stored in the world at its position, `getWorldBlock` at the cluster position
times `CLUSTER_SIZE` plus a local index in range is the block of the cluster
at that index; hence for every voxel and direction whose neighbour lies inside
the cluster, the neighbour read through the world is the block of the cluster,
and the faces staged for every voxel are those decided on the neighbours read
from the cluster when inside it. The position invariant of the world is not
needed beyond the cluster being stored at its position. -/
theorem neighbour_paths_agree (K : Consts) (w : world_s) (c : worldCluster_s)
    (h : clusterStoredIn K w c) :
    (∀ i j k, i < K.CLUSTER_SIZE → j < K.CLUSTER_SIZE → k < K.CLUSTER_SIZE →
      getWorldBlock K (some w) (vaddi (vmuli c.position K.CLUSTER_SIZE) (vect3Di i j k)) =
        ((c.data i j k).val : Int)) ∧
    (∀ i j k d, inCluster K (vaddi (vect3Di i j k) (facingOffset d)) = true →
      getWorldBlock K (some w) (vaddi (vmuli c.position K.CLUSTER_SIZE)
          (vaddi (vect3Di i j k) (facingOffset d))) =
        ((c.data (vaddi (vect3Di i j k) (facingOffset d)).x.toNat
          (vaddi (vect3Di i j k) (facingOffset d)).y.toNat
          (vaddi (vect3Di i j k) (facingOffset d)).z.toNat).val : Int)) ∧
    (∀ (bsf : u8 → Int → Int) i j k d,
      bsf (c.data i j k) (scanNeighbour K c (some w) i j k d) =
        bsf (c.data i j k) (neighbourBlock K c (some w) i j k d)) ∧
    (∀ (bsf : u8 → Int → Int), stagedFaces K bsf c (some w) = specFaces K bsf c (some w)) := by
  refine ⟨fun i j k hi hj hk => getWorldBlock_of_stored K w c h i j k hi hj hk, ?_, ?_, ?_⟩
  · intro i j k d hq
    have hq' := hq
    simp only [inCluster, decide_eq_true_eq] at hq'
    have hv := vect3Di_toNat _ hq'.1 hq'.2.2.1 hq'.2.2.2.2.1
    have e := getWorldBlock_of_stored K w c h
      (vaddi (vect3Di i j k) (facingOffset d)).x.toNat
      (vaddi (vect3Di i j k) (facingOffset d)).y.toNat
      (vaddi (vect3Di i j k) (facingOffset d)).z.toNat (by omega) (by omega) (by omega)
    rw [← hv] at e
    exact e
  · intro bsf i j k d
    rw [scanNeighbour_eq_neighbourBlock K w c h]
  · intro bsf
    exact stagedFaces_eq_specFaces_of_stored K bsf w c h

/-- In a world satisfying the position invariant, every cluster of the grid
is stored in the world at its position. -/
theorem clusterStoredIn_of_invariant (K : Consts) (w : world_s)
    (hinv : worldPositionInvariant K w) (i j k : Nat) (hi : i < K.WORLD_SIZE)
    (hj : j < K.WORLD_SIZE) (hk : k < K.CHUNK_HEIGHT) (ch : worldChunk_s)
    (hch : w.data i j = some ch) : clusterStoredIn K w (ch.data k) := by
  obtain ⟨hp, hc⟩ := hinv i j hi hj ch hch
  have hpos : (ch.data k).position = vect3Di i k j := by
    rw [hc k hk, hp]
    rfl
  unfold clusterStoredIn
  rw [hpos]
  simp only [vect3Di, Int.toNat_ofNat, Nat.cast_nonneg, Nat.cast_lt, true_and]
  exact ⟨hi, hk, hj, ch, hch, rfl⟩

/-- C20, on a sample: the cluster of the sample world holding its solid
block, read back through the world. -/
theorem neighbour_paths_agree_witness :
    clusterStoredIn K4 sampleWorld sampleCluster ∧
    getWorldBlock K4 (some sampleWorld)
        (vaddi (vmuli sampleCluster.position K4.CLUSTER_SIZE) (vect3Di (1 : Nat) (2 : Nat) (3 : Nat)))
      = ((sampleCluster.data 1 2 3).val : Int) :=
  ⟨⟨by decide, by decide, by decide, by decide, by decide, by decide, _, rfl, rfl⟩,
   (neighbour_paths_agree K4 sampleWorld sampleCluster
      ⟨by decide, by decide, by decide, by decide, by decide, by decide, _, rfl, rfl⟩).1
      1 2 3 (by decide) (by decide) (by decide)⟩

/-! ## Loops that assign the entries of an array -/

/-- A loop over `j < n` that assigns entry `j` from its old value. -/
theorem foldl_update_range {α : Type} (g : Nat → α → α) (n : Nat) (f : Nat → α) :
    (List.range n).foldl (fun d j => Function.update d j (g j (d j))) f =
      fun a => if a < n then g a (f a) else f a := by
  induction n with
  | zero => simp
  | succ n ih =>
    rw [List.range_succ, List.foldl_append, ih]
    funext a
    simp only [List.foldl_cons, List.foldl_nil, Function.update_apply, Nat.lt_irrefl, if_false]
    by_cases h1 : a = n
    · subst h1; simp
    · by_cases h2 : a < n
      · simp [h1, h2, Nat.lt_succ_of_lt h2]
      · have : ¬ a < n + 1 := by omega
        simp [h1, h2, this]

/-- A loop over `j < m` that assigns the cell `(i, j)` of a grid from its old
value. -/
theorem foldl_setCell_row {α : Type} (G : Nat → Nat → α → α) (i m : Nat) (f : Nat → Nat → α) :
    (List.range m).foldl (fun d j => setCell d i j (G i j (d i j))) f =
      fun a b => if a = i ∧ b < m then G a b (f a b) else f a b := by
  induction m with
  | zero => simp
  | succ m ih =>
    rw [List.range_succ, List.foldl_append, ih]
    funext a b
    simp only [List.foldl_cons, List.foldl_nil, setCell, Function.update_apply]
    by_cases h1 : a = i
    · subst h1
      by_cases h2 : b = m
      · subst h2; simp
      · by_cases h3 : b < m
        · simp [h2, h3, Nat.lt_succ_of_lt h3]
        · have : ¬ b < m + 1 := by omega
          simp [h2, h3, this]
    · simp [h1]

/-- Two nested loops that assign every cell `(i, j)`, `i < n`, `j < m`, of a
grid from its old value. -/
theorem foldl_setCell_grid {α : Type} (G : Nat → Nat → α → α) (n m : Nat) (f : Nat → Nat → α) :
    (List.range n).foldl (fun d i =>
      (List.range m).foldl (fun d j => setCell d i j (G i j (d i j))) d) f =
      fun a b => if a < n ∧ b < m then G a b (f a b) else f a b := by
  induction n with
  | zero => simp
  | succ n ih =>
    rw [List.range_succ, List.foldl_append, ih]
    simp only [List.foldl_cons, List.foldl_nil, foldl_setCell_row]
    funext a b
    by_cases h1 : a = n
    · subst h1
      by_cases h3 : b < m
      · simp [h3]
      · simp [h3]
    · by_cases h2 : a < n
      · simp [h1, h2, Nat.lt_succ_of_lt h2]
      · have : ¬ a < n + 1 := by omega
        simp [h1, h2, this]

/-- The loop over `j < m` of the filling of a column `(i, k)`. -/
theorem foldl_setBlock_column (V : Nat → Nat → Nat → u8) (i k m : Nat)
    (d : Nat → Nat → Nat → u8) :
    (List.range m).foldl (fun d j => setBlock d i j k (V i j k)) d =
      fun a b c => if a = i ∧ c = k ∧ b < m then V a b c else d a b c := by
  induction m with
  | zero => simp
  | succ m ih =>
    rw [List.range_succ, List.foldl_append, ih]
    funext a b c
    simp only [List.foldl_cons, List.foldl_nil, setBlock]
    by_cases h1 : a = i
    · by_cases h2 : c = k
      · subst h1; subst h2
        by_cases h3 : b = m
        · subst h3; simp
        · by_cases h4 : b < m
          · simp [h3, h4, Nat.lt_succ_of_lt h4]
          · have : ¬ b < m + 1 := by omega
            simp [h3, h4, this]
      · simp [h2]
    · simp [h1]

/-- The loops over `k < n` and `j < m` of the filling of a slice `i`. -/
theorem foldl_setBlock_slice (V : Nat → Nat → Nat → u8) (i n m : Nat)
    (d : Nat → Nat → Nat → u8) :
    (List.range n).foldl (fun d k =>
      (List.range m).foldl (fun d j => setBlock d i j k (V i j k)) d) d =
      fun a b c => if a = i ∧ c < n ∧ b < m then V a b c else d a b c := by
  induction n with
  | zero => simp
  | succ n ih =>
    rw [List.range_succ, List.foldl_append, ih]
    simp only [List.foldl_cons, List.foldl_nil, foldl_setBlock_column]
    funext a b c
    by_cases h1 : a = i
    · subst h1
      by_cases h2 : c = n
      · subst h2
        by_cases h3 : b < m <;> simp [h3]
      · by_cases h4 : c < n
        · simp [h2, h4, Nat.lt_succ_of_lt h4]
        · have : ¬ c < n + 1 := by omega
          simp [h2, h4, this]
    · simp [h1]

/-- The three nested loops of the filling of a cluster. -/
theorem foldl_setBlock_cube (V : Nat → Nat → Nat → u8) (l n m : Nat)
    (d : Nat → Nat → Nat → u8) :
    (List.range l).foldl (fun d i =>
      (List.range n).foldl (fun d k =>
        (List.range m).foldl (fun d j => setBlock d i j k (V i j k)) d) d) d =
      fun a b c => if a < l ∧ c < n ∧ b < m then V a b c else d a b c := by
  induction l with
  | zero => simp
  | succ l ih =>
    rw [List.range_succ, List.foldl_append, ih]
    simp only [List.foldl_cons, List.foldl_nil, foldl_setBlock_slice]
    funext a b c
    by_cases h1 : a = l
    · subst h1
      by_cases h3 : c < n ∧ b < m
      · simp [h3]
      · simp [h3]
    · by_cases h2 : a < l
      · simp [h1, h2, Nat.lt_succ_of_lt h2]
      · have : ¬ a < l + 1 := by omega
        simp [h1, h2, this]

/-! ## Closed forms of the initialisation and of the filling -/

/-- What `generateWorldClusterData` leaves: every block of the cluster is
assigned, the buffer of a generated cluster is destroyed, the flag is kept. -/
theorem generateWorldClusterData_eq (K : Consts) (noise : Int → Int → Int)
    (c : worldCluster_s) :
    generateWorldClusterData K noise (some c) =
      some { data := fun a b e =>
               if a < K.CLUSTER_SIZE ∧ e < K.CLUSTER_SIZE ∧ b < K.CLUSTER_SIZE
               then columnBlock K noise c.position a b e else c.data a b e,
             position := c.position,
             vbo := if c.generated then ((gsVboDestroy (some c.vbo)).2).getD c.vbo else c.vbo,
             generated := c.generated } := by
  have key := foldl_setBlock_cube (fun a b e => columnBlock K noise c.position a b e)
    K.CLUSTER_SIZE K.CLUSTER_SIZE K.CLUSTER_SIZE c.data
  unfold generateWorldClusterData
  simp only [columnBlock] at key
  simp only [key]
  rfl

/-- What `initWorldChunk` leaves. -/
theorem initWorldChunk_eq (K : Consts) (ch : worldChunk_s) (pos : vect3Di_s) :
    initWorldChunk K (some ch) pos =
      some { data := fun j =>
               if j < K.CHUNK_HEIGHT then
                 { data := fun _ _ _ => 0, position := vect3Di pos.x j pos.z,
                   vbo := ((gsVboInit (some (ch.data j).vbo)).2).getD (ch.data j).vbo,
                   generated := false }
               else ch.data j,
             position := pos } := by
  have key := foldl_update_range
    (fun j c => ((initWorldCluster (some c) (vect3Di pos.x j pos.z)).getD c))
    K.CHUNK_HEIGHT ch.data
  unfold initWorldChunk
  simp only at key
  simp only [key]
  rfl

/-- What `generateWorldChunkData` leaves. -/
theorem generateWorldChunkData_eq (K : Consts) (noise : Int → Int → Int) (ch : worldChunk_s) :
    generateWorldChunkData K noise (some ch) =
      some { data := fun k =>
               if k < K.CHUNK_HEIGHT then
                 (generateWorldClusterData K noise (some (ch.data k))).getD (ch.data k)
               else ch.data k,
             position := ch.position } := by
  have key := foldl_update_range
    (fun _ c => ((generateWorldClusterData K noise (some c)).getD c))
    K.CHUNK_HEIGHT ch.data
  unfold generateWorldChunkData
  simp only at key
  simp only [key]

/-- What `generateWorldChunkGeometry` leaves, for a chunk apart from the world. -/
theorem generateWorldChunkGeometry_eq (K : Consts) (bsf : u8 → Int → Int)
    (bgfg : blockFace_s → gsVbo_s → gsVbo_s) (alloc : Nat → Option (List Nat))
    (ch : worldChunk_s) (w : Option world_s) :
    generateWorldChunkGeometry K bsf bgfg alloc (some ch) w =
      some { data := fun k =>
               if k < K.CHUNK_HEIGHT then meshCluster K bsf bgfg alloc (ch.data k) w
               else ch.data k,
             position := ch.position } := by
  have key := foldl_update_range
    (fun _ c => meshCluster K bsf bgfg alloc c w)
    K.CHUNK_HEIGHT ch.data
  unfold generateWorldChunkGeometry
  simp only at key
  simp only [key]

/-- What the data pass of `generateWorld` leaves in the cells of the grid. -/
theorem generateWorldDataPass_eq (K : Consts) (noise : Int → Int → Int) (w : world_s) :
    (generateWorldDataPass K noise w).data = fun i j =>
      if i < K.WORLD_SIZE ∧ j < K.WORLD_SIZE then
        generateWorldChunkData K noise (initWorldChunk K (w.data i j) (vect3Di i 0 j))
      else w.data i j := by
  have key := foldl_setCell_grid
    (fun (i j : Nat) (c : Option worldChunk_s) =>
      generateWorldChunkData K noise (initWorldChunk K c (vect3Di i 0 j)))
    K.WORLD_SIZE K.WORLD_SIZE w.data
  unfold generateWorldDataPass
  simp only at key
  simp only [key]

/-- What `initWorld` leaves in the cells of the grid. -/
theorem initWorld_eq (K : Consts) (malloc : Nat → Nat → Option worldChunk_s) (w : world_s) :
    initWorld K malloc (some w) =
      some { data := fun i j =>
               if i < K.WORLD_SIZE ∧ j < K.WORLD_SIZE then
                 initWorldChunk K (malloc i j) (vect3Di i 0 j)
               else w.data i j } := by
  have key := foldl_setCell_grid
    (fun (i j : Nat) (_ : Option worldChunk_s) => initWorldChunk K (malloc i j) (vect3Di i 0 j))
    K.WORLD_SIZE K.WORLD_SIZE w.data
  unfold initWorld
  simp only at key
  simp only [key]

/-! ## The data pass of `generateWorld` -/

/-- After the data pass, the chunk of a cell of the grid that held a chunk: it
is at `(i, 0, j)`, its cluster `k` is at `(i, k, j)` and every block of the
cluster is the block of the filling rule. -/
theorem generateWorldDataPass_cell (K : Consts) (noise : Int → Int → Int) (w : world_s)
    (i j : Nat) (hi : i < K.WORLD_SIZE) (hj : j < K.WORLD_SIZE) (ch0 : worldChunk_s)
    (h0 : w.data i j = some ch0) :
    ∃ ch, (generateWorldDataPass K noise w).data i j = some ch ∧
      ch.position = vect3Di i 0 j ∧
      ∀ k, k < K.CHUNK_HEIGHT →
        (ch.data k).position = vect3Di i k j ∧
        (ch.data k).generated = false ∧
        ∀ a b e, a < K.CLUSTER_SIZE → b < K.CLUSTER_SIZE → e < K.CLUSTER_SIZE →
          (ch.data k).data a b e = columnBlock K noise (vect3Di i k j) a b e := by
  have hcell : (generateWorldDataPass K noise w).data i j =
      generateWorldChunkData K noise (initWorldChunk K (some ch0) (vect3Di i 0 j)) := by
    rw [generateWorldDataPass_eq]
    simp only [hi, hj, and_self, if_true, h0]
  rw [hcell, initWorldChunk_eq, generateWorldChunkData_eq]
  refine ⟨_, rfl, rfl, ?_⟩
  intro k hk
  simp only [hk, if_true, generateWorldClusterData_eq, Option.getD_some]
  refine ⟨rfl, trivial, ?_⟩
  intro a b e ha hb he
  simp only [ha, hb, he, and_self, if_true]
  rfl

/-- C12: after the data pass of `generateWorld` on a fully populated world,
the block read by `getWorldBlock` at a position in range is GRASS when `y` is
below the elevation of the column `(x, z)` and AIR otherwise, the elevation
depending on `x` and `z` only; every block of every cluster of the grid is
assigned by that rule, whatever it held before. -/
theorem data_pass_fills_columns (K : Consts) (noise : Int → Int → Int) (w : world_s)
    (hw : worldPopulated K w) :
    (∀ p, worldInRange K p →
      getWorldBlock K (some (generateWorldDataPass K noise w)) p =
        if p.y < getWorldElevation K noise p then ((BLOCK_GRASS.val : Nat) : Int)
        else ((BLOCK_AIR.val : Nat) : Int)) ∧
    (∀ p q : vect3Di_s, p.x = q.x → p.z = q.z →
      getWorldElevation K noise p = getWorldElevation K noise q) ∧
    (∀ i j, i < K.WORLD_SIZE → j < K.WORLD_SIZE →
      ∃ ch, (generateWorldDataPass K noise w).data i j = some ch ∧
        ∀ k, k < K.CHUNK_HEIGHT →
          ∀ a b e, a < K.CLUSTER_SIZE → b < K.CLUSTER_SIZE → e < K.CLUSTER_SIZE →
            (ch.data k).data a b e = columnBlock K noise (vect3Di i k j) a b e) := by
  refine ⟨?_, ?_, ?_⟩
  · intro p hp
    obtain ⟨hx, hy, hz⟩ := worldInRange_toNat K p hp
    have hpc := vect3Di_toNat p hp.1 hp.2.2.1 hp.2.2.2.2.1
    have hc : 0 < K.CLUSTER_SIZE := pos_of_lt_mul hx
    generalize p.x.toNat = x at hx hpc
    generalize p.y.toNat = y at hy hpc
    generalize p.z.toNat = z at hz hpc
    subst hpc
    obtain ⟨ch0, h0⟩ := populated_chunk K w hw x z hx hz
    obtain ⟨ch, h1, _, h2⟩ := generateWorldDataPass_cell K noise w (x / K.CLUSTER_SIZE)
      (z / K.CLUSTER_SIZE) (div_lt_of_lt_mul_right hx) (div_lt_of_lt_mul_right hz) ch0 h0
    rw [getWorldBlock_natCast K _ x y z hx hy hz, h1]
    simp only
    rw [(h2 (y / K.CLUSTER_SIZE) (div_lt_of_lt_mul_right hy)).2.2 _ _ _ (Nat.mod_lt _ hc)
      (Nat.mod_lt _ hc) (Nat.mod_lt _ hc)]
    have ex : ((x % K.CLUSTER_SIZE : Nat) : Int) + ((x / K.CLUSTER_SIZE : Nat) : Int) *
        (K.CLUSTER_SIZE : Int) = (x : Int) := by
      rw [add_comm]; exact natCast_div_mul_add_mod x K.CLUSTER_SIZE
    have ey : ((y / K.CLUSTER_SIZE : Nat) : Int) * (K.CLUSTER_SIZE : Int) +
        ((y % K.CLUSTER_SIZE : Nat) : Int) = (y : Int) := natCast_div_mul_add_mod y K.CLUSTER_SIZE
    have ez : ((z % K.CLUSTER_SIZE : Nat) : Int) + ((z / K.CLUSTER_SIZE : Nat) : Int) *
        (K.CLUSTER_SIZE : Int) = (z : Int) := by
      rw [add_comm]; exact natCast_div_mul_add_mod z K.CLUSTER_SIZE
    simp only [columnBlock, getWorldElevation, vect3Di, ex, ey, ez]
    split_ifs <;> rfl
  · intro p q hx hz
    simp only [getWorldElevation, hx, hz]
  · intro i j hi hj
    obtain ⟨ch0, h0⟩ := Option.isSome_iff_exists.mp (hw i j hi hj)
    obtain ⟨ch, h1, _, h2⟩ := generateWorldDataPass_cell K noise w i j hi hj ch0 h0
    exact ⟨ch, h1, fun k hk => (h2 k hk).2.2⟩

/-- C12, on a sample: the data pass over the sample world with a flat noise. -/
theorem data_pass_fills_columns_witness :
    worldPopulated K4 sampleWorld ∧
    getWorldBlock K4 (some (generateWorldDataPass K4 (fun _ _ => 1) sampleWorld))
        (vect3Di 5 4 7) =
      if (vect3Di 5 4 7).y < getWorldElevation K4 (fun _ _ => 1) (vect3Di 5 4 7)
      then ((BLOCK_GRASS.val : Nat) : Int) else ((BLOCK_AIR.val : Nat) : Int) :=
  ⟨fun _ _ _ _ => rfl,
   (data_pass_fills_columns K4 (fun _ _ => 1) sampleWorld (fun _ _ _ _ => rfl)).1
     (vect3Di 5 4 7) (by decide)⟩

/-! ## Worlds that differ by buffers and flags only -/

theorem chunkSame_refl (a : worldChunk_s) : chunkSame a a :=
  ⟨rfl, fun _ => ⟨rfl, rfl⟩⟩

theorem chunkSame_trans {a b c : worldChunk_s} (h1 : chunkSame a b) (h2 : chunkSame b c) :
    chunkSame a c :=
  ⟨h1.1.trans h2.1, fun k => ⟨(h1.2 k).1.trans (h2.2 k).1, (h1.2 k).2.trans (h2.2 k).2⟩⟩

theorem cellSame_refl (x : Option worldChunk_s) : cellSame x x := by
  cases x with
  | none => exact trivial
  | some a => exact chunkSame_refl a

theorem cellSame_trans {x y z : Option worldChunk_s} (h1 : cellSame x y) (h2 : cellSame y z) :
    cellSame x z := by
  cases x <;> cases y <;> cases z <;> simp only [cellSame] at h1 h2 ⊢
  exact chunkSame_trans h1 h2

theorem worldSame_refl (w : world_s) : worldSame w w := fun i j => cellSame_refl (w.data i j)

theorem worldSame_trans {a b c : world_s} (h1 : worldSame a b) (h2 : worldSame b c) :
    worldSame a c := fun i j => cellSame_trans (h1 i j) (h2 i j)

/-- Cells that are the same are both empty or both not. -/
theorem cellSame_isSome {x y : Option worldChunk_s} (h : cellSame x y) :
    x.isSome = y.isSome := by
  cases x <;> cases y <;> simp only [cellSame] at h <;> rfl

/-- The chunk getter reads the same block in chunks that are the same. -/
theorem getWorldChunkBlock_cellSame (K : Consts) {x y : Option worldChunk_s}
    (h : cellSame x y) (p : vect3Di_s) :
    getWorldChunkBlock K x p = getWorldChunkBlock K y p := by
  cases x with
  | none =>
    cases y with
    | none => rfl
    | some b => exact absurd h (by simp [cellSame])
  | some a =>
    cases y with
    | none => exact absurd h (by simp [cellSame])
    | some b =>
      simp only [cellSame] at h
      simp only [getWorldChunkBlock, getWorldClusterBlock, (h.2 _).1]

/-- `getWorldBlock` reads the same blocks in worlds that are the same. -/
theorem sameWorldBlocks_of_worldSame (K : Consts) {w w' : world_s} (h : worldSame w w') :
    sameWorldBlocks K (some w) (some w') := by
  refine ⟨rfl, fun p => ?_⟩
  simp only [getWorldBlock]
  split_ifs
  · rfl
  · exact getWorldChunkBlock_cellSame K (h _ _) _

/-- The position invariant holds in a world that is the same as one in which
it holds. -/
theorem worldPositionInvariant_of_worldSame (K : Consts) {w w' : world_s}
    (h : worldSame w w') (hinv : worldPositionInvariant K w) : worldPositionInvariant K w' := by
  intro i j hi hj ch' hch'
  have hc := h i j
  rw [hch'] at hc
  cases hw : w.data i j with
  | none => rw [hw] at hc; exact absurd hc (by simp [cellSame])
  | some ch =>
    rw [hw] at hc
    simp only [cellSame] at hc
    obtain ⟨hp, hk⟩ := hinv i j hi hj ch hw
    refine ⟨hc.1 ▸ hp, ?_⟩
    intro k hkk
    rw [← (hc.2 k).2, ← hc.1]
    exact hk k hkk

/-- Assigning a cell that is the same as the old one gives the same world. -/
theorem worldSame_setCell (w : world_s) (i j : Nat) (x : Option worldChunk_s)
    (h : cellSame (w.data i j) x) : worldSame w { data := setCell w.data i j x } := by
  intro a b
  simp only [setCell]
  by_cases h1 : a = i
  · subst h1
    rw [Function.update_same]
    by_cases h2 : b = j
    · subst h2
      rw [Function.update_same]
      exact h
    · rw [Function.update_noteq h2]
      exact cellSame_refl _
  · rw [Function.update_noteq h1]
    exact cellSame_refl _

/-- Meshing a cluster of the world in place gives the same world. -/
theorem meshClusterIn_worldSame (K : Consts) (bsf : u8 → Int → Int)
    (bgfg : blockFace_s → gsVbo_s → gsVbo_s) (alloc : Nat → Option (List Nat))
    (st : world_s × List meshRecord) (i j k : Nat) :
    worldSame st.1 (meshClusterIn K bsf bgfg alloc st i j k).1 := by
  unfold meshClusterIn
  cases hch : st.1.data i j with
  | none => exact worldSame_refl _
  | some ch =>
    simp only
    apply worldSame_setCell
    rw [hch]
    simp only [cellSame, chunkSame, true_and]
    intro k'
    simp only [Function.update_apply]
    by_cases hk : k' = k
    · subst hk
      simp only [if_true, meshCluster_eq, and_self]
    · simp only [hk, if_false, and_self]

/-! ## The geometry pass of `generateWorld` -/

theorem chunkSame_symm {a b : worldChunk_s} (h : chunkSame a b) : chunkSame b a :=
  ⟨h.1.symm, fun k => ⟨(h.2 k).1.symm, (h.2 k).2.symm⟩⟩

theorem cellSame_symm {x y : Option worldChunk_s} (h : cellSame x y) : cellSame y x := by
  cases x <;> cases y <;> simp only [cellSame] at h ⊢
  exact chunkSame_symm h

theorem worldSame_symm {a b : world_s} (h : worldSame a b) : worldSame b a :=
  fun i j => cellSame_symm (h i j)

/-- A loop whose steps keep an invariant and append keys to a record. -/
theorem foldl_inv_keys {σ α κ : Type} (f : σ → α → σ) (R : σ → Prop) (keys : σ → List κ)
    (g : α → List κ) (hstep : ∀ s a, R s → R (f s a) ∧ keys (f s a) = keys s ++ g a)
    (l : List α) (s : σ) (hs : R s) :
    R (l.foldl f s) ∧ keys (l.foldl f s) = keys s ++ l.flatMap g := by
  induction l generalizing s with
  | nil => simp [hs]
  | cons a l ih =>
    obtain ⟨h1, h2⟩ := hstep s a hs
    obtain ⟨h3, h4⟩ := ih (f s a) h1
    refine ⟨h3, ?_⟩
    rw [List.foldl_cons, h4, h2, List.flatMap_cons, List.append_assoc]

/-- The faces staged for a cluster are the same in worlds that are the same. -/
theorem stagedFaces_worldSame (K : Consts) (bsf : u8 → Int → Int) {w w' : world_s}
    (h : worldSame w w') (i j k : Nat) (ch ch' : worldChunk_s) (hch : w.data i j = some ch)
    (hch' : w'.data i j = some ch') :
    stagedFaces K bsf (ch'.data k) (some w') = stagedFaces K bsf (ch.data k) (some w) := by
  have hc := h i j
  rw [hch, hch'] at hc
  simp only [cellSame] at hc
  exact stagedFaces_world_congr K bsf (ch.data k) (ch'.data k) (some w) (some w')
    (hc.2 k).1.symm (hc.2 k).2.symm (sameWorldBlocks_of_worldSame K h)

/-- One call of the mesher in place keeps the invariant of the pass and
records the cluster. -/
theorem meshClusterIn_step (K : Consts) (bsf : u8 → Int → Int)
    (bgfg : blockFace_s → gsVbo_s → gsVbo_s) (alloc : Nat → Option (List Nat)) (w1 : world_s)
    (i j : Nat) (st : world_s × List meshRecord) (k : Nat) (hs : passInvariant K bsf w1 st) :
    passInvariant K bsf w1 (meshClusterIn K bsf bgfg alloc st i j k) ∧
    (meshClusterIn K bsf bgfg alloc st i j k).2.map Prod.fst =
      st.2.map Prod.fst ++ (if (w1.data i j).isSome then [(i, j, k)] else []) := by
  have hsame := meshClusterIn_worldSame K bsf bgfg alloc st i j k
  have hsome := cellSame_isSome (hs.1 i j)
  unfold meshClusterIn at hsame ⊢
  cases hch : st.1.data i j with
  | none =>
    rw [hch] at hsome
    simp only [hsome, Option.isSome_none, Bool.false_eq_true, if_false, List.append_nil, and_true]
    exact hs
  | some ch =>
    rw [hch] at hsome hsame
    simp only at hsame
    simp only [hsome, Option.isSome_some, if_true, List.map_append, List.map_cons, List.map_nil,
      and_true]
    refine ⟨worldSame_trans hs.1 hsame, ?_⟩
    intro e he
    rcases List.mem_append.mp he with h1 | h1
    · exact hs.2 e h1
    · simp only [List.mem_singleton] at h1
      subst h1
      intro w' hw' ch' hch'
      exact (stagedFaces_worldSame K bsf (worldSame_trans (worldSame_symm hs.1) hw') i j k ch ch'
        hch hch').symm

/-- The meshing of a chunk in place keeps the invariant of the pass and
records the clusters of the chunk, from the bottom up. -/
theorem generateWorldChunkGeometryIn_step (K : Consts) (bsf : u8 → Int → Int)
    (bgfg : blockFace_s → gsVbo_s → gsVbo_s) (alloc : Nat → Option (List Nat)) (w1 : world_s)
    (i : Nat) (st : world_s × List meshRecord) (j : Nat) (hs : passInvariant K bsf w1 st) :
    passInvariant K bsf w1 (generateWorldChunkGeometryIn K bsf bgfg alloc st i j) ∧
    (generateWorldChunkGeometryIn K bsf bgfg alloc st i j).2.map Prod.fst =
      st.2.map Prod.fst ++
        (if (w1.data i j).isSome then (List.range K.CHUNK_HEIGHT).map (fun k => (i, j, k))
         else []) := by
  have hsome := cellSame_isSome (hs.1 i j)
  unfold generateWorldChunkGeometryIn
  cases hch : st.1.data i j with
  | none =>
    rw [hch] at hsome
    simp only [hsome, Option.isSome_none, Bool.false_eq_true, if_false, List.append_nil, and_true]
    exact hs
  | some ch =>
    rw [hch] at hsome
    have key := foldl_inv_keys (fun st k => meshClusterIn K bsf bgfg alloc st i j k)
      (passInvariant K bsf w1) (fun st => st.2.map Prod.fst)
      (fun k => if (w1.data i j).isSome then [(i, j, k)] else [])
      (fun s k hR => meshClusterIn_step K bsf bgfg alloc w1 i j s k hR)
      (List.range K.CHUNK_HEIGHT) st hs
    simp only [hsome, Option.isSome_some, if_true] at key ⊢
    refine ⟨key.1, ?_⟩
    rw [key.2]
    congr 1
    induction (List.range K.CHUNK_HEIGHT) with
    | nil => rfl
    | cons a l ih => simp [List.flatMap_cons, ih]

/-- The geometry pass keeps the invariant of the pass and records the clusters
of the chunks of the grid, in the order of the loops. -/
theorem generateWorldGeometryPass_inv (K : Consts) (bsf : u8 → Int → Int)
    (bgfg : blockFace_s → gsVbo_s → gsVbo_s) (alloc : Nat → Option (List Nat)) (w1 : world_s)
    (st : world_s × List meshRecord) (hs : passInvariant K bsf w1 st) :
    passInvariant K bsf w1 (generateWorldGeometryPass K bsf bgfg alloc st) ∧
    (generateWorldGeometryPass K bsf bgfg alloc st).2.map Prod.fst =
      st.2.map Prod.fst ++ meshedClusters K w1 := by
  unfold generateWorldGeometryPass meshedClusters
  exact foldl_inv_keys _ (passInvariant K bsf w1) (fun st => st.2.map Prod.fst) _
    (fun s i hR => foldl_inv_keys _ (passInvariant K bsf w1) (fun st => st.2.map Prod.fst) _
      (fun s' j hR' => generateWorldChunkGeometryIn_step K bsf bgfg alloc w1 i s' j hR')
      (List.range K.WORLD_SIZE) s hR)
    (List.range K.WORLD_SIZE) st hs

/-- The clusters recorded by the geometry pass lie in cells that hold a chunk. -/
theorem mem_meshedClusters_isSome (K : Consts) (w : world_s) (i j k : Nat)
    (h : (i, j, k) ∈ meshedClusters K w) : (w.data i j).isSome = true := by
  simp only [meshedClusters, List.mem_flatMap, List.mem_range] at h
  obtain ⟨a, _, b, _, hm⟩ := h
  by_cases hs : (w.data a b).isSome = true
  · simp only [hs, if_true, List.mem_map, Prod.mk.injEq] at hm
    obtain ⟨_, _, rfl, rfl, _⟩ := hm
    exact hs
  · simp [hs] at hm

/-- C13: two-phase ordering in `generateWorld`, for every classifier, every
geometry writer that returns and every allocator. The geometry pass runs on the
world the data pass left for the whole grid; meshing changes no block and no
position of any cluster, so the final world has the blocks of the filled
world; the calls of the mesher are those of the clusters of the chunks of the
grid, once each, in the order of the loops; and the faces each call staged are
the faces the mesher stages for that cluster in the final world, which are
also those it stages in the world as the data pass left it. -/
theorem generateWorld_two_phase (K : Consts) (bsf : u8 → Int → Int)
    (bgfg : blockFace_s → gsVbo_s → gsVbo_s) (alloc : Nat → Option (List Nat))
    (noise : Int → Int → Int) (w0 : world_s) :
    ∃ wf records,
      generateWorldTraced K bsf bgfg alloc noise (some w0) = some (wf, records) ∧
      generateWorld K bsf bgfg alloc noise (some w0) = some wf ∧
      (wf, records) =
        generateWorldGeometryPass K bsf bgfg alloc (generateWorldDataPass K noise w0, []) ∧
      worldSame (generateWorldDataPass K noise w0) wf ∧
      (∀ p, getWorldBlock K (some wf) p =
        getWorldBlock K (some (generateWorldDataPass K noise w0)) p) ∧
      records.map Prod.fst = meshedClusters K (generateWorldDataPass K noise w0) ∧
      (∀ e ∈ records, ∃ chf ch1,
        wf.data e.1.1 e.1.2.1 = some chf ∧
        (generateWorldDataPass K noise w0).data e.1.1 e.1.2.1 = some ch1 ∧
        e.2 = stagedFaces K bsf (chf.data e.1.2.2) (some wf) ∧
        e.2 = stagedFaces K bsf (ch1.data e.1.2.2) (some (generateWorldDataPass K noise w0))) := by
  have h0 : passInvariant K bsf (generateWorldDataPass K noise w0)
      (generateWorldDataPass K noise w0, []) :=
    ⟨worldSame_refl _, fun e he => absurd he (List.not_mem_nil e)⟩
  obtain ⟨hinv, hkeys⟩ := generateWorldGeometryPass_inv K bsf bgfg alloc
    (generateWorldDataPass K noise w0) (generateWorldDataPass K noise w0, []) h0
  refine ⟨(generateWorldGeometryPass K bsf bgfg alloc (generateWorldDataPass K noise w0, [])).1,
    (generateWorldGeometryPass K bsf bgfg alloc (generateWorldDataPass K noise w0, [])).2,
    rfl, rfl, rfl, hinv.1, ?_, ?_, ?_⟩
  · intro p
    exact ((sameWorldBlocks_of_worldSame K hinv.1).2 p).symm
  · simpa using hkeys
  · intro e he
    have hk : e.1 ∈ meshedClusters K (generateWorldDataPass K noise w0) := by
      have : e.1 ∈ (generateWorldGeometryPass K bsf bgfg alloc
          (generateWorldDataPass K noise w0, [])).2.map Prod.fst := List.mem_map_of_mem _ he
      rw [hkeys] at this
      simpa using this
    have hs1 := mem_meshedClusters_isSome K _ e.1.1 e.1.2.1 e.1.2.2 hk
    obtain ⟨ch1, hch1⟩ := Option.isSome_iff_exists.mp hs1
    have hsf : (((generateWorldGeometryPass K bsf bgfg alloc
        (generateWorldDataPass K noise w0, [])).1).data e.1.1 e.1.2.1).isSome = true := by
      rw [← cellSame_isSome (hinv.1 e.1.1 e.1.2.1)]
      exact hs1
    obtain ⟨chf, hchf⟩ := Option.isSome_iff_exists.mp hsf
    exact ⟨chf, ch1, hchf, hch1, hinv.2 e he _ hinv.1 chf hchf,
      hinv.2 e he _ (worldSame_refl _) ch1 hch1⟩

/-! ## The position invariant of chunks and worlds -/

/-- A loop whose steps keep an invariant keeps it. -/
theorem foldl_inv {σ α : Type} (f : σ → α → σ) (R : σ → Prop)
    (hstep : ∀ s a, R s → R (f s a)) (l : List α) (s : σ) (hs : R s) : R (l.foldl f s) := by
  induction l generalizing s with
  | nil => exact hs
  | cons a l ih => exact ih (f s a) (hstep s a hs)

/-- The meshing of a chunk of the world in place gives the same world. -/
theorem generateWorldChunkGeometryIn_worldSame (K : Consts) (bsf : u8 → Int → Int)
    (bgfg : blockFace_s → gsVbo_s → gsVbo_s) (alloc : Nat → Option (List Nat))
    (st : world_s × List meshRecord) (i j : Nat) :
    worldSame st.1 (generateWorldChunkGeometryIn K bsf bgfg alloc st i j).1 := by
  unfold generateWorldChunkGeometryIn
  cases st.1.data i j with
  | none => exact worldSame_refl _
  | some ch =>
    exact foldl_inv (fun s k => meshClusterIn K bsf bgfg alloc s i j k)
      (fun s => worldSame st.1 s.1)
      (fun s k hR => worldSame_trans hR (meshClusterIn_worldSame K bsf bgfg alloc s i j k))
      (List.range K.CHUNK_HEIGHT) st (worldSame_refl _)

/-- After the data pass the world satisfies the position invariant. -/
theorem generateWorldDataPass_positionInvariant (K : Consts) (noise : Int → Int → Int)
    (w : world_s) : worldPositionInvariant K (generateWorldDataPass K noise w) := by
  intro i j hi hj ch hch
  cases h0 : w.data i j with
  | none =>
    rw [generateWorldDataPass_eq] at hch
    simp only [hi, hj, and_self, if_true, h0] at hch
    cases hch
  | some ch0 =>
    obtain ⟨ch', h1, h2, h3⟩ := generateWorldDataPass_cell K noise w i j hi hj ch0 h0
    rw [h1] at hch
    cases hch
    refine ⟨h2, ?_⟩
    intro k hk
    rw [(h3 k hk).1, h2]
    rfl

/-- The world `generateWorld` leaves is the same as the world its data pass
leaves. -/
theorem generateWorld_worldSame (K : Consts) (bsf : u8 → Int → Int)
    (bgfg : blockFace_s → gsVbo_s → gsVbo_s) (alloc : Nat → Option (List Nat))
    (noise : Int → Int → Int) (w0 : world_s) :
    ∃ wf, generateWorld K bsf bgfg alloc noise (some w0) = some wf ∧
      worldSame (generateWorldDataPass K noise w0) wf := by
  have h0 : passInvariant K bsf (generateWorldDataPass K noise w0)
      (generateWorldDataPass K noise w0, []) :=
    ⟨worldSame_refl _, fun e he => absurd he (List.not_mem_nil e)⟩
  exact ⟨_, rfl, (generateWorldGeometryPass_inv K bsf bgfg alloc
    (generateWorldDataPass K noise w0) (generateWorldDataPass K noise w0, []) h0).1.1⟩

/-- C15: the position invariant of chunks. After `initWorldChunk(chunk, pos)`
the chunk is at `pos` and every cluster `j` of its stack is at
`(pos.x, j, pos.z)` with all blocks AIR, `generated` clear and an empty buffer;
`generateWorldChunkData` and `generateWorldChunkGeometry` keep the position of
the chunk and the invariant; after `initWorld` and after `generateWorld` the
chunk of every cell `(i, j)` of the grid that holds one is at `(i, 0, j)` and
satisfies the invariant. -/
theorem chunk_position_invariant (K : Consts) :
    (∀ (ch : worldChunk_s) (pos : vect3Di_s), ∃ ch', initWorldChunk K (some ch) pos = some ch' ∧
      ch'.position = pos ∧ chunkPositionInvariant K ch' ∧
      ∀ j, j < K.CHUNK_HEIGHT →
        (ch'.data j).position = vect3Di pos.x j pos.z ∧
        (∀ a b e, (ch'.data j).data a b e = BLOCK_AIR) ∧
        (ch'.data j).generated = false ∧ vboEmpty (ch'.data j).vbo) ∧
    (∀ (noise : Int → Int → Int) (ch : worldChunk_s), chunkPositionInvariant K ch →
      ∃ ch', generateWorldChunkData K noise (some ch) = some ch' ∧
        ch'.position = ch.position ∧ chunkPositionInvariant K ch') ∧
    (∀ (bsf : u8 → Int → Int) (bgfg : blockFace_s → gsVbo_s → gsVbo_s)
      (alloc : Nat → Option (List Nat)) (w : Option world_s) (ch : worldChunk_s),
      chunkPositionInvariant K ch →
      ∃ ch', generateWorldChunkGeometry K bsf bgfg alloc (some ch) w = some ch' ∧
        ch'.position = ch.position ∧ chunkPositionInvariant K ch') ∧
    (∀ (bsf : u8 → Int → Int) (bgfg : blockFace_s → gsVbo_s → gsVbo_s)
      (alloc : Nat → Option (List Nat)) (st : world_s × List meshRecord) (i j : Nat),
      worldPositionInvariant K st.1 →
      worldPositionInvariant K (generateWorldChunkGeometryIn K bsf bgfg alloc st i j).1) ∧
    (∀ (malloc : Nat → Nat → Option worldChunk_s) (w0 : world_s),
      ∃ w', initWorld K malloc (some w0) = some w' ∧ worldPositionInvariant K w') ∧
    (∀ (bsf : u8 → Int → Int) (bgfg : blockFace_s → gsVbo_s → gsVbo_s)
      (alloc : Nat → Option (List Nat)) (noise : Int → Int → Int) (w0 : world_s),
      ∃ wf, generateWorld K bsf bgfg alloc noise (some w0) = some wf ∧
        worldPositionInvariant K wf) := by
  have hinit : ∀ (ch : worldChunk_s) (pos : vect3Di_s), ∃ ch',
      initWorldChunk K (some ch) pos = some ch' ∧
      ch'.position = pos ∧ chunkPositionInvariant K ch' ∧
      ∀ j, j < K.CHUNK_HEIGHT →
        (ch'.data j).position = vect3Di pos.x j pos.z ∧
        (∀ a b e, (ch'.data j).data a b e = BLOCK_AIR) ∧
        (ch'.data j).generated = false ∧ vboEmpty (ch'.data j).vbo := by
    intro ch pos
    refine ⟨_, initWorldChunk_eq K ch pos, rfl, ?_, ?_⟩
    · intro j hj
      simp only [hj, if_true]
    · intro j hj
      simp only [hj, if_true, true_and]
      refine ⟨fun _ _ _ => rfl, ?_⟩
      simp [vboEmpty, gsVboInit]
  have hdata : ∀ (noise : Int → Int → Int) (ch : worldChunk_s), chunkPositionInvariant K ch →
      ∃ ch', generateWorldChunkData K noise (some ch) = some ch' ∧
        ch'.position = ch.position ∧ chunkPositionInvariant K ch' := by
    intro noise ch hinv
    refine ⟨_, generateWorldChunkData_eq K noise ch, rfl, ?_⟩
    intro k hk
    simp only [hk, if_true, generateWorldClusterData_eq, Option.getD_some]
    exact hinv k hk
  refine ⟨hinit, hdata, ?_, ?_, ?_, ?_⟩
  · intro bsf bgfg alloc w ch hinv
    refine ⟨_, generateWorldChunkGeometry_eq K bsf bgfg alloc ch w, rfl, ?_⟩
    intro k hk
    simp only [hk, if_true, meshCluster_eq]
    exact hinv k hk
  · intro bsf bgfg alloc st i j hinv
    exact worldPositionInvariant_of_worldSame K
      (generateWorldChunkGeometryIn_worldSame K bsf bgfg alloc st i j) hinv
  · intro malloc w0
    refine ⟨_, initWorld_eq K malloc w0, ?_⟩
    intro i j hi hj ch hch
    simp only [hi, hj, and_self, if_true] at hch
    cases hm : malloc i j with
    | none => rw [hm] at hch; cases hch
    | some c0 =>
      rw [hm] at hch
      obtain ⟨ch', h1, h2, h3, _⟩ := hinit c0 (vect3Di i 0 j)
      rw [h1] at hch
      cases hch
      exact ⟨h2, h3⟩
  · intro bsf bgfg alloc noise w0
    obtain ⟨wf, hg, hsame⟩ := generateWorld_worldSame K bsf bgfg alloc noise w0
    exact ⟨wf, hg, worldPositionInvariant_of_worldSame K hsame
      (generateWorldDataPass_positionInvariant K noise w0)⟩

/-! ## The flag `generated` -/

/-- After `initWorldCluster` the flag is clear; after a call of the mesher
that returns it is set and the capacity of the buffer is the number of faces
of the blocks of the cluster times `FACE_VBO_SIZE`, as a `u32`. -/
theorem generated_after_init_and_mesh (K : Consts) (bsf : u8 → Int → Int)
    (geom : blockFace_s → List Nat) (alloc : Nat → Option (List Nat)) (c : worldCluster_s)
    (w : Option world_s) (pos : vect3Di_s) :
    ((initWorldCluster (some c) pos).map (fun c' => c'.generated)) = some false ∧
    ∀ c', generateWorldClusterGeometry K bsf (blockGenerateFaceGeometry K geom) alloc (some c) w
        = some (some c') → c'.generated = true ∧ c'.data = c.data ∧
      c'.vbo.maxSize = toU32 ((stagedFaces K bsf c' w).length * K.FACE_VBO_SIZE) := by
  refine ⟨rfl, ?_⟩
  intro c' h
  rw [generateWorldClusterGeometry_eq] at h
  obtain ⟨v, hv, hc⟩ := Option.map_eq_some'.mp h
  cases hc
  refine ⟨rfl, rfl, ?_⟩
  simp only [drainFaces_maxSize K geom _ _ _ hv]
  refine congrArg (fun l => toU32 (List.length l * K.FACE_VBO_SIZE)) ?_
  exact (stagedFaces_world_congr K bsf c _ w w rfl rfl ⟨rfl, fun _ => rfl⟩).symm

/-- What `generateWorldClusterData` does to a generated cluster: the buffer is
destroyed and the flag stays set. -/
theorem generateWorldClusterData_keeps_generated (K : Consts) (noise : Int → Int → Int)
    (c : worldCluster_s) (hg : c.generated = true) :
    ∃ c', generateWorldClusterData K noise (some c) = some c' ∧ c'.generated = true ∧
      c'.vbo.data = none ∧ c'.vbo.currentSize = 0 ∧ c'.vbo.maxSize = 0 := by
  refine ⟨_, generateWorldClusterData_eq K noise c, hg, ?_⟩
  simp [hg, gsVboDestroy, gsVboInit]

/-- C17 on the code: the generated cluster of `K4` with one solid block is
refilled by `generateWorldClusterData` (elevation 2 everywhere). The buffer is
destroyed, its capacity is 0, but `generated` is still set, while the new
blocks have 4 faces to stage: the flag no longer tells that the buffer holds
the geometry of the blocks. The mesher, on the same cluster, clears the flag
right after destroying the buffer. -/
theorem refill_leaves_generated_set :
    meshedCluster.generated = true ∧
    ((generateWorldClusterData K4 (fun _ _ => -2) (some meshedCluster)).map
      (fun c => (c.generated, c.vbo.data, c.vbo.maxSize))) = some (true, none, 0) ∧
    ((generateWorldClusterData K4 (fun _ _ => -2) (some meshedCluster)).map
      (fun c => (stagedFaces K4 blockShouldBeFace c none).length)) = some 4 := by
  refine ⟨rfl, ?_, ?_⟩
  · rw [generateWorldClusterData_eq]
    rfl
  · rw [generateWorldClusterData_eq]
    decide

/-! ## The bound of the staging list is reached -/

theorem length_flatMap_const {α β : Type} (l : List α) (f : α → List β) (b : Nat)
    (h : ∀ a, (f a).length = b) : (l.flatMap f).length = l.length * b := by
  induction l with
  | nil => simp
  | cons a l ih =>
    rw [List.flatMap_cons, List.length_append, List.length_cons, Nat.succ_mul, ih, h a]
    omega

/-- With a world and a classifier that always answers positively, the scan
stages exactly `6 * CLUSTER_SIZE ^ 3` faces: the capacity of 4096 suffices for
every classifier only when `6 * CLUSTER_SIZE ^ 3 ≤ 4096`. -/
theorem stagedFaces_length_of_always_positive (K : Consts) (c : worldCluster_s) (w : world_s) :
    (stagedFaces K (fun _ _ => 0) c (some w)).length = 6 * K.CLUSTER_SIZE ^ 3 := by
  have hv : ∀ i j k, (voxelFaces K (fun _ _ => 0) c (some w) i j k).length = 6 := by
    intro i j k
    simp [voxelFaces]
  rw [stagedFaces_eq_flatMap]
  rw [length_flatMap_const _ _ (K.CLUSTER_SIZE * (K.CLUSTER_SIZE * 6))]
  · rw [List.length_range]; ring
  · intro i
    rw [length_flatMap_const _ _ (K.CLUSTER_SIZE * 6)]
    · rw [List.length_range]
    · intro j
      rw [length_flatMap_const _ _ 6 (fun k => hv i j k), List.length_range]

end Craft
